import Mathlib

/-!
# RWA launchpad contracts: deployment scripts and contract behaviour

A shallow embedding of `scripts/config.js`, `scripts/deploy.js` and
`scripts/verify.js`, and of the contracts exercised by the test suites
(`RWA`, `RWALaunchpad`), followed by the properties proved about them.
-/

set_option autoImplicit false

/-! ## JavaScript values used by the scripts -/

namespace Js

/-- A primitive stored in a nested object literal: a string or a number
(`none` is `NaN`). -/
inductive Prim where
  | str (s : String)
  | num (n : Option Int)
  deriving DecidableEq, Repr

/-- The values the scripts handle: `undefined`, booleans, strings, numbers and
the flat parameter objects of `config.js`. -/
inductive Val where
  | undefined
  | bool (b : Bool)
  | str (s : String)
  | num (n : Option Int)
  | obj (fields : List (String × Prim))
  deriving DecidableEq, Repr

/-- An object literal is its list of `key: value` entries in source order. -/
abbrev Obj := List (String × Val)

/-- Truthiness (`if (v)`, `!!v`, the left operand of `&&` and `||`). -/
def Val.truthy : Val → Bool
  | .undefined => false
  | .bool b => b
  | .str s => s != ""
  | .num none => false
  | .num (some n) => n != 0
  | .obj _ => true

/-- The operator `typeof v`. -/
def Val.typeOf : Val → String
  | .undefined => "undefined"
  | .bool _ => "boolean"
  | .str _ => "string"
  | .num _ => "number"
  | .obj _ => "object"

/-- The operator `a && b`: the left operand when it is falsy, else the right. -/
def Val.and (a b : Val) : Val := if a.truthy then b else a

/-- The operator `a || b`: the left operand when it is truthy, else the right. -/
def Val.or (a b : Val) : Val := if a.truthy then a else b

/-- A primitive as a value. -/
def Prim.toVal : Prim → Val
  | .str s => .str s
  | .num n => .num n

/-- Property read `o.k` on an object literal: when a key is written twice the
later entry is the property's value; a missing key reads `undefined`. -/
def getProp : Obj → String → Val
  | [], _ => .undefined
  | (k', v) :: rest, k =>
    match getProp rest k with
    | .undefined => if k' = k then v else .undefined
    | w => w

/-- Property read `v.k` on a value: a field of a parameter object, `undefined`
on a primitive. -/
def Val.field : Val → String → Val
  | .obj fields, k => getProp (fields.map fun p => (p.1, p.2.toVal)) k
  | _, _ => .undefined

/-- String conversion as done by a template literal `${v}`. -/
def Val.toStr : Val → String
  | .undefined => "undefined"
  | .bool b => if b then "true" else "false"
  | .str s => s
  | .num none => "NaN"
  | .num (some n) => toString n
  | .obj _ => "[object Object]"

/-- The method `toLowerCase()` on a string value. -/
def Val.toLowerCase : Val → Val
  | .str s => .str (String.mk (s.data.map Char.toLower))
  | v => v

/-- White space skipped by `parseInt` at the start of its argument: the white
space and line terminators of ECMAScript. -/
def isStrWhiteSpace (c : Char) : Bool :=
  c == '\t' || c == '\n' || c == '\x0b' || c == '\x0c' || c == '\r' || c == ' ' ||
  c == '\u00a0' || c == '\u1680' || (decide (0x2000 ≤ c.toNat) && decide (c.toNat ≤ 0x200a)) ||
  c == '\u2028' || c == '\u2029' || c == '\u202f' || c == '\u205f' || c == '\u3000' ||
  c == '\ufeff'

/-- The number of binary digits of `n` beyond 53, counted in at most `fuel`
halvings: what a double has to drop from a whole number. -/
def excessBits : Nat → Nat → Nat
  | 0, _ => 0
  | fuel + 1, n => if n < 2 ^ 53 then 0 else excessBits fuel (n / 2) + 1

/-- The double nearest to the whole number `n`, a tie going to the even
significand: `n` itself below `2^53`, else `n` rounded to a multiple of `2^e`
with 53 binary digits left. Whole numbers beyond the largest double, which
read `Infinity`, are outside what `Val` holds. -/
def toDouble (n : Nat) : Nat :=
  let e := excessBits n n
  let q := n / 2 ^ e
  let r := n % 2 ^ e
  let rounded := if 2 * r < 2 ^ e then q else if 2 * r > 2 ^ e then q + 1
    else if q % 2 = 0 then q else q + 1
  rounded * 2 ^ e

/-- Value of a digit in the given radix (10 or 16). -/
def digitVal (radix : Nat) (c : Char) : Option Nat :=
  if c.isDigit then some (c.toNat - '0'.toNat)
  else if radix = 16 ∧ 'a'.toNat ≤ c.toNat ∧ c.toNat ≤ 'f'.toNat then some (c.toNat - 'a'.toNat + 10)
  else if radix = 16 ∧ 'A'.toNat ≤ c.toNat ∧ c.toNat ≤ 'F'.toNat then some (c.toNat - 'A'.toNat + 10)
  else none

/-- Longest prefix of digits, as their values. -/
def leadingDigits (radix : Nat) : List Char → List Nat
  | [] => []
  | c :: cs =>
    match digitVal radix c with
    | some d => d :: leadingDigits radix cs
    | none => []

/-- The function `parseInt(s)` with no radix argument: leading white space, an
optional sign, an optional `0x` prefix, then the longest run of digits; `none`
(`NaN`) when there is no digit. The result is a number, that is the double
nearest to the whole number the digits write. -/
def parseInt (s : String) : Option Int :=
  let cs := s.data.dropWhile isStrWhiteSpace
  let signed : Bool × List Char :=
    match cs with
    | '-' :: r => (true, r)
    | '+' :: r => (false, r)
    | _ => (false, cs)
  let based : Nat × List Char :=
    match signed.2 with
    | '0' :: 'x' :: r => (16, r)
    | '0' :: 'X' :: r => (16, r)
    | r => (10, r)
  let ds := leadingDigits based.1 based.2
  if ds.isEmpty then none
  else
    let n : Nat := toDouble (ds.foldl (fun acc d => acc * based.1 + d) 0)
    some (if signed.1 then -(n : Int) else (n : Int))

end Js

/-! ## scripts/config.js -/

namespace Config

open Js

/-- The variables of `process.env`: each is a string or absent. -/
abbrev ProcessEnv := String → Option String

/-- The expression `process.env.X || dflt`. -/
def envOr (v : Option String) (dflt : String) : String :=
  match v with
  | some s => if s = "" then dflt else s
  | none => dflt

/-- The object literal `config` of `config.js`, entry by entry in source
order (the key `gla` is written twice, lines 20 and 39). -/
def config (env : ProcessEnv) : Obj :=
  [ ("network", .str (envOr (env "NETWORK") "hardhat")),
    ("rwa", .str (envOr (env "RWA_ADDRESS") "")),
    ("prRWA", .str (envOr (env "PRRWA_ADDRESS") "")),
    ("stableRwa", .str (envOr (env "STABLE_RWA_ADDRESS") "")),
    ("marketProxy", .str (envOr (env "MARKET_PROXY_ADDRESS") "")),
    ("stakePoolProxy", .str (envOr (env "STAKEPOOL_PROXY_ADDRESS") "")),
    ("bankProxy", .str (envOr (env "BANK_PROXY_ADDRESS") "")),
    ("helper", .str (envOr (env "HELPER_ADDRESS") "")),
    ("gla", .str (envOr (env "GLA_ADDRESS") "")),
    ("usdc", .str (envOr (env "USDC_ADDRESS") "0xA0b86991c6218b36c1d19D4a2e9Eb0cE3606eB48")),
    ("stakePool", .obj
      [ ("mintPercentPerDay", .num (parseInt (envOr (env "MINT_PERCENT_PER_DAY") "10"))),
        ("blocksPerDay", .num (parseInt (envOr (env "BLOCKS_PER_DAY") "7200"))),
        ("withdrawFee", .num (parseInt (envOr (env "WITHDRAW_FEE") "50"))),
        ("mintFee", .num (parseInt (envOr (env "MINT_FEE") "50"))) ]),
    ("bank", .obj
      [ ("borrowFee", .num (parseInt (envOr (env "BORROW_FEE") "50"))) ]),
    ("gla", .obj
      [ ("beforeWhitelistInterval", .num (parseInt (envOr (env "BEFORE_WHITELIST_INTERVAL") "86400"))),
        ("whitelistInterval", .num (parseInt (envOr (env "WHITELIST_INTERVAL") "259200"))),
        ("publicOfferingInterval", .num (parseInt (envOr (env "PUBLIC_OFFERING_INTERVAL") "604800"))),
        ("initInterval", .num (parseInt (envOr (env "INIT_INTERVAL") "86400"))),
        ("whitelistPrice", .str (envOr (env "WHITELIST_PRICE") "1000000")),
        ("publicOfferingPrice", .str (envOr (env "PUBLIC_OFFERING_PRICE") "1200000")),
        ("softCap", .str (envOr (env "SOFT_CAP") "500000000000")),
        ("hardCap", .str (envOr (env "HARD_CAP") "2000000000000")),
        ("whitelistMaxCapPerUser", .str (envOr (env "WHITELIST_MAX_CAP_PER_USER") "5000000000")) ]) ]

/-- The method `isTestnet()`. -/
def isTestnet (cfg : Obj) : Bool :=
  [Val.str "hardhat", Val.str "localhost", Val.str "fuji"].contains (getProp cfg "network")

/-- The method `hasDeployedContracts()`:
`!!(this.rwa && this.prRWA && this.stableRwa && this.marketProxy &&
this.stakePoolProxy && this.bankProxy)`. -/
def hasDeployedContracts (cfg : Obj) : Bool :=
  ((((((getProp cfg "rwa").and (getProp cfg "prRWA")).and (getProp cfg "stableRwa")).and
    (getProp cfg "marketProxy")).and (getProp cfg "stakePoolProxy")).and
    (getProp cfg "bankProxy")).truthy

end Config

/-! ## scripts/deploy.js -/

namespace Deploy

open Js Config

/-- What hardhat, the node and the clock answer during one run of a script. -/
structure World where
  /-- The value `network.name`. -/
  networkName : String
  /-- The value `(await provider.getNetwork()).chainId`. -/
  chainId : Nat
  /-- The value `network.config.url`, absent on the in-process network. -/
  url : Option String
  /-- The value `await provider.getBlockNumber()`. -/
  blockNumber : Nat
  /-- The address of the first signer. -/
  deployer : String
  /-- The address of the contract created by `<Factory>.deploy(...)`. -/
  deployed : String → String
  /-- The address of the proxy created by `upgrades.deployProxy(<Factory>, ...)`. -/
  proxied : String → String
  /-- Whether `stakePool.poolLength()` returns (it throws otherwise). -/
  poolLengthOk : Bool
  /-- Whether `bank.dev()` returns (it throws otherwise). -/
  devOk : Bool
  /-- The answer of `prRWA.hasRole(MINT_ROLE, stakePoolProxy.address)`. -/
  hasMintRole : Bool
  /-- The answer of `stableRwa.owner()`. -/
  stableRwaOwner : String
  /-- The value `new Date().toISOString()`. -/
  isoDate : String

/-- The calls the script makes to hardhat and to the contracts. -/
inductive Action where
  /-- The call `ethers.getContractAt(name, address)`. -/
  | getContractAt (name : String) (address : Val)
  /-- The call `(await ethers.getContractFactory(name)).deploy(...args)`. -/
  | deploy (name : String) (args : List Val)
  /-- The call `upgrades.deployProxy(<factory of name>, [], ...)`. -/
  | deployProxy (name : String)
  /-- A method call on the contract `name` attached at `address`. -/
  | call (name : String) (address : Val) (method : String) (args : List Val)
  deriving DecidableEq, Repr

/-- The object `deploymentData.stakePoolOptions`. -/
structure StakePoolOptions where
  mintPercentPerDay : Val
  blocksPerDay : Val
  dev : String
  withdrawFee : Val
  mintFee : Val
  deriving DecidableEq, Repr

/-- The object `deploymentData.bankOptions`. -/
structure BankOptions where
  dev : String
  borrowFee : Val
  deriving DecidableEq, Repr

/-- The object `deploymentData.glaParams`. -/
structure GlaParams where
  beforeWhitelistInterval : Val
  whitelistInterval : Val
  publicOfferingInterval : Val
  initInterval : Val
  whitelistPrice : Val
  publicOfferingPrice : Val
  softCap : Val
  hardCap : Val
  whitelistMaxCapPerUser : Val
  deriving DecidableEq, Repr

/-- The object `deploymentData`; a property not assigned yet is `undefined`
(`none` for the nested objects). -/
structure DeploymentData where
  network : String
  chainId : Nat
  rpcUrl : String
  blockNumber : Nat
  solidityVersion : String
  deployer : String
  marketInitialized : Bool
  rwa : Val := .undefined
  prRWA : Val := .undefined
  stableRwa : Val := .undefined
  marketImplementation : Val := .undefined
  stakePoolImplementation : Val := .undefined
  bankImplementation : Val := .undefined
  marketProxy : Val := .undefined
  stakePoolProxy : Val := .undefined
  bankProxy : Val := .undefined
  helper : Val := .undefined
  stakePoolOptions : Option StakePoolOptions := none
  bankOptions : Option BankOptions := none
  usdc : Val := .undefined
  glaParams : Option GlaParams := none
  gla : Val := .undefined
  rwaOwner : Val := .undefined
  deriving DecidableEq, Repr

/-- The constant `timestamp`: the ISO date with every `:` and `.` replaced by `-`. -/
def timestamp (isoDate : String) : String :=
  String.mk (isoDate.data.map fun c => if c = ':' ∨ c = '.' then '-' else c)

/-- The template literal `envContent` of `generateDeploymentReport`
(lines 164-174), the text written to `.env.deployment`. -/
def envContent (d : DeploymentData) (stamp : String) : String :=
  "# Deployment Environment Variables - " ++ d.network ++ " - " ++ stamp ++ "\n" ++
  "NETWORK=" ++ d.network ++ "\n" ++
  "RWA_ADDRESS=" ++ d.rwa.toStr ++ "\n" ++
  "PRRWA_ADDRESS=" ++ d.prRWA.toStr ++ "\n" ++
  "STABLE_RWA_ADDRESS=" ++ d.stableRwa.toStr ++ "\n" ++
  "MARKET_PROXY_ADDRESS=" ++ d.marketProxy.toStr ++ "\n" ++
  "STAKEPOOL_PROXY_ADDRESS=" ++ d.stakePoolProxy.toStr ++ "\n" ++
  "BANK_PROXY_ADDRESS=" ++ d.bankProxy.toStr ++ "\n" ++
  "HELPER_ADDRESS=" ++ d.helper.toStr ++ "\n" ++
  "GLA_ADDRESS=" ++ d.gla.toStr ++ "\n"

/-- The start of `main` (lines 187-207): the environment part of `deploymentData`. -/
def initialData (w : World) : DeploymentData :=
  { network := w.networkName
    chainId := w.chainId
    rpcUrl := match w.url with
      | some u => if u = "" then "localhost" else u
      | none => "localhost"
    blockNumber := w.blockNumber
    solidityVersion := "0.8.19"
    deployer := w.deployer
    marketInitialized := false }

/-- Step 1.1 (lines 213-224): the address of `rwa` and the calls made. -/
def deployRwa (cfg : Obj) (w : World) : Val × List Action :=
  if (getProp cfg "rwa").truthy then
    (getProp cfg "rwa", [.getContractAt "RWA" (getProp cfg "rwa")])
  else
    (.str (w.deployed "RWA"), [.deploy "RWA" []])

/-- Step 1.2 (lines 226-237): the address of `prRWA` and the calls made. -/
def deployPrRwa (cfg : Obj) (w : World) : Val × List Action :=
  if (getProp cfg "prRWA").truthy then
    (getProp cfg "prRWA", [.getContractAt "prRWA" (getProp cfg "prRWA")])
  else
    (.str (w.deployed "prRWA"), [.deploy "prRWA" []])

/-- Step 1.3 (lines 239-250): the address of `stableRwa` and the calls made. -/
def deployStableRwa (cfg : Obj) (w : World) : Val × List Action :=
  if (getProp cfg "stableRwa").truthy then
    (getProp cfg "stableRwa", [.getContractAt "StableRwa" (getProp cfg "stableRwa")])
  else
    (.str (w.deployed "StableRwa"), [.deploy "StableRwa" []])

/-- Step 2 (lines 255-274): the three implementation contracts are always deployed. -/
def deployImplementations : List Action :=
  [.deploy "MarketV2" [], .deploy "StakePool" [], .deploy "Bank" []]

/-- Step 3.1 (lines 279-295): the address of `marketProxy` and the calls made. -/
def deployMarketProxy (cfg : Obj) (w : World) : Val × List Action :=
  if (getProp cfg "marketProxy").truthy then
    (getProp cfg "marketProxy", [.getContractAt "MarketV2" (getProp cfg "marketProxy")])
  else
    (.str (w.proxied "MarketV2"), [.deployProxy "MarketV2"])

/-- Step 3.2 (lines 297-313): the address of `stakePoolProxy` and the calls made. -/
def deployStakePoolProxy (cfg : Obj) (w : World) : Val × List Action :=
  if (getProp cfg "stakePoolProxy").truthy then
    (getProp cfg "stakePoolProxy", [.getContractAt "StakePool" (getProp cfg "stakePoolProxy")])
  else
    (.str (w.proxied "StakePool"), [.deployProxy "StakePool"])

/-- Step 3.3 (lines 315-331): the address of `bankProxy` and the calls made. -/
def deployBankProxy (cfg : Obj) (w : World) : Val × List Action :=
  if (getProp cfg "bankProxy").truthy then
    (getProp cfg "bankProxy", [.getContractAt "Bank" (getProp cfg "bankProxy")])
  else
    (.str (w.proxied "Bank"), [.deployProxy "Bank"])

/-- Step 4 (lines 333-352): the address of `helper` and the calls made. -/
def deployHelper (cfg : Obj) (w : World) (rwa prRWA stableRwa marketProxy bankProxy stakePoolProxy : Val) :
    Val × List Action :=
  if (getProp cfg "helper").truthy then
    (getProp cfg "helper", [.getContractAt "Helper" (getProp cfg "helper")])
  else
    (.str (w.deployed "Helper"),
      [.deploy "Helper" [rwa, prRWA, stableRwa, marketProxy, bankProxy, stakePoolProxy]])

/-- Step 5 up to the StakePool (lines 358-416): the three contracts are attached
at the proxy addresses, `poolLength()` is probed inside `try`, the options are
recorded, and an uninitialised pool is initialised. -/
def initStakePool (cfg : Obj) (w : World) (rwa prRWA marketProxy stakePoolProxy bankProxy : Val) :
    StakePoolOptions × List Action :=
  ({ mintPercentPerDay := (getProp cfg "stakePool").field "mintPercentPerDay"
     blocksPerDay := (getProp cfg "stakePool").field "blocksPerDay"
     dev := w.deployer
     withdrawFee := (getProp cfg "stakePool").field "withdrawFee"
     mintFee := (getProp cfg "stakePool").field "mintFee" },
   [.getContractAt "StakePool" stakePoolProxy,
    .getContractAt "Bank" bankProxy,
    .getContractAt "MarketV2" marketProxy,
    .call "StakePool" stakePoolProxy "poolLength" []] ++
   (if !w.poolLengthOk then
      [.call "StakePool" stakePoolProxy "constructor1" [rwa, prRWA, bankProxy, .str w.deployer],
       .call "StakePool" stakePoolProxy "setOptions"
         [(getProp cfg "stakePool").field "mintPercentPerDay",
          (getProp cfg "stakePool").field "blocksPerDay",
          .str w.deployer,
          (getProp cfg "stakePool").field "withdrawFee",
          (getProp cfg "stakePool").field "mintFee",
          .bool false],
       .call "StakePool" stakePoolProxy "add" [.num (some 1000), rwa, .bool false]]
    else []))

/-- Step 5 for the Bank (lines 418-457): `dev()` is probed inside `try`, the
options are recorded, and an uninitialised bank is initialised. -/
def initBank (cfg : Obj) (w : World) (stableRwa marketProxy stakePoolProxy bankProxy helper : Val) :
    BankOptions × List Action :=
  ({ dev := w.deployer
     borrowFee := (getProp cfg "bank").field "borrowFee" },
   [.call "Bank" bankProxy "dev" []] ++
   (if !w.devOk then
      [.call "Bank" bankProxy "constructor1"
         [stableRwa, marketProxy, stakePoolProxy, helper, .str w.deployer],
       .call "Bank" bankProxy "setOptions" [.str w.deployer, (getProp cfg "bank").field "borrowFee"]]
    else []))

/-- The parameters read from `config.gla` (lines 480-490). -/
def glaParamsOf (cfg : Obj) : GlaParams :=
  { beforeWhitelistInterval := (getProp cfg "gla").field "beforeWhitelistInterval"
    whitelistInterval := (getProp cfg "gla").field "whitelistInterval"
    publicOfferingInterval := (getProp cfg "gla").field "publicOfferingInterval"
    initInterval := (getProp cfg "gla").field "initInterval"
    whitelistPrice := (getProp cfg "gla").field "whitelistPrice"
    publicOfferingPrice := (getProp cfg "gla").field "publicOfferingPrice"
    softCap := (getProp cfg "gla").field "softCap"
    hardCap := (getProp cfg "gla").field "hardCap"
    whitelistMaxCapPerUser := (getProp cfg "gla").field "whitelistMaxCapPerUser" }

/-- Step 6 (lines 466-509): the condition is
`config.gla && typeof config.gla === 'string' && config.gla !== ""`; the result
is the address of `gla`, the values stored in `deploymentData.usdc` and
`deploymentData.glaParams`, and the calls made. -/
def deployGla (cfg : Obj) (w : World) (rwa marketProxy : Val) :
    Val × Val × Option GlaParams × List Action :=
  if (getProp cfg "gla").truthy && (getProp cfg "gla").typeOf == "string" &&
      (getProp cfg "gla" != Val.str "") then
    (getProp cfg "gla", .undefined, none,
      [.getContractAt "GenesisLaunchAuction" (getProp cfg "gla")])
  else
    (.str (w.deployed "GenesisLaunchAuction"), getProp cfg "usdc", some (glaParamsOf cfg),
      [.deploy "GenesisLaunchAuction"
        [rwa, getProp cfg "usdc", marketProxy,
         (getProp cfg "gla").field "beforeWhitelistInterval",
         (getProp cfg "gla").field "whitelistInterval",
         (getProp cfg "gla").field "publicOfferingInterval",
         (getProp cfg "gla").field "initInterval",
         (getProp cfg "gla").field "whitelistPrice",
         (getProp cfg "gla").field "publicOfferingPrice",
         (getProp cfg "gla").field "softCap",
         (getProp cfg "gla").field "hardCap",
         (getProp cfg "gla").field "whitelistMaxCapPerUser"]])

/-- The constant `MINT_ROLE`, the hash `keccak256("MINT_ROLE")` kept symbolic. -/
def MINT_ROLE : Val := .str "keccak256:MINT_ROLE"

/-- Step 7 (lines 511-545): the value stored in `deploymentData.rwaOwner` and
the permission calls made. -/
def setRoles (cfg : Obj) (w : World) (rwa prRWA stableRwa stakePoolProxy bankProxy : Val) :
    Val × List Action :=
  (if !(getProp cfg "rwa").truthy then .str w.deployer else .undefined,
   (if !(getProp cfg "rwa").truthy then
      [.call "RWA" rwa "transferOwnership" [.str w.deployer]]
    else []) ++
   (if !(getProp cfg "prRWA").truthy then
      [.call "prRWA" prRWA "hasRole" [MINT_ROLE, stakePoolProxy]] ++
      (if !w.hasMintRole then [.call "prRWA" prRWA "grantRole" [MINT_ROLE, stakePoolProxy]]
       else [])
    else []) ++
   (if !(getProp cfg "stableRwa").truthy then
      [.call "StableRwa" stableRwa "owner" []] ++
      (if (Val.str w.stableRwaOwner).toLowerCase != bankProxy.toLowerCase then
         [.call "StableRwa" stableRwa "transferOwnership" [bankProxy]]
       else [])
    else []))

/-- One run of `main` in which no awaited call outside a `try` block rejects:
the final `deploymentData`, the calls made in order, and the text written to
`.env.deployment`. Console output is not part of the result. -/
structure Run where
  data : DeploymentData
  actions : List Action
  envFile : String

/-- The function `main` of `deploy.js` (lines 186-582), step by step. -/
def main (env : ProcessEnv) (w : World) : Run :=
  let cfg := config env
  let rwa := deployRwa cfg w
  let prRWA := deployPrRwa cfg w
  let stableRwa := deployStableRwa cfg w
  let marketProxy := deployMarketProxy cfg w
  let stakePoolProxy := deployStakePoolProxy cfg w
  let bankProxy := deployBankProxy cfg w
  let helper := deployHelper cfg w rwa.1 prRWA.1 stableRwa.1 marketProxy.1 bankProxy.1 stakePoolProxy.1
  let stakePool := initStakePool cfg w rwa.1 prRWA.1 marketProxy.1 stakePoolProxy.1 bankProxy.1
  let bank := initBank cfg w stableRwa.1 marketProxy.1 stakePoolProxy.1 bankProxy.1 helper.1
  let gla := deployGla cfg w rwa.1 marketProxy.1
  let roles := setRoles cfg w rwa.1 prRWA.1 stableRwa.1 stakePoolProxy.1 bankProxy.1
  let data : DeploymentData :=
    { initialData w with
      rwa := rwa.1
      prRWA := prRWA.1
      stableRwa := stableRwa.1
      marketImplementation := .str (w.deployed "MarketV2")
      stakePoolImplementation := .str (w.deployed "StakePool")
      bankImplementation := .str (w.deployed "Bank")
      marketProxy := marketProxy.1
      stakePoolProxy := stakePoolProxy.1
      bankProxy := bankProxy.1
      helper := helper.1
      stakePoolOptions := some stakePool.1
      bankOptions := some bank.1
      usdc := gla.2.1
      glaParams := gla.2.2.1
      gla := gla.1
      rwaOwner := roles.1 }
  { data := data
    actions := rwa.2 ++ prRWA.2 ++ stableRwa.2 ++ deployImplementations ++ marketProxy.2 ++
      stakePoolProxy.2 ++ bankProxy.2 ++ helper.2 ++ stakePool.2 ++ bank.2 ++ gla.2.2.2 ++ roles.2
    envFile := envContent data (timestamp w.isoDate) }

/-- Whether a call creates a contract through the factory of `name`. -/
def Action.isDeployOf (name : String) : Action → Bool
  | .deploy n _ => n == name
  | _ => false

/-- Whether a call creates a proxy through the factory of `name`. -/
def Action.isProxyOf (name : String) : Action → Bool
  | .deployProxy n => n == name
  | _ => false

/-- Whether a call attaches to the contract `name` at some address. -/
def Action.isAttachOf (name : String) : Action → Bool
  | .getContractAt n _ => n == name
  | _ => false

/-- The seven contracts that `main` either takes from the configuration or
creates: the three tokens, the three proxies and the helper. -/
inductive Slot where
  | rwa | prRWA | stableRwa | marketProxy | stakePoolProxy | bankProxy | helper
  deriving DecidableEq, Repr

/-- The environment variable that configures the address of a slot. -/
def Slot.envVar : Slot → String
  | .rwa => "RWA_ADDRESS"
  | .prRWA => "PRRWA_ADDRESS"
  | .stableRwa => "STABLE_RWA_ADDRESS"
  | .marketProxy => "MARKET_PROXY_ADDRESS"
  | .stakePoolProxy => "STAKEPOOL_PROXY_ADDRESS"
  | .bankProxy => "BANK_PROXY_ADDRESS"
  | .helper => "HELPER_ADDRESS"

/-- The contract name `main` passes to `getContractAt` for a slot. -/
def Slot.contract : Slot → String
  | .rwa => "RWA"
  | .prRWA => "prRWA"
  | .stableRwa => "StableRwa"
  | .marketProxy => "MarketV2"
  | .stakePoolProxy => "StakePool"
  | .bankProxy => "Bank"
  | .helper => "Helper"

/-- Whether a call creates a new instance for a slot: a `deploy` for a token or
the helper, a `deployProxy` for a proxy. -/
def Slot.creates : Slot → Action → Bool
  | .rwa => Action.isDeployOf "RWA"
  | .prRWA => Action.isDeployOf "prRWA"
  | .stableRwa => Action.isDeployOf "StableRwa"
  | .marketProxy => Action.isProxyOf "MarketV2"
  | .stakePoolProxy => Action.isProxyOf "StakePool"
  | .bankProxy => Action.isProxyOf "Bank"
  | .helper => Action.isDeployOf "Helper"

/-- The address the network gives a new instance for a slot. -/
def Slot.fresh (w : World) : Slot → String
  | .rwa => w.deployed "RWA"
  | .prRWA => w.deployed "prRWA"
  | .stableRwa => w.deployed "StableRwa"
  | .marketProxy => w.proxied "MarketV2"
  | .stakePoolProxy => w.proxied "StakePool"
  | .bankProxy => w.proxied "Bank"
  | .helper => w.deployed "Helper"

/-- The property of `deploymentData` that records the address of a slot. -/
def Slot.recorded (d : DeploymentData) : Slot → Val
  | .rwa => d.rwa
  | .prRWA => d.prRWA
  | .stableRwa => d.stableRwa
  | .marketProxy => d.marketProxy
  | .stakePoolProxy => d.stakePoolProxy
  | .bankProxy => d.bankProxy
  | .helper => d.helper

end Deploy

/-! ## scripts/verify.js -/

namespace Verify

open Js Config

/-- One `run("verify:verify", \x7b address, constructorArguments \x7d)` task. -/
structure Task where
  address : Val
  constructorArguments : List Val
  deriving DecidableEq, Repr

/-- The five verification tasks of `main` (lines 18-94), in order: RWA, prRWA,
STABLE_RWA, Helper, GLA. -/
def tasks (cfg : Obj) : List Task :=
  [ { address := getProp cfg "rwa", constructorArguments := [] },
    { address := getProp cfg "prRWA", constructorArguments := [] },
    { address := getProp cfg "stableRwa", constructorArguments := [] },
    { address := getProp cfg "helper",
      constructorArguments :=
        [getProp cfg "rwa", getProp cfg "prRWA", getProp cfg "stableRwa",
         getProp cfg "marketProxy", getProp cfg "bankProxy", getProp cfg "stakePoolProxy"] },
    { address := getProp cfg "gla",
      constructorArguments :=
        [getProp cfg "rwa", getProp cfg "usdc", getProp cfg "marketProxy",
         (getProp cfg "gla").field "beforeWhitelistInterval",
         (getProp cfg "gla").field "whitelistInterval",
         (getProp cfg "gla").field "publicOfferingInterval",
         (getProp cfg "gla").field "initInterval",
         (getProp cfg "gla").field "whitelistPrice",
         (getProp cfg "gla").field "publicOfferingPrice",
         (getProp cfg "gla").field "softCap",
         (getProp cfg "gla").field "hardCap",
         (getProp cfg "gla").field "whitelistMaxCapPerUser"] } ]

/-- The tasks `main` submits: none when the address check of lines 10-13 fails
(the process exits with status 1), all five otherwise; a task that throws is
caught and the next one is still submitted. -/
def submitted (env : ProcessEnv) : List Task :=
  if !hasDeployedContracts (config env) then [] else tasks (config env)

/-- A value that is a non-empty string. -/
def isNonEmptyString (v : Val) : Bool :=
  match v with
  | .str s => s != ""
  | _ => false

end Verify

/-! ## Loading an environment file

`config.js` starts with `require("dotenv").config()`. The loader is the
external `dotenv` package, whose versions differ on quoting, inline comments,
white space around the key and values that run over several lines. They agree
on files made of empty lines, comment lines and lines `KEY=value` whose value
holds no `#`, quote or line terminator, and read such a value trimmed. The
model is defined on these files and answers `none` on every other text, about
which nothing is stated here. -/

namespace Dotenv

open Config

/-- The white space of JavaScript: the characters the pattern `\s` matches and
`String.prototype.trim` strips. -/
def isWhiteSpace (c : Char) : Bool :=
  c == '\t' || c == '\n' || c == '\x0b' || c == '\x0c' || c == '\r' || c == ' ' ||
  c == '\u00a0' || c == '\u1680' || (decide (0x2000 ≤ c.toNat) && decide (c.toNat ≤ 0x200a)) ||
  c == '\u2028' || c == '\u2029' || c == '\u202f' || c == '\u205f' || c == '\u3000' ||
  c == '\ufeff'

/-- The line terminators of JavaScript, at which `^`, `$` and `.` of a pattern
stop. -/
def isLineBreak (c : Char) : Bool :=
  c == '\n' || c == '\r' || c == '\u2028' || c == '\u2029'

/-- Characters of a variable name, the class `[\w.-]`. -/
def isKeyChar (c : Char) : Bool := c.isAlphanum || c == '_' || c == '.' || c == '-'

/-- Quote characters that may surround a value. -/
def isQuote (c : Char) : Bool := c == '"' || c == '\x27' || c == '\x60'

/-- A character of a value the model covers: no `#`, quote or line
terminator. -/
def valueChar (c : Char) : Bool := c != '#' && !isQuote c && !isLineBreak c

/-- A character every version of the loader reads back verbatim wherever it
stands in a value: no white space, `#` or quote. -/
def plainChar (c : Char) : Bool := !isWhiteSpace c && c != '#' && !isQuote c

/-- The method `String.prototype.trim`: white space removed at both ends. -/
def trim (cs : List Char) : List Char :=
  ((cs.dropWhile isWhiteSpace).reverse.dropWhile isWhiteSpace).reverse

/-- The text split at every line feed. -/
def splitLines : List Char → List (List Char)
  | [] => [[]]
  | c :: cs =>
    if c = '\n' then [] :: splitLines cs
    else
      match splitLines cs with
      | [] => [[c]]
      | l :: ls => (c :: l) :: ls

/-- The lines the model covers. -/
inductive Line where
  | blank
  | comment
  | entry (key value : String)
  deriving DecidableEq, Repr

/-- One line of the file: an empty line, a comment (a line that starts with
`#` and holds no further line terminator), or `KEY=value` with a possibly empty
value without `#`, quote or line terminator, which is read trimmed; `none` for
every other line, which the model does not cover. The key `__proto__`, which
an object does not store, is not covered either. -/
def parseLine (line : List Char) : Option Line :=
  if line.isEmpty then some .blank
  else if line.head? = some '#' then
    if line.any isLineBreak then none else some .comment
  else
    let key := line.takeWhile isKeyChar
    match line.dropWhile isKeyChar with
    | '=' :: value =>
      if key.isEmpty || key == "__proto__".data || !value.all valueChar then none
      else some (.entry (String.mk key) (String.mk (trim value)))
    | _ => none

/-- The entries of a list of lines in order; `none` when a line is not covered. -/
def parseLines : List (List Char) → Option (List (String × String))
  | [] => some []
  | line :: rest =>
    match parseLine line, parseLines rest with
    | some (.entry key value), some entries => some ((key, value) :: entries)
    | some _, some entries => some entries
    | _, _ => none

/-- The entries of the file in order; `none` when the text is not covered. -/
def parse (text : String) : Option (List (String × String)) :=
  parseLines (splitLines text.data)

/-- The value of a variable: the last entry with that name. -/
def lookupLast (k : String) : List (String × String) → Option String
  | [] => none
  | (k', v) :: rest =>
    match lookupLast k rest with
    | some w => some w
    | none => if k' = k then some v else none

/-- The process environment made of exactly the variables of the file. -/
def load (text : String) : Option ProcessEnv :=
  (parse text).map fun entries k => lookupLast k entries

/-- A non-empty string value made of plain characters, as addresses and network
names are. -/
def isToken (v : Js.Val) : Bool :=
  match v with
  | .str s => s != "" && s.data.all plainChar
  | _ => false

/-- A string without a line terminator, as the timestamp of the report is. -/
def isSingleLine (s : String) : Bool := s.data.all fun c => !isLineBreak c

end Dotenv

/-! ## Contracts exercised by the test suites -/

namespace Evm

/-- A 160-bit account address. -/
abbrev Address := Fin (2 ^ 160)

/-- The constant `ethers.constants.AddressZero`. -/
def zeroAddress : Address := 0

/-- The constant `ethers.constants.MaxUint256`. -/
def maxUint256 : Nat := 2 ^ 256 - 1

end Evm

namespace RWA

open Evm

/-- Modelled from the spec: the storage of the `RWA` token contract, whose
Solidity source (`contracts/RWA.sol`) is missing; the tests read it through
`owner()`, `totalSupply()`, `balanceOf(a)` and `allowance(a, spender)`. -/
structure State where
  owner : Address
  totalSupply : Nat
  balanceOf : Address → Nat
  allowance : Address → Address → Nat

/-- Modelled from the spec: the missing constructor of `RWA`. A fresh token is
owned by its deployer and has zero supply (`RWA.test.js`, "Deployment"). -/
def deploy (deployer : Address) : State :=
  { owner := deployer
    totalSupply := 0
    balanceOf := fun _ => 0
    allowance := fun _ _ => 0 }

/-- Modelled from the spec: the missing `mint(to, amount)`. Only the owner may
call it (`Ownable: caller is not the owner`); the supply is a `uint256` under
Solidity 0.8.19, so a mint that would take it past `MaxUint256` reverts (the
"Edge cases" test mints half of the maximum "to avoid overflow"); otherwise
the supply and the recipient's balance grow by `amount`. -/
def mint (s : State) (caller recipient : Address) (amount : Nat) : Except String State :=
  if caller ≠ s.owner then .error "Ownable: caller is not the owner"
  else if s.totalSupply + amount > maxUint256 then .error "Panic: arithmetic overflow (0x11)"
  else .ok
    { s with
      totalSupply := s.totalSupply + amount
      balanceOf := Function.update s.balanceOf recipient (s.balanceOf recipient + amount) }

/-- Modelled from the spec: the missing `burn(amount)`. Only the owner may call
it; it burns the caller's own tokens and reverts with
`ERC20: burn amount exceeds balance` when the caller holds less. -/
def burn (s : State) (caller : Address) (amount : Nat) : Except String State :=
  if caller ≠ s.owner then .error "Ownable: caller is not the owner"
  else if s.balanceOf caller < amount then .error "ERC20: burn amount exceeds balance"
  else .ok
    { s with
      totalSupply := s.totalSupply - amount
      balanceOf := Function.update s.balanceOf caller (s.balanceOf caller - amount) }

/-- Modelled from the spec: the missing `burnFrom(account, amount)`. Only the
owner may call it; it spends the allowance `account` gave the caller
(`ERC20: insufficient allowance`) and then burns from `account`
(`ERC20: burn amount exceeds balance`). -/
def burnFrom (s : State) (caller account : Address) (amount : Nat) : Except String State :=
  if caller ≠ s.owner then .error "Ownable: caller is not the owner"
  else if s.allowance account caller < amount then .error "ERC20: insufficient allowance"
  else if s.balanceOf account < amount then .error "ERC20: burn amount exceeds balance"
  else .ok
    { s with
      totalSupply := s.totalSupply - amount
      balanceOf := Function.update s.balanceOf account (s.balanceOf account - amount)
      allowance := Function.update s.allowance account
        (Function.update (s.allowance account) caller (s.allowance account caller - amount)) }

/-- Modelled from the spec: the balance update shared by `transfer` and
`transferFrom`: the sender's balance is lowered by `amount`, then the
recipient's is raised by `amount`. -/
def moveBalance (balanceOf : Address → Nat) (sender recipient : Address) (amount : Nat) :
    Address → Nat :=
  let lowered := Function.update balanceOf sender (balanceOf sender - amount)
  Function.update lowered recipient (lowered recipient + amount)

/-- Modelled from the spec: the missing `transfer(to, amount)`, with the two
reverts the tests assert: `ERC20: transfer to the zero address` and
`ERC20: transfer amount exceeds balance`. -/
def transfer (s : State) (caller recipient : Address) (amount : Nat) : Except String State :=
  if recipient = zeroAddress then .error "ERC20: transfer to the zero address"
  else if s.balanceOf caller < amount then .error "ERC20: transfer amount exceeds balance"
  else .ok { s with balanceOf := moveBalance s.balanceOf caller recipient amount }

/-- Modelled from the spec: the missing `transferFrom(from, to, amount)`. It
spends the allowance `sender` gave the caller (`ERC20: insufficient allowance`)
and then transfers from `sender` as `transfer` does. -/
def transferFrom (s : State) (caller sender recipient : Address) (amount : Nat) :
    Except String State :=
  if s.allowance sender caller < amount then .error "ERC20: insufficient allowance"
  else if recipient = zeroAddress then .error "ERC20: transfer to the zero address"
  else if s.balanceOf sender < amount then .error "ERC20: transfer amount exceeds balance"
  else .ok
    { s with
      balanceOf := moveBalance s.balanceOf sender recipient amount
      allowance := Function.update s.allowance sender
        (Function.update (s.allowance sender) caller (s.allowance sender caller - amount)) }

/-- Modelled from the spec: the missing `approve(spender, value)`, which
reverts with `ERC20: approve to the zero address` and otherwise overwrites the
allowance. -/
def approve (s : State) (caller spender : Address) (value : Nat) : Except String State :=
  if spender = zeroAddress then .error "ERC20: approve to the zero address"
  else .ok
    { s with
      allowance := Function.update s.allowance caller
        (Function.update (s.allowance caller) spender value) }

/-- Modelled from the spec: the missing `transferOwnership(newOwner)`, callable
by the owner only. -/
def transferOwnership (s : State) (caller newOwner : Address) : Except String State :=
  if caller ≠ s.owner then .error "Ownable: caller is not the owner"
  else .ok { s with owner := newOwner }

/-- The state-changing calls of the token. -/
inductive Call where
  | mint (recipient : Address) (amount : Nat)
  | burn (amount : Nat)
  | burnFrom (account : Address) (amount : Nat)
  | transfer (recipient : Address) (amount : Nat)
  | transferFrom (sender recipient : Address) (amount : Nat)
  | approve (spender : Address) (value : Nat)
  | transferOwnership (newOwner : Address)

/-- One call made by `caller`. -/
def exec (s : State) (caller : Address) : Call → Except String State
  | .mint recipient amount => mint s caller recipient amount
  | .burn amount => burn s caller amount
  | .burnFrom account amount => burnFrom s caller account amount
  | .transfer recipient amount => transfer s caller recipient amount
  | .transferFrom sender recipient amount => transferFrom s caller sender recipient amount
  | .approve spender value => approve s caller spender value
  | .transferOwnership newOwner => transferOwnership s caller newOwner

/-- The state after a transaction: a call that reverts leaves the storage as
it was. -/
def step (s : State) (tx : Address × Call) : State :=
  match exec s tx.1 tx.2 with
  | .ok s' => s'
  | .error _ => s

/-- The state after a sequence of transactions. -/
def run (s : State) (txs : List (Address × Call)) : State := txs.foldl step s

/-- The amount a transaction mints: its argument when a `mint` succeeds. -/
def mintedBy (s : State) (tx : Address × Call) : Nat :=
  match tx.2, exec s tx.1 tx.2 with
  | .mint _ amount, .ok _ => amount
  | _, _ => 0

/-- The amount a transaction burns: its argument when a `burn` or `burnFrom`
succeeds. -/
def burnedBy (s : State) (tx : Address × Call) : Nat :=
  match tx.2, exec s tx.1 tx.2 with
  | .burn amount, .ok _ => amount
  | .burnFrom _ amount, .ok _ => amount
  | _, _ => 0

/-- The sum of all amounts minted along a sequence of transactions. -/
def minted (s : State) : List (Address × Call) → Nat
  | [] => 0
  | tx :: txs => mintedBy s tx + minted (step s tx) txs

/-- The sum of all amounts burned along a sequence of transactions. -/
def burned (s : State) : List (Address × Call) → Nat
  | [] => 0
  | tx :: txs => burnedBy s tx + burned (step s tx) txs

/-- The supply equals the sum of all balances. -/
def Balanced (s : State) : Prop := s.totalSupply = ∑ a, s.balanceOf a

end RWA

namespace RWALaunchpad

open Evm

/-- The addresses returned by `getAllContracts(id)`. -/
structure Contracts where
  rwa : Address
  prRWA : Address
  stableRwa : Address
  bank : Address
  market : Address
  stakePool : Address
  helper : Address
  gla : Address
  deriving DecidableEq

/-- Modelled from the spec: a project record of the `RWALaunchpad` factory,
whose Solidity source is missing; `getProject(id)` returns its name, owner,
stage and contract addresses. -/
structure Project where
  id : Nat
  name : String
  owner : Address
  stage : Nat
  contracts : Contracts
  deriving DecidableEq

/-- Modelled from the spec: the storage of the missing `RWALaunchpad` factory:
its owner, the deployment fee and the projects in creation order. -/
structure State where
  owner : Address
  deploymentFee : Nat
  projects : List Project

/-- The events the tests read from the receipts. -/
inductive Event where
  | ProjectCreated (projectId : Nat) (name : String) (owner : Address)
  | ProjectCompleted (projectId : Nat)
  | ProjectPaused (projectId : Nat) (previousStage : Nat)
  | ProjectResumed (projectId : Nat) (newStage : Nat)
  | ProjectOwnershipTransferred (projectId : Nat) (oldOwner newOwner : Address)
  | ProjectNameUpdated (projectId : Nat) (oldName newName : String)
  | DeploymentFeeUpdated (fee : Nat)
  deriving DecidableEq

/-- Modelled from the spec: the missing constructor. A fresh factory is owned
by its deployer, has no project and a zero fee ("应该正确部署并初始化"). -/
def deploy (deployer : Address) : State :=
  { owner := deployer, deploymentFee := 0, projects := [] }

/-- The stage of a project that was only created. -/
def stageCreated : Nat := 0

/-- The stage of a completed project. -/
def stageCompleted : Nat := 3

/-- The stage of a paused project. -/
def stagePaused : Nat := 255

/-- The contracts of a project that has none yet. -/
def noContracts : Contracts :=
  { rwa := zeroAddress, prRWA := zeroAddress, stableRwa := zeroAddress, bank := zeroAddress,
    market := zeroAddress, stakePool := zeroAddress, helper := zeroAddress, gla := zeroAddress }

/-- Modelled from the spec: the missing view `getProjectCount()`. -/
def getProjectCount (s : State) : Nat := s.projects.length

/-- Modelled from the spec: the missing view `getAllProjectIds()`. -/
def getAllProjectIds (s : State) : List Nat := s.projects.map Project.id

/-- Modelled from the spec: the missing view `projectExists(id)`. -/
def projectExists (s : State) (id : Nat) : Bool := s.projects.any fun p => p.id == id

/-- Modelled from the spec: the missing view `getProject(id)`. -/
def getProject (s : State) (id : Nat) : Option Project := s.projects.find? fun p => p.id == id

/-- The record of project `id` replaced by `f` of it. -/
def updateProject (s : State) (id : Nat) (f : Project → Project) : State :=
  { s with projects := s.projects.map fun p => if p.id = id then f p else p }

/-- Modelled from the spec: the missing payable `createProject(name)`. It
reverts with `Empty name` or `Insufficient fee`; otherwise the project gets the
next id, counted from 1, the caller as owner and stage 0. -/
def createProject (s : State) (caller : Address) (value : Nat) (name : String) :
    Except String (State × List Event) :=
  if name = "" then .error "Empty name"
  else if value < s.deploymentFee then .error "Insufficient fee"
  else
    let id := s.projects.length + 1
    .ok ({ s with projects := s.projects ++
            [{ id := id, name := name, owner := caller, stage := stageCreated,
               contracts := noContracts }] },
         [.ProjectCreated id name caller])

/-- Modelled from the spec: the missing payable `deployWithPreset(name, type)`.
It reverts with `Empty name`, `Invalid preset` (a type above 2) or
`Insufficient fee`; otherwise the project gets the next id and stage 3, with
the contracts `built` for that id and owner. -/
def deployWithPreset (built : Nat → Address → Contracts) (s : State) (caller : Address)
    (value : Nat) (name : String) (presetType : Nat) : Except String (State × List Event) :=
  if name = "" then .error "Empty name"
  else if presetType > 2 then .error "Invalid preset"
  else if value < s.deploymentFee then .error "Insufficient fee"
  else
    let id := s.projects.length + 1
    .ok ({ s with projects := s.projects ++
            [{ id := id, name := name, owner := caller, stage := stageCompleted,
               contracts := built id caller }] },
         [.ProjectCreated id name caller, .ProjectCompleted id])

/-- Modelled from the spec: the missing `setDeploymentFee(fee)`, callable by
the factory owner only. -/
def setDeploymentFee (s : State) (caller : Address) (fee : Nat) :
    Except String (State × List Event) :=
  if caller ≠ s.owner then .error "Ownable: caller is not the owner"
  else .ok ({ s with deploymentFee := fee }, [.DeploymentFeeUpdated fee])

/-- Modelled from the spec: the missing `emergencyPauseProject(id)`, as called
by an account allowed to pause (the tests call it as the deployer and state no
other rule): the stage becomes 255 and the event carries the stage it had. -/
def emergencyPauseProject (s : State) (id : Nat) : Except String (State × List Event) :=
  match getProject s id with
  | none => .error "Project not found"
  | some p =>
    .ok (updateProject s id fun q => { q with stage := stagePaused },
         [.ProjectPaused id p.stage])

/-- Modelled from the spec: the missing `resumeProject(id, newStage)`, as
called by an account allowed to resume: the stage becomes `newStage`. -/
def resumeProject (s : State) (id : Nat) (newStage : Nat) : Except String (State × List Event) :=
  match getProject s id with
  | none => .error "Project not found"
  | some _ =>
    .ok (updateProject s id fun q => { q with stage := newStage },
         [.ProjectResumed id newStage])

/-- Modelled from the spec: the missing `transferProjectOwnership(id, newOwner)`,
as called by the project's owner. -/
def transferProjectOwnership (s : State) (id : Nat) (newOwner : Address) :
    Except String (State × List Event) :=
  match getProject s id with
  | none => .error "Project not found"
  | some p =>
    .ok (updateProject s id fun q => { q with owner := newOwner },
         [.ProjectOwnershipTransferred id p.owner newOwner])

/-- Modelled from the spec: the missing `updateProjectName(id, newName)`, as
called by the project's owner. -/
def updateProjectName (s : State) (id : Nat) (newName : String) :
    Except String (State × List Event) :=
  match getProject s id with
  | none => .error "Project not found"
  | some p =>
    .ok (updateProject s id fun q => { q with name := newName },
         [.ProjectNameUpdated id p.name newName])

/-- The state-changing calls of the factory the tests make. -/
inductive Call where
  | createProject (value : Nat) (name : String)
  | deployWithPreset (value : Nat) (name : String) (presetType : Nat)
  | setDeploymentFee (fee : Nat)
  | emergencyPauseProject (id : Nat)
  | resumeProject (id : Nat) (newStage : Nat)
  | transferProjectOwnership (id : Nat) (newOwner : Address)
  | updateProjectName (id : Nat) (newName : String)

/-- One call made by `caller`. -/
def exec (built : Nat → Address → Contracts) (s : State) (caller : Address) :
    Call → Except String (State × List Event)
  | .createProject value name => createProject s caller value name
  | .deployWithPreset value name presetType => deployWithPreset built s caller value name presetType
  | .setDeploymentFee fee => setDeploymentFee s caller fee
  | .emergencyPauseProject id => emergencyPauseProject s id
  | .resumeProject id newStage => resumeProject s id newStage
  | .transferProjectOwnership id newOwner => transferProjectOwnership s id newOwner
  | .updateProjectName id newName => updateProjectName s id newName

/-- Whether a call is one of the two that create a project. -/
def Call.creates : Call → Bool
  | .createProject _ _ => true
  | .deployWithPreset _ _ _ => true
  | _ => false

/-- The state after a transaction: a call that reverts leaves the storage as
it was. -/
def step (built : Nat → Address → Contracts) (s : State) (tx : Address × Call) : State :=
  match exec built s tx.1 tx.2 with
  | .ok r => r.1
  | .error _ => s

/-- The state after a sequence of transactions. -/
def run (built : Nat → Address → Contracts) (s : State) (txs : List (Address × Call)) : State :=
  txs.foldl (step built) s

/-- Whether a transaction is a successful `createProject` or `deployWithPreset`. -/
def createdBy (built : Nat → Address → Contracts) (s : State) (tx : Address × Call) : Bool :=
  tx.2.creates && (exec built s tx.1 tx.2).toBool

/-- The number of successful `createProject` and `deployWithPreset` calls along
a sequence of transactions. -/
def created (built : Nat → Address → Contracts) (s : State) : List (Address × Call) → Nat
  | [] => 0
  | tx :: txs => (if createdBy built s tx then 1 else 0) + created built (step built s tx) txs

/-- The ids of the projects are 1, 2, ... in creation order. -/
def Sequential (s : State) : Prop :=
  s.projects.map Project.id = List.range' 1 s.projects.length

end RWALaunchpad

/-! ## scripts/deploy.js: the option lines of the report and the role state -/

namespace Deploy

open Js Config

/-- A natural number below 100 written with two digits. -/
def twoDigits (n : Nat) : String :=
  if n < 10 then "0" ++ toString n else toString n

/-- The expression `(v / 100).toFixed(2)` for a value stored by `main` in an
options object: a number `n` is written with the integer part of `n / 100`, a
point and the two digits of the remainder; `NaN` is written `NaN`. Exact for
integers below `2^53`; other values are not stored by `main` and read `NaN`. -/
def percentFixed2 : Val → String
  | .num (some n) =>
    (if n < 0 then "-" else "") ++ toString (n.natAbs / 100) ++ "." ++ twoDigits (n.natAbs % 100)
  | _ => "NaN"

/-- The text
`${opts?.x || 'Not set'}/10000 (${opts ? (opts.x / 100).toFixed(2) : '?'}%)`
of lines 73, 76, 77 and 89, where `x` is `none` when the options object is
absent. -/
def feeText (x : Option Val) : String :=
  ((match x with
    | some v => v
    | none => Val.undefined).or (.str "Not set")).toStr ++ "/10000 (" ++
  (match x with
    | some v => percentFixed2 v
    | none => "?") ++ "%)"

/-- Line 73 of the report. -/
def mintPercentPerDayLine (d : DeploymentData) : String :=
  "  - Mint Percent Per Day: " ++ feeText (d.stakePoolOptions.map fun o => o.mintPercentPerDay)

/-- Line 76 of the report. -/
def withdrawFeeLine (d : DeploymentData) : String :=
  "  - Withdraw Fee: " ++ feeText (d.stakePoolOptions.map fun o => o.withdrawFee)

/-- Line 77 of the report. -/
def mintFeeLine (d : DeploymentData) : String :=
  "  - Mint Fee: " ++ feeText (d.stakePoolOptions.map fun o => o.mintFee)

/-- Line 89 of the report. -/
def borrowFeeLine (d : DeploymentData) : String :=
  "  - Borrow Fee: " ++ feeText (d.bankOptions.map fun o => o.borrowFee)

/-- Line 121 of the report. -/
def mintRoleLine (d : DeploymentData) : String :=
  "- prRWA MINT_ROLE granted to: " ++ d.stakePoolProxy.toStr

/-- Whether a call is `prRWA.grantRole(MINT_ROLE, ...)`. -/
def Action.isGrantRole : Action → Bool
  | .call name _ method _ => name == "prRWA" && method == "grantRole"
  | _ => false

/-- Whether the StakePool proxy holds `MINT_ROLE` on prRWA once the run is
over: it held it when step 7 started (`hasMintRole`, what `hasRole` answers)
or the run granted it. -/
def holdsMintRoleAfter (w : World) (r : Run) : Bool :=
  w.hasMintRole || r.actions.any Action.isGrantRole

end Deploy

/-! ## scripts/contract-size.js -/

namespace ContractSize

/-- The constant `EVM_BYTECODE_LIMIT` (line 7). -/
def EVM_BYTECODE_LIMIT : ℚ := 24576

/-- The constant `EVM_INIT_CODE_LIMIT` (line 8). -/
def EVM_INIT_CODE_LIMIT : ℚ := 49152

/-- The expression `code.length / 2 - 1` (lines 27-28, and lines 29 and 192 of
`integration-test.js`): the division is the division of numbers, not of
integers. -/
def codeSize (code : String) : ℚ := (code.length : ℚ) / 2 - 1

/-- The lines printed for one contract, kept structured: the numbers are the
values the script formats. -/
inductive Line where
  /-- The heading with the contract name (line 21). -/
  | checking (name : String)
  /-- The init code size (line 30). -/
  | initSize (size : ℚ)
  /-- The runtime code size (line 31). -/
  | runtimeSize (size : ℚ)
  /-- The init code status with size and limit (line 37). -/
  | initLimit (status : String) (size limit : ℚ)
  /-- The runtime code status with size and limit (line 38). -/
  | runtimeLimit (status : String) (size limit : ℚ)
  /-- The warning that the init code is over the limit, with the excess in percent (line 41). -/
  | initWarning (percent : ℚ)
  /-- The warning that the runtime code is over the limit (line 45). -/
  | runtimeWarning (percent : ℚ)
  /-- The empty line (lines 48 and 52). -/
  | blank
  /-- The message of the `catch` block (line 51). -/
  | missing (name : String)
  deriving DecidableEq

/-- The constant `initCodeStatus` (line 34). -/
def initCodeStatus (initCodeSize : ℚ) : String :=
  if initCodeSize ≤ EVM_INIT_CODE_LIMIT then "✅" else "❌"

/-- The constant `runtimeCodeStatus` (line 35). -/
def runtimeCodeStatus (runtimeCodeSize : ℚ) : String :=
  if runtimeCodeSize ≤ EVM_BYTECODE_LIMIT then "✅" else "❌"

/-- The body of the loop of `main` (lines 20-53) for one contract name:
`factory` is the pair of `bytecode` and `deployedBytecode` when
`getContractFactory` succeeds and `none` when it throws. -/
def checkContract (contractName : String) (factory : Option (String × String)) : List Line :=
  match factory with
  | none => [.checking contractName, .missing contractName, .blank]
  | some (bytecode, deployedBytecode) =>
    let initCodeSize := codeSize bytecode
    let runtimeCodeSize := codeSize deployedBytecode
    [.checking contractName,
     .initSize initCodeSize,
     .runtimeSize runtimeCodeSize,
     .initLimit (initCodeStatus initCodeSize) initCodeSize EVM_INIT_CODE_LIMIT,
     .runtimeLimit (runtimeCodeStatus runtimeCodeSize) runtimeCodeSize EVM_BYTECODE_LIMIT] ++
    (if initCodeSize > EVM_INIT_CODE_LIMIT then
      [.initWarning ((initCodeSize / EVM_INIT_CODE_LIMIT - 1) * 100)] else []) ++
    (if runtimeCodeSize > EVM_BYTECODE_LIMIT then
      [.runtimeWarning ((runtimeCodeSize / EVM_BYTECODE_LIMIT - 1) * 100)] else []) ++
    [.blank]

/-- Whether a line is the init code warning. -/
def Line.isInitWarning : Line → Bool
  | .initWarning _ => true
  | _ => false

/-- Whether a line is the runtime code warning. -/
def Line.isRuntimeWarning : Line → Bool
  | .runtimeWarning _ => true
  | _ => false

end ContractSize

/-! ## test/RWAEcosystem.test.js: the liquidation scenario -/

namespace Liquidation

/-- The value `ethers.utils.parseEther("1")`. -/
def ether : Int := 10 ^ 18

/-- The constant `initialRwaPrice`, `parseEther("1.5")` (line 218). -/
def initialRwaPrice : Int := 15 * 10 ^ 17

/-- The constant `newRwaPrice`, `parseEther("1.0")` (line 229). -/
def newRwaPrice : Int := 10 ^ 18

/-- The constant `liquidationThreshold` (line 235). -/
def liquidationThreshold : Int := 120

/-- The constant `maxBorrow` (lines 224-225); `BigNumber.div` truncates. -/
def maxBorrow (depositAmount : Int) : Int :=
  (((depositAmount * initialRwaPrice).tdiv ether) * 100).tdiv 150

/-- The constant `newCollateralRatio` (line 231); `none` when the division by
`maxBorrow` throws because it is zero. -/
def newCollateralRatio (depositAmount : Int) : Option Int :=
  if maxBorrow depositAmount = 0 then none
  else some (((depositAmount * newRwaPrice).tdiv (maxBorrow depositAmount)) * 100)

/-- The constant `liquidateAmount` (line 239). -/
def liquidateAmount (depositAmount : Int) : Int := (maxBorrow depositAmount).tdiv 2

/-- The constant `collateralToLiquidator` (lines 240-241). -/
def collateralToLiquidator (depositAmount : Int) : Int :=
  ((((liquidateAmount depositAmount) * ether).tdiv newRwaPrice) * 105).tdiv 100

/-- Whether the condition of line 238 holds, so that the liquidation block
(lines 239-247) runs. -/
def liquidationRuns (depositAmount : Int) : Bool :=
  match newCollateralRatio depositAmount with
  | some ratio => ratio < liquidationThreshold
  | none => false

/-- The collateral ratio of the position in percent, as the comment of line
230 defines it: collateral value over debt, times 100, with the price taken as
a number of STABLE_RWA per RWA. -/
def collateralRatioPercent (depositAmount : Int) : ℚ :=
  (depositAmount : ℚ) * ((newRwaPrice : ℚ) / (ether : ℚ)) / (maxBorrow depositAmount : ℚ) * 100

/-- The constant `depositAmount` of the test, `parseEther("10000")`. -/
def depositAmount : Int := 10000 * 10 ^ 18

end Liquidation

/-! ## test/RWALPStakingLoop.test.js: the simulated staking pool -/

namespace Staking

open Evm

/-- The value `ethers.utils.parseEther("1")`. -/
def ether : Int := 10 ^ 18

/-- The largest integer `BigNumber.toNumber()` returns; above it the call throws. -/
def maxSafeInteger : Nat := 2 ^ 53 - 1

/-- The object `stakingData` (lines 16-23). Amounts are `BigNumber`s, that is
integers of any size; `userStakes` and `userRewards` are objects keyed by the
user's address, with no entry (`none`) until one is written. -/
structure StakingData where
  totalStaked : Int
  userStakes : Address → Option Int
  userRewards : Address → Option Int
  lastUpdateBlock : Int
  rewardRate : Int
  blockNumber : Int

/-- The value assigned to `stakingData` in `beforeEach` (lines 52-59). -/
def initial : StakingData :=
  { totalStaked := 0
    userStakes := fun _ => none
    userRewards := fun _ => none
    lastUpdateBlock := 0
    rewardRate := 100 * ether
    blockNumber := 0 }

/-- The expression `stakingData.userStakes[a] || ethers.BigNumber.from(0)`,
which is also the function `balanceOf` (lines 205-207). -/
def balanceOf (s : StakingData) (userAddress : Address) : Int :=
  (s.userStakes userAddress).getD 0

/-- The expression `stakingData.userRewards[a] || ethers.BigNumber.from(0)`. -/
def storedReward (s : StakingData) (userAddress : Address) : Int :=
  (s.userRewards userAddress).getD 0

/-- The function `earned` (lines 135-152); `BigNumber.div` truncates. -/
def earned (s : StakingData) (userAddress : Address) : Int :=
  let userStake := balanceOf s userAddress
  if userStake = 0 then storedReward s userAddress
  else
    let blocksSinceLastUpdate := s.blockNumber - s.lastUpdateBlock
    if blocksSinceLastUpdate > 0 ∧ s.totalStaked > 0 then
      let rewardPerToken := (s.rewardRate * blocksSinceLastUpdate * ether).tdiv s.totalStaked
      let newReward := (userStake * rewardPerToken).tdiv ether
      storedReward s userAddress + newReward
    else storedReward s userAddress

/-- The function `updateRewards` (lines 155-171). -/
def updateRewards (s : StakingData) (userAddress : Address) : StakingData :=
  if s.totalStaked > 0 then
    let blocksSinceLastUpdate := s.blockNumber - s.lastUpdateBlock
    if blocksSinceLastUpdate > 0 then
      let credited : StakingData :=
        if userAddress ≠ zeroAddress then
          { s with userRewards := Function.update s.userRewards userAddress (some (earned s userAddress)) }
        else s
      { credited with lastUpdateBlock := s.blockNumber }
    else s
  else { s with lastUpdateBlock := s.blockNumber }

/-- The local variable `value` of `adjustRewardRate`, a JavaScript number, that
is an IEEE 754 double. The loop starts from a whole number below `2^53` and
divides only numbers that are at least 10, so every double it meets is a whole
number of units of `2^-52`: the number is `units / 2^52`. -/
structure Value where
  units : Int

/-- The number `totalStakedEther.toNumber()`: a whole number up to `2^53` is a
double. -/
def Value.ofInt (n : Int) : Value := ⟨n * 2 ^ 52⟩

/-- Rounding of the fraction `a / b` to the nearest whole number, a tie going
to the even one. -/
def roundHalfEven (a b : Nat) : Nat :=
  let q := a / b
  let r := a % b
  if 2 * r < b then q
  else if 2 * r > b then q + 1
  else if q % 2 = 0 then q else q + 1

/-- The binary exponent of the quotient `units / 2^52 / 10` when that quotient
is at least 1: the first `j` with quotient `< 2^(j+1)`, searched upwards from
`j` in at most `fuel` steps. -/
def binade : Nat → Nat → Nat → Nat
  | 0, _, j => j
  | fuel + 1, units, j => if units < 10 * 2 ^ (53 + j) then j else binade fuel units (j + 1)

/-- The division `value / 10` of doubles (line 191), in units of `2^-52`, for a
number that is at least 10 and below `2^53`. The exact quotient lies in
`[2^j, 2^(j+1))`, where neighbouring doubles are `2^(j-52)` apart, that is `2^j`
units; the result is the quotient rounded to the nearest of them, a tie going
to the one with the even significand (the IEEE 754 default rounding). -/
def divTenUnits (units : Nat) : Nat :=
  let j := binade 52 units 0
  roundHalfEven units (10 * 2 ^ j) * 2 ^ j

/-- The assignment `value /= 10`. -/
def Value.divTen (value : Value) : Value := ⟨divTenUnits value.units.toNat⟩

/-- The loop of lines 190-193: `while (value >= 10) { value /= 10; logFactor++ }`,
run for at most `fuel` rounds; the result is the final `value` and `logFactor`. -/
def logLoop : Nat → Value → Nat → Value × Nat
  | 0, value, logFactor => (value, logFactor)
  | fuel + 1, value, logFactor =>
    if value.units ≥ 10 * 2 ^ 52 then logLoop fuel value.divTen (logFactor + 1)
    else (value, logFactor)

/-- What a call leaves behind: the state (a JavaScript exception does not undo
the assignments made before it), the token transfers made, and the value
returned or the exception thrown. -/
structure Outcome (α : Type) where
  state : StakingData
  transfers : List (String × Address × Int)
  result : Except String α

/-- The function `adjustRewardRate` (lines 174-197). The number
`totalStakedEther.toNumber()` exists only up to `2^53 - 1`; the loop gets as
many rounds as that number, more than it can use. -/
def adjustRewardRate (s : StakingData) : Except String StakingData :=
  if s.totalStaked = 0 then .ok { s with rewardRate := 100 * ether }
  else
    let totalStakedEther := s.totalStaked.tdiv ether
    if totalStakedEther.natAbs > maxSafeInteger then .error "overflow"
    else
      let logFactor := (logLoop totalStakedEther.natAbs (Value.ofInt totalStakedEther) 0).2
      .ok { s with rewardRate := (100 * ether) * (1 + (logFactor : Int)) }

/-- Whether a token `transfer(..., amount)` goes through: the amount has to be
a `uint256` for the call to be encoded, and the token contract has to accept
it (`tokenOk`, which depends on balances the pool does not track). -/
def transferAccepted (tokenOk : Bool) (amount : Int) : Bool :=
  tokenOk && decide (0 ≤ amount) && decide (amount ≤ (maxUint256 : Int))

/-- The state after `adjustRewardRate`, when it throws the state is kept. -/
def afterAdjust {α : Type} (s : StakingData) (transfers : List (String × Address × Int))
    (value : α) : Outcome α :=
  match adjustRewardRate s with
  | .ok s' => { state := s', transfers := transfers, result := .ok value }
  | .error e => { state := s, transfers := transfers, result := .error e }

/-- The function `stake` (lines 64-79). -/
def stake (s : StakingData) (user : Address) (amount : Int) (tokenOk : Bool) : Outcome Unit :=
  if !transferAccepted tokenOk amount then
    { state := s, transfers := [], result := .error "transfer reverted" }
  else
    let s₁ := updateRewards s user
    let s₂ := { s₁ with userStakes := Function.update s₁.userStakes user (some (balanceOf s₁ user + amount)) }
    let s₃ := { s₂ with totalStaked := s₂.totalStaked + amount }
    afterAdjust s₃ [("lpToken: user to owner", user, amount)] ()

/-- The function `withdraw` (lines 82-103). -/
def withdraw (s : StakingData) (user : Address) (amount : Int) (tokenOk : Bool) : Outcome Unit :=
  let userStake := balanceOf s user
  if userStake < amount then
    { state := s, transfers := [], result := .error "Insufficient staked balance" }
  else
    let s₁ := updateRewards s user
    let s₂ := { s₁ with userStakes := Function.update s₁.userStakes user (some (userStake - amount)) }
    let s₃ := { s₂ with totalStaked := s₂.totalStaked - amount }
    if !transferAccepted tokenOk amount then
      { state := s₃, transfers := [], result := .error "transfer reverted" }
    else afterAdjust s₃ [("lpToken: owner to user", user, amount)] ()

/-- The function `getReward` (lines 106-122). -/
def getReward (s : StakingData) (user : Address) (tokenOk : Bool) : Outcome Int :=
  let s₁ := updateRewards s user
  let reward := storedReward s₁ user
  if reward > 0 then
    let s₂ := { s₁ with userRewards := Function.update s₁.userRewards user (some 0) }
    if !transferAccepted tokenOk reward then
      { state := s₂, transfers := [], result := .error "transfer reverted" }
    else { state := s₂, transfers := [("rwa: owner to user", user, reward)], result := .ok reward }
  else { state := s₁, transfers := [], result := .ok 0 }

/-- The function `exit` (lines 125-132). -/
def exit (s : StakingData) (user : Address) (lpOk rewardOk : Bool) : Outcome Unit :=
  let userStake := balanceOf s user
  let withdrawn : Outcome Unit :=
    if userStake > 0 then withdraw s user userStake lpOk
    else { state := s, transfers := [], result := .ok () }
  match withdrawn.result with
  | .error e => { withdrawn with result := .error e }
  | .ok _ =>
    let paid := getReward withdrawn.state user rewardOk
    { state := paid.state
      transfers := withdrawn.transfers ++ paid.transfers
      result := paid.result.map fun _ => () }

/-- The function `simulateBlockAdvance` (lines 200-202). -/
def simulateBlockAdvance (s : StakingData) (blocks : Nat) : StakingData :=
  { s with blockNumber := s.blockNumber + blocks }

/-- The calls a test makes on the pool; the flags say whether the token
contract accepts the transfer the call makes. -/
inductive Action where
  | stake (user : Address) (amount : Int) (tokenOk : Bool)
  | withdraw (user : Address) (amount : Int) (tokenOk : Bool)
  | getReward (user : Address) (tokenOk : Bool)
  | exit (user : Address) (lpOk rewardOk : Bool)
  | updateRewards (userAddress : Address)
  | simulateBlockAdvance (blocks : Nat)

/-- The state after one call. -/
def step (s : StakingData) : Action → StakingData
  | .stake user amount tokenOk => (stake s user amount tokenOk).state
  | .withdraw user amount tokenOk => (withdraw s user amount tokenOk).state
  | .getReward user tokenOk => (getReward s user tokenOk).state
  | .exit user lpOk rewardOk => (exit s user lpOk rewardOk).state
  | .updateRewards userAddress => updateRewards s userAddress
  | .simulateBlockAdvance blocks => simulateBlockAdvance s blocks

/-- The state after a sequence of calls, from the state of `beforeEach`. -/
def run (s : StakingData) (actions : List Action) : StakingData := actions.foldl step s

/-- The rate `adjustRewardRate` sets when `totalStaked` is `total`. -/
def rewardRateAt (total : Int) : Except String Int :=
  (adjustRewardRate { initial with totalStaked := total }).map fun s => s.rewardRate

/-- What holds of every state the calls produce: the rate is positive and no
stake or stored reward is negative. -/
def Sound (s : StakingData) : Prop :=
  0 < s.rewardRate ∧ ∀ a, 0 ≤ balanceOf s a ∧ 0 ≤ storedReward s a

end Staking

/-! ## test/RWALPStakingLoop.test.js: the rate in the words of the specification, and the
invariant of the total -/

namespace Staking

open Evm

/-- The rate as the specification states it: with `n = floor(totalStaked / 10^18)`,
`100 * 10^18` when `totalStaked = 0` or `n < 10` and otherwise `100 * 10^18 * d`,
where `d` is the number of decimal digits of `n`. -/
def digitRate (totalStaked : Int) : Int :=
  let n := totalStaked / ether
  if totalStaked = 0 ∨ n < 10 then 100 * ether
  else 100 * ether * ((Nat.digits 10 n.toNat).length : Int)

/-- The total equals the sum of all stakes. -/
def Totalled (s : StakingData) : Prop := s.totalStaked = ∑ a, balanceOf s a

end Staking

/-! ## test/RWALeverageTradeLoop.test.js: collateral arithmetic -/

namespace LeverageTrade

/-- The value `ethers.utils.parseEther("1")`. -/
def ether : Int := 10 ^ 18

/-- The price `marketPrices.initial`, `parseEther("1.5")` (line 18). -/
def initialPrice : Int := 15 * 10 ^ 17

/-- The price `marketPrices.afterDrop`, `parseEther("1.2")` (line 20). -/
def afterDropPrice : Int := 12 * 10 ^ 17

/-- The constant `collateralRatio` (line 24). -/
def collateralRatio : Int := 150

/-- The constant `liquidationThreshold` (line 206). -/
def liquidationThreshold : Int := 130

/-- The method `BigNumber.div`: it truncates, and throws (`none`) on a zero
divisor. -/
def div (a b : Int) : Option Int := if b = 0 then none else some (a.tdiv b)

/-- The constant `maxBorrow` (lines 189-190). -/
def maxBorrow (collateralAmount : Int) : Option Int := do
  let value ← div (collateralAmount * initialPrice) ether
  div (value * 100) collateralRatio

/-- The constant `borrowAmount` (line 191). -/
def borrowAmount (collateralAmount : Int) : Option Int := do
  let maxBorrow ← maxBorrow collateralAmount
  div (maxBorrow * 95) 100

/-- The constant `newCollateralValue` (line 202). -/
def newCollateralValue (collateralAmount : Int) : Option Int :=
  div (collateralAmount * afterDropPrice) ether

/-- The constant `currentRatio` (line 203). -/
def currentRatio (collateralAmount : Int) : Option Int := do
  let borrowAmount ← borrowAmount collateralAmount
  let newCollateralValue ← newCollateralValue collateralAmount
  div (newCollateralValue * 100) borrowAmount

/-- The constant `initialCollateralRatio` (line 238). -/
def initialCollateralRatio : Int := 150

/-- The constant `newCollateralRatio` (line 259). -/
def newCollateralRatio (volatilityIncrease : Bool) : Int :=
  if volatilityIncrease then 175 else initialCollateralRatio

/-- The constant `borrow1` (lines 248-249). -/
def borrow1 (deposit1 : Int) : Option Int := do
  let value ← div (deposit1 * initialPrice) ether
  div (value * 100) initialCollateralRatio

/-- The constant `borrow2` (lines 269-270); `volatilityIncrease` is `true`
(line 255). -/
def borrow2 (deposit2 : Int) : Option Int := do
  let value ← div (deposit2 * initialPrice) ether
  div (value * 100) (newCollateralRatio true)

/-- The bound `borrow1.mul(deposit2).div(deposit1)` of line 276. -/
def scaledBorrow1 (deposit1 deposit2 : Int) : Option Int := do
  let borrow1 ← borrow1 deposit1
  div (borrow1 * deposit2) deposit1

/-- The constant `expectedReduction` (lines 279-280). -/
def expectedReduction (deposit1 deposit2 : Int) : Option Int := do
  let scaled ← scaledBorrow1 deposit1 deposit2
  div (scaled * initialCollateralRatio) (newCollateralRatio true)

/-- The constant `tolerance` (line 283). -/
def tolerance (deposit2 : Int) : Option Int := do
  let borrow2 ← borrow2 deposit2
  div borrow2 100

/-- The assertion `expect(actual).to.be.closeTo(expected, delta)`. -/
def closeTo (actual expected delta : Int) : Bool := decide (|actual - expected| ≤ delta)

end LeverageTrade

/-! ## test/RWABusiness.test.js: the allocation of the initial mint -/

namespace Business

open Evm

/-- The constant `teamAllocation` (line 33). -/
def teamAllocation (initialMint : Nat) : Nat := initialMint * 20 / 100

/-- The constant `investorAllocation` (line 34). -/
def investorAllocation (initialMint : Nat) : Nat := initialMint * 30 / 100

/-- The constant `communityAllocation` (line 35). -/
def communityAllocation (initialMint : Nat) : Nat := initialMint * 40 / 100

/-- The constant `reserveAllocation` (line 36). -/
def reserveAllocation (initialMint : Nat) : Nat := initialMint * 10 / 100

/-- The four transfers of lines 39-42, each sent by the treasury. -/
def allocation (treasury owner investor1 investor2 exchange : Address) (initialMint : Nat) :
    List (Address × RWA.Call) :=
  [ (treasury, .transfer owner (teamAllocation initialMint)),
    (treasury, .transfer investor1 (investorAllocation initialMint / 2)),
    (treasury, .transfer investor2 (investorAllocation initialMint / 2)),
    (treasury, .transfer exchange (communityAllocation initialMint)) ]

/-- Whether every transaction of a sequence goes through (an awaited call that
reverts ends the test). -/
def allSucceed (s : RWA.State) : List (Address × RWA.Call) → Bool
  | [] => true
  | tx :: txs => (RWA.exec s tx.1 tx.2).toBool && allSucceed (RWA.step s tx) txs

end Business

/-! ## test/RWAUserEcosystemLoop.test.js: roles, privileges and feature access -/

namespace UserEcosystem

open Evm

/-- The array `roles` (line 23). -/
def roles : List String := ["User", "Contributor", "Moderator", "Ambassador", "Leader"]

/-- The array `privileges` (lines 24-30). -/
def privileges : List String :=
  ["高级教程访问权", "社区专属活动", "早期测试功能", "内容创作奖励", "社区治理投票"]

/-- The names every object inherits from `Object.prototype`; reading one of
them from a plain object gives a function or an object, which is truthy. -/
def inherited : List String :=
  ["constructor", "__proto__", "hasOwnProperty", "isPrototypeOf", "propertyIsEnumerable",
   "toLocaleString", "toString", "valueOf", "__defineGetter__", "__defineSetter__",
   "__lookupGetter__", "__lookupSetter__"]

/-- The objects `userRoles`, `userPrivileges` and `featureAccess` (lines 17-20),
keyed by the user's address, with no entry (`none`) until one is written. An
entry of `featureAccess` is an object whose own keys all hold `true`; it is kept
as the list of these keys. -/
structure State where
  userRoles : Address → Option String
  userPrivileges : Address → Option (List String)
  featureAccess : Address → Option (List String)

/-- The objects as declared (lines 17-20): all empty. -/
def empty : State :=
  { userRoles := fun _ => none
    userPrivileges := fun _ => none
    featureAccess := fun _ => none }

/-- The statements `if (!list.includes(p)) list.push(p)`. -/
def pushIfMissing (list : List String) (p : String) : List String :=
  if p ∈ list then list else list ++ [p]

/-- The assignment `object[key] = true` on the own keys of an object; an
assignment of `true` to `__proto__` is ignored and leaves no own key. -/
def setTrue (object : List String) (key : String) : List String :=
  if key = "__proto__" ∨ key ∈ object then object else object ++ [key]

/-- The statements `if (!userPrivileges[a]) userPrivileges[a] = []` (lines
121-123, 132-134, 152-154). -/
def ensurePrivileges (s : State) (user : Address) : State :=
  { s with
    userPrivileges :=
      Function.update s.userPrivileges user (some ((s.userPrivileges user).getD [])) }

/-- The statements `if (!list.includes(p)) list.push(p)` on `userPrivileges[a]`. -/
def addPrivilege (s : State) (user : Address) (privilege : String) : State :=
  { s with
    userPrivileges :=
      Function.update s.userPrivileges user
        (some (pushIfMissing ((s.userPrivileges user).getD []) privilege)) }

/-- The statements `featureAccess[a] = featureAccess[a] || {}` and
`featureAccess[a][feature] = true`. -/
def enableFeature (s : State) (user : Address) (feature : String) : State :=
  { s with
    featureAccess :=
      Function.update s.featureAccess user
        (some (setTrue ((s.featureAccess user).getD []) feature)) }

/-- One round of the loop of lines 136-142. -/
def grantPrivilege (user : Address) (s : State) (privilege : String) : State :=
  enableFeature (addPrivilege s user privilege) user privilege

/-- The assignment `userRoles[user.address] = role` (line 117). -/
def setRole (s : State) (user : Address) (role : String) : State :=
  { s with userRoles := Function.update s.userRoles user (some role) }

/-- The branch of `grantRole` for the role `Ambassador` (lines 121-128). -/
def grantAmbassador (s : State) (user : Address) : State :=
  enableFeature (addPrivilege (ensurePrivileges s user) user "早期测试功能") user "早期测试功能"

/-- The branch of `grantRole` for the role `Leader` (lines 132-142). -/
def grantLeader (s : State) (user : Address) : State :=
  privileges.foldl (grantPrivilege user) (ensurePrivileges s user)

/-- The function `grantRole` (lines 116-144). -/
def grantRole (s : State) (user : Address) (role : String) : State :=
  let s₁ := setRole s user role
  let s₂ := if role = "Ambassador" then grantAmbassador s₁ user else s₁
  if role = "Leader" then grantLeader s₂ user else s₂

/-- Whether the transfer of `reputationAmount` reputation tokens to the
community manager goes through: the amount has to be a `uint256` and the token
contract has to accept it (`tokenOk`, which depends on balances this state does
not hold). -/
def transferAccepted (tokenOk : Bool) (reputationAmount : Int) : Bool :=
  tokenOk && decide (0 ≤ reputationAmount) && decide (reputationAmount ≤ (maxUint256 : Int))

/-- The function `redeemPrivilege` (lines 147-167); when the awaited transfer
throws nothing has been assigned yet. -/
def redeemPrivilege (s : State) (user : Address) (privilegeName : String)
    (reputationAmount : Int) (tokenOk : Bool) : Except String State :=
  if !transferAccepted tokenOk reputationAmount then .error "transfer reverted"
  else
    let s₁ := addPrivilege (ensurePrivileges s user) user privilegeName
    let s₂ := enableFeature s₁ user privilegeName
    if privilegeName = "高级教程访问权" then .ok (enableFeature s₂ user "早期测试功能")
    else .ok s₂

/-- The function `canAccessFeature` (lines 170-172). -/
def canAccessFeature (s : State) (user : Address) (feature : String) : Bool :=
  match s.featureAccess user with
  | none => false
  | some object => decide (feature ∈ object) || decide (feature ∈ inherited)

/-- The function `getUserRole` (lines 175-177); the empty string is falsy. -/
def getUserRole (s : State) (userAddress : Address) : String :=
  match s.userRoles userAddress with
  | none => "User"
  | some role => if role = "" then "User" else role

/-- The function `getUserPrivileges` (lines 180-182). -/
def getUserPrivileges (s : State) (userAddress : Address) : List String :=
  (s.userPrivileges userAddress).getD []

/-- The assignments of `beforeEach` (lines 63-76) for the four named accounts. -/
def beforeEach (s : State) (regularUser1 regularUser2 contentCreator ambassador : Address) :
    State :=
  let userRoles := Function.update (Function.update (Function.update (Function.update
    s.userRoles regularUser1 (some "User")) regularUser2 (some "User"))
    contentCreator (some "Contributor")) ambassador (some "Ambassador")
  let userPrivileges := Function.update (Function.update (Function.update (Function.update
    s.userPrivileges regularUser1 (some [])) regularUser2 (some []))
    contentCreator (some ["内容创作奖励"])) ambassador (some ["早期测试功能", "社区专属活动"])
  { userRoles := userRoles
    userPrivileges := userPrivileges
    featureAccess := Function.update s.featureAccess ambassador (some ["早期测试功能"]) }

/-- The two calls that change roles, privileges and feature access. -/
inductive Action where
  | grantRole (user : Address) (role : String)
  | redeemPrivilege (user : Address) (privilegeName : String) (reputationAmount : Int)
      (tokenOk : Bool)

/-- The user a call is made for. -/
def Action.user : Action → Address
  | .grantRole user _ => user
  | .redeemPrivilege user _ _ _ => user

/-- The state after one call; a `redeemPrivilege` that throws leaves it as it was. -/
def step (s : State) : Action → State
  | .grantRole user role => grantRole s user role
  | .redeemPrivilege user privilegeName reputationAmount tokenOk =>
    match redeemPrivilege s user privilegeName reputationAmount tokenOk with
    | .ok s' => s'
    | .error _ => s

/-- The state after a sequence of calls. -/
def run (s : State) (actions : List Action) : State := actions.foldl step s

/-- What a call for `user` leaves alone: every role entry but possibly the
user's, and the privileges and feature access of every other user. -/
def Frames (user : Address) (s s' : State) : Prop :=
  ∀ other, other ≠ user →
    s'.userRoles other = s.userRoles other ∧
    s'.userPrivileges other = s.userPrivileges other ∧
    s'.featureAccess other = s.featureAccess other

end UserEcosystem

/-! ## scripts/verify.js: the run of `main` -/

namespace Verify

open Js Config

/-- What a run has done so far: the `verify:verify` tasks it has started, in
order, and the lines it has printed. -/
structure Trace where
  attempted : List Task
  log : List String

/-- How the body of `main` ends: by `process.exit` inside it, by returning (its
promise resolves) or by throwing (its promise rejects). -/
inductive Completion where
  | exited (status : Nat) (trace : Trace)
  | resolved (trace : Trace)
  | rejected (error : String) (trace : Trace)

/-- The names of the five contracts in the messages of `main`. -/
def labels : List String :=
  ["RWA token", "prRWA token", "STABLE_RWA token", "Helper contract", "GLA contract"]

/-- One block `try \x7b console.log(...); await run("verify:verify", task);
console.log(...) \x7d catch (error) \x7b console.log(...) \x7d` (lines 19-28 and its
four siblings): `outcome` is what the task does, returning or throwing an
`Error` with a message. The `catch` prints the message and the block ends
normally either way. -/
def verifyBlock (index : Nat) (label : String) (task : Task) (outcome : Except String Unit)
    (trace : Trace) : Except String Trace :=
  let started : Trace :=
    { attempted := trace.attempted ++ [task]
      log := trace.log ++ ["\n" ++ toString index ++ ". Verifying " ++ label ++ "..."] }
  match outcome with
  | .ok _ => .ok { started with log := started.log ++ [label ++ " verification successful!"] }
  | .error message =>
    .ok { started with log := started.log ++ ["Failed to verify " ++ label ++ ": " ++ message] }

/-- The blocks for the tasks from position `index` on, one after the other; a
block that threw would end the sequence. -/
def verifyAll (outcome : Nat → Except String Unit) :
    Nat → List (String × Task) → Trace → Except String Trace
  | _, [], trace => .ok trace
  | index, (label, task) :: rest, trace =>
    match verifyBlock index label task (outcome index) trace with
    | .ok trace' => verifyAll outcome (index + 1) rest trace'
    | .error e => .error e

/-- The lines printed after the five blocks (lines 100-105). -/
def closingLines : List String :=
  ["\nVerification for proxy contracts:",
   "Market Proxy: Manual verification required",
   "StakePool Proxy: Manual verification required",
   "Bank Proxy: Manual verification required",
   "\nRWA Launchpad protocol verification complete!"]

/-- The function `main` (lines 6-106); `outcome i` is what the `i`-th
`verify:verify` task does. -/
def main (env : ProcessEnv) (outcome : Nat → Except String Unit) : Completion :=
  let cfg := config env
  let start : Trace :=
    { attempted := []
      log := ["Verifying RWA Launchpad protocol contracts on " ++
        (getProp cfg "network").toStr ++ "..."] }
  if !hasDeployedContracts cfg then
    .exited 1 { start with log := start.log ++
      ["Missing contract addresses in .env file. Please run deploy.js first."] }
  else
    let begun := { start with log := start.log ++ ["\nStarting verification process..."] }
    match verifyAll outcome 1 (labels.zip (tasks cfg)) begun with
    | .ok trace => .resolved { trace with log := trace.log ++ closingLines }
    | .error e => .rejected e begun

/-- The trace of a run. -/
def Completion.trace : Completion → Trace
  | .exited _ trace => trace
  | .resolved trace => trace
  | .rejected _ trace => trace

/-- The exit status of the process (lines 109-114): the status of a
`process.exit` inside `main`, else 0 when `main` resolves and 1 when it
rejects. -/
def exitStatus : Completion → Nat
  | .exited status _ => status
  | .resolved _ => 0
  | .rejected _ _ => 1

/-- Whether the promise of `main` rejected. -/
def Completion.isRejected : Completion → Bool
  | .rejected _ _ => true
  | _ => false

end Verify

/-! ## Sample inputs -/

namespace Sample

open Js Config Deploy

/-- An environment that configures only the address of an existing GLA contract. -/
def envWithGla : ProcessEnv := fun k =>
  if k = "GLA_ADDRESS" then some "0x5FbDB2315678afecb367f032d93F642f64180aa3" else none

/-- An environment that configures the three tokens and the three proxies, and
neither the helper nor the GLA contract. -/
def envWithCore : ProcessEnv := fun k =>
  if k = "RWA_ADDRESS" then some "0x0000000000000000000000000000000000000a01"
  else if k = "PRRWA_ADDRESS" then some "0x0000000000000000000000000000000000000a02"
  else if k = "STABLE_RWA_ADDRESS" then some "0x0000000000000000000000000000000000000a03"
  else if k = "MARKET_PROXY_ADDRESS" then some "0x0000000000000000000000000000000000000a04"
  else if k = "STAKEPOOL_PROXY_ADDRESS" then some "0x0000000000000000000000000000000000000a05"
  else if k = "BANK_PROXY_ADDRESS" then some "0x0000000000000000000000000000000000000a06"
  else none

/-- A run on the in-process network: nothing is initialised yet and every new
contract gets an address named after its factory. -/
def world : World :=
  { networkName := "hardhat"
    chainId := 31337
    url := none
    blockNumber := 0
    deployer := "0xf39Fd6e51aad88F6F4ce6aB8827279cffFb92266"
    deployed := fun name => "0xnew" ++ name
    proxied := fun name => "0xproxy" ++ name
    poolLengthOk := false
    devOk := false
    hasMintRole := false
    stableRwaOwner := "0xf39Fd6e51aad88F6F4ce6aB8827279cffFb92266"
    isoDate := "2025-01-01T00:00:00.000Z" }

/-- A `deploymentData` with a network name and all addresses recorded. -/
def deploymentData : DeploymentData :=
  { network := "fuji"
    chainId := 43113
    rpcUrl := "localhost"
    blockNumber := 7
    solidityVersion := "0.8.19"
    deployer := "0xf39Fd6e51aad88F6F4ce6aB8827279cffFb92266"
    marketInitialized := false
    rwa := .str "0x0000000000000000000000000000000000000a01"
    prRWA := .str "0x0000000000000000000000000000000000000a02"
    stableRwa := .str "0x0000000000000000000000000000000000000a03"
    marketProxy := .str "0x0000000000000000000000000000000000000a04"
    stakePoolProxy := .str "0x0000000000000000000000000000000000000a05"
    bankProxy := .str "0x0000000000000000000000000000000000000a06"
    helper := .str "0x0000000000000000000000000000000000000a07"
    gla := .str "0x0000000000000000000000000000000000000a08" }

/-- The same `deploymentData` with an empty network name. -/
def unnamedNetworkData : DeploymentData := { deploymentData with network := "" }

/-- The same `deploymentData` with a space at the end of the recorded RWA
address. -/
def spacedAddressData : DeploymentData := { deploymentData with rwa := .str "0x0a01 " }

/-- Contract addresses built for a project: all derived from the project id. -/
def built : Nat → Evm.Address → RWALaunchpad.Contracts := fun id _ =>
  { rwa := Fin.ofNat (100 + id), prRWA := Fin.ofNat (200 + id), stableRwa := Fin.ofNat (300 + id),
    bank := Fin.ofNat (400 + id), market := Fin.ofNat (500 + id),
    stakePool := Fin.ofNat (600 + id), helper := Fin.ofNat (700 + id), gla := Fin.ofNat (800 + id) }

/-- A factory on which account 2 has deployed one project with the balanced preset. -/
def factory : RWALaunchpad.State :=
  RWALaunchpad.run built (RWALaunchpad.deploy 1) [(2, .deployWithPreset 0 "PauseProject" 1)]

/-- The record of that project. -/
def project : RWALaunchpad.Project :=
  { id := 1, name := "PauseProject", owner := 2, stage := 3, contracts := built 1 2 }

/-- A token on which the owner, account 1, has minted 10 tokens to account 2. -/
def token : RWA.State := RWA.run (RWA.deploy 1) [(1, .mint 2 10)]

/-- The environment `envWithCore` with the helper address configured too. -/
def envWithHelper : ProcessEnv := fun k =>
  if k = "HELPER_ADDRESS" then some "0x0000000000000000000000000000000000000a07" else envWithCore k

/-- An environment that sets the withdraw fee to zero and nothing else. -/
def envZeroFee : ProcessEnv := fun k => if k = "WITHDRAW_FEE" then some "0" else none

/-- The first liquidity provider of the staking tests. -/
def lp1 : Evm.Address := 1

/-- The second liquidity provider of the staking tests. -/
def lp2 : Evm.Address := 2

/-- The pool of the dynamic-rate test after `lp1` has staked 10000 tokens and
100 blocks have passed (lines 299-304). -/
def poolAfterFirstStake : Staking.StakingData :=
  Staking.run Staking.initial
    [.stake lp1 (10000 * Staking.ether) true, .simulateBlockAdvance 100]

/-- The calls of the first staking test up to the first reward query (lines
224-235): `lp1` stakes 50000 tokens, `lp2` stakes 12500, 1000 blocks pass. -/
def firstStakes : List Staking.Action :=
  [.stake lp1 (50000 * Staking.ether) true, .stake lp2 (12500 * Staking.ether) true]

/-- A pool with the total of the dynamic-rate test after both stakes, 510000
tokens (lines 299-313). -/
def largePool : Staking.StakingData :=
  { Staking.initial with totalStaked := 510000 * Staking.ether }

/-- The treasury of the business tests, the third signer. -/
def treasury : Evm.Address := 3

/-- The token of the business tests after `beforeEach` (lines 21-27): the
deployer, account 1, has minted ten million tokens to the treasury. -/
def mintedToken : RWA.State :=
  RWA.run (RWA.deploy 1) [(1, .mint treasury (10000000 * 10 ^ 18))]

/-- The first regular user of the ecosystem tests, the sixth signer. -/
def regularUser1 : Evm.Address := 6

/-- The second regular user of the ecosystem tests, the seventh signer. -/
def regularUser2 : Evm.Address := 7

/-- The ambassador of the ecosystem tests, the fifth signer. -/
def ambassador : Evm.Address := 5

/-- The roles, privileges and feature access after `beforeEach` (lines 63-76);
the content creator is the fourth signer. -/
def community : UserEcosystem.State :=
  UserEcosystem.beforeEach UserEcosystem.empty regularUser1 regularUser2 4 ambassador

/-- A block explorer that rejects every verification. -/
def allFail : Nat → Except String Unit := fun _ => .error "request failed"

end Sample

/-! ## Properties of `config.js` -/

namespace Config

open Js

theorem getProp_network (env : ProcessEnv) :
    getProp (config env) "network" = .str (envOr (env "NETWORK") "hardhat") := by
  simp [config, getProp]

theorem getProp_rwa (env : ProcessEnv) :
    getProp (config env) "rwa" = .str (envOr (env "RWA_ADDRESS") "") := by
  simp [config, getProp]

theorem getProp_prRWA (env : ProcessEnv) :
    getProp (config env) "prRWA" = .str (envOr (env "PRRWA_ADDRESS") "") := by
  simp [config, getProp]

theorem getProp_stableRwa (env : ProcessEnv) :
    getProp (config env) "stableRwa" = .str (envOr (env "STABLE_RWA_ADDRESS") "") := by
  simp [config, getProp]

theorem getProp_marketProxy (env : ProcessEnv) :
    getProp (config env) "marketProxy" = .str (envOr (env "MARKET_PROXY_ADDRESS") "") := by
  simp [config, getProp]

theorem getProp_stakePoolProxy (env : ProcessEnv) :
    getProp (config env) "stakePoolProxy" = .str (envOr (env "STAKEPOOL_PROXY_ADDRESS") "") := by
  simp [config, getProp]

theorem getProp_bankProxy (env : ProcessEnv) :
    getProp (config env) "bankProxy" = .str (envOr (env "BANK_PROXY_ADDRESS") "") := by
  simp [config, getProp]

theorem getProp_helper (env : ProcessEnv) :
    getProp (config env) "helper" = .str (envOr (env "HELPER_ADDRESS") "") := by
  simp [config, getProp]

/-- The property `config.gla` is the parameter object written at line 39, not
the address written at line 20. -/
theorem getProp_gla_typeOf (env : ProcessEnv) :
    (getProp (config env) "gla").typeOf = "object" := by
  simp [config, getProp, Val.typeOf]

end Config


/-! ## Properties of `deploy.js` -/

namespace Deploy

open Js Config

theorem countP_ite {α : Type} (p : α → Bool) (c : Prop) [Decidable c] (l₁ l₂ : List α) :
    List.countP p (if c then l₁ else l₂) = if c then List.countP p l₁ else List.countP p l₂ := by
  split <;> rfl

/-- C4: for each of RWA, prRWA, StableRwa, the Market, StakePool and Bank
proxies and Helper, when the address is configured (its environment variable
is non-empty) `main` attaches to the contract at that address, makes no call
that creates a new instance for it (`deploy` for a token or the helper,
`deployProxy` for a proxy; the implementation contracts of step 2 are not
proxies) and records exactly the configured address; otherwise it creates
exactly one new instance and records the new address. -/
theorem main_attaches_or_deploys (env : ProcessEnv) (w : World) (slot : Slot) :
    if envOr (env slot.envVar) "" ≠ "" then
      Action.getContractAt slot.contract (.str (envOr (env slot.envVar) "")) ∈ (main env w).actions ∧
      (main env w).actions.countP slot.creates = 0 ∧
      slot.recorded (main env w).data = .str (envOr (env slot.envVar) "")
    else
      (main env w).actions.countP slot.creates = 1 ∧
      slot.recorded (main env w).data = .str (slot.fresh w) := by
  cases slot <;>
  · simp only [Slot.envVar, Slot.contract, Slot.creates, Slot.recorded, Slot.fresh, main,
      deployRwa, deployPrRwa, deployStableRwa, deployImplementations, deployMarketProxy,
      deployStakePoolProxy, deployBankProxy, deployHelper, initStakePool, initBank, deployGla,
      setRoles, getProp_rwa, getProp_prRWA, getProp_stableRwa, getProp_marketProxy,
      getProp_stakePoolProxy, getProp_bankProxy, getProp_helper, getProp_gla_typeOf]
    split
    · rename_i h
      simp [h, Val.truthy, List.countP_cons, countP_ite, Action.isDeployOf, Action.isProxyOf,
        apply_ite Prod.snd, apply_ite Prod.fst]
    · rename_i h
      simp [h, Val.truthy, List.countP_cons, countP_ite, Action.isDeployOf, Action.isProxyOf,
        apply_ite Prod.snd, apply_ite Prod.fst]

end Deploy

/-! ## Properties of the environment file -/

namespace Dotenv

open Js Config

theorem splitLines_ne_nil (l : List Char) : splitLines l ≠ [] := by
  cases l with
  | nil => simp [splitLines]
  | cons c cs =>
    unfold splitLines
    split
    · simp
    · split <;> simp

theorem splitLines_append_lf (a b : List Char) :
    splitLines (a ++ '\n' :: b) = splitLines a ++ splitLines b := by
  induction a with
  | nil => simp [splitLines]
  | cons c cs ih =>
    by_cases hc : c = '\n'
    · subst hc
      simp [splitLines, ih]
    · have hne := splitLines_ne_nil cs
      cases hs : splitLines cs with
      | nil => exact absurd hs hne
      | cons l ls => simp [splitLines, hc, ih, hs]

theorem splitLines_of_no_lf (l : List Char) (h : ∀ c ∈ l, c ≠ '\n') : splitLines l = [l] := by
  induction l with
  | nil => simp [splitLines]
  | cons c cs ih =>
    have hc : c ≠ '\n' := h c (by simp)
    have := ih (fun x hx => h x (by simp [hx]))
    simp [splitLines, hc, this]

theorem not_lineBreak_of_plain (c : Char) (h : plainChar c = true) : isLineBreak c = false := by
  simp only [plainChar, Bool.and_eq_true, Bool.not_eq_true'] at h
  have hw := h.1.1
  by_contra hb
  simp only [isLineBreak, Bool.not_eq_false, Bool.or_eq_true, beq_iff_eq] at hb
  rcases hb with ((rfl | rfl) | rfl) | rfl <;> exact absurd hw (by decide)

theorem valueChar_of_plain (c : Char) (h : plainChar c = true) : valueChar c = true := by
  have hb := not_lineBreak_of_plain c h
  simp only [plainChar, Bool.and_eq_true, Bool.not_eq_true'] at h
  simp [valueChar, h.1.2, h.2, hb]

theorem dropWhile_of_all_false (p : Char → Bool) (l : List Char) (h : ∀ c ∈ l, p c = false) :
    l.dropWhile p = l := by
  cases l with
  | nil => rfl
  | cons c cs => simp [List.dropWhile, h c (by simp)]

theorem trim_plain (v : List Char) (h : ∀ c ∈ v, plainChar c = true) : trim v = v := by
  have hb : ∀ c ∈ v, isWhiteSpace c = false := fun c hc => by
    have := h c hc
    simp only [plainChar, Bool.and_eq_true, Bool.not_eq_true'] at this
    exact this.1.1
  unfold trim
  rw [dropWhile_of_all_false isWhiteSpace v hb,
    dropWhile_of_all_false isWhiteSpace v.reverse (fun c hc => hb c (List.mem_reverse.mp hc))]
  simp

theorem not_lf_of_not_lineBreak (c : Char) (h : isLineBreak c = false) : c ≠ '\n' := by
  rintro rfl
  exact absurd h (by decide)

theorem parseLine_entry (k v : String) (hk : k.data ≠ []) (hp : k ≠ "__proto__")
    (hkc : ∀ c ∈ k.data, isKeyChar c = true) (hv : ∀ c ∈ v.data, plainChar c = true) :
    parseLine (k.data ++ '=' :: v.data) = some (.entry k v) := by
  obtain ⟨c, cs, hd⟩ : ∃ c cs, k.data = c :: cs := by
    cases hd : k.data with
    | nil => exact absurd hd hk
    | cons c cs => exact ⟨c, cs, rfl⟩
  have hc : c ≠ '#' := by
    rintro rfl
    exact absurd (hkc '#' (by simp [hd])) (by decide)
  have h2 : (k.data ++ '=' :: v.data).takeWhile isKeyChar = k.data := by
    rw [List.takeWhile_append_of_pos hkc]
    simp [List.takeWhile, show isKeyChar '=' = false by decide]
  have h3 : (k.data ++ '=' :: v.data).dropWhile isKeyChar = '=' :: v.data := by
    rw [List.dropWhile_append_of_pos hkc]
    simp [List.dropWhile, show isKeyChar '=' = false by decide]
  have h4 : (k.data == "__proto__".data) = false := by
    rw [beq_eq_false_iff_ne]
    intro h
    exact hp (String.ext h)
  have h5 : v.data.all valueChar = true :=
    List.all_eq_true.mpr fun c hc => valueChar_of_plain c (hv c hc)
  have h6 : k.data.isEmpty = false := by rw [hd]; rfl
  have h7 : ¬ (k.data ++ '=' :: v.data).isEmpty = true := by rw [hd]; simp
  have h8 : ¬ (k.data ++ '=' :: v.data).head? = some '#' := by
    rw [hd]
    simpa using hc
  unfold parseLine
  rw [if_neg h7, if_neg h8]
  simp only [h2, h3, h4, h5, h6, Bool.or_false, Bool.not_true, Bool.false_eq_true, if_false,
    trim_plain v.data hv]

theorem parseLine_comment (l : List Char) (h : ∀ c ∈ l, isLineBreak c = false) :
    parseLine ('#' :: l) = some .comment := by
  have : ('#' :: l).any isLineBreak = false := by
    rw [List.any_eq_false]
    intro c hc
    rcases List.mem_cons.mp hc with rfl | hc
    · decide
    · simp [h c hc]
  simp [parseLine, this]

theorem parseLines_entry (k v : String) (rest : List Char) (entries : List (String × String))
    (hk : k.data ≠ []) (hp : k ≠ "__proto__")
    (hkc : ∀ c ∈ k.data, isKeyChar c = true) (hv : ∀ c ∈ v.data, plainChar c = true)
    (hr : parseLines (splitLines rest) = some entries) :
    parseLines (splitLines ((k.data ++ '=' :: v.data) ++ '\n' :: rest)) =
      some ((k, v) :: entries) := by
  have hno : ∀ c ∈ k.data ++ '=' :: v.data, c ≠ '\n' := by
    intro c hc
    rcases List.mem_append.mp hc with h | h
    · rintro rfl
      exact absurd (hkc _ h) (by decide)
    · rcases List.mem_cons.mp h with h | h
      · subst h
        decide
      · exact not_lf_of_not_lineBreak c (not_lineBreak_of_plain c (hv c h))
  rw [splitLines_append_lf, splitLines_of_no_lf _ hno]
  show parseLines ((k.data ++ '=' :: v.data) :: splitLines rest) = _
  simp only [parseLines, parseLine_entry k v hk hp hkc hv, hr]

theorem parseLines_comment (l rest : List Char) (entries : List (String × String))
    (h : ∀ c ∈ l, isLineBreak c = false) (hr : parseLines (splitLines rest) = some entries) :
    parseLines (splitLines (('#' :: l) ++ '\n' :: rest)) = some entries := by
  have hno : ∀ c ∈ '#' :: l, c ≠ '\n' := by
    intro c hc
    rcases List.mem_cons.mp hc with rfl | hc
    · decide
    · exact not_lf_of_not_lineBreak c (h c hc)
  rw [splitLines_append_lf, splitLines_of_no_lf _ hno]
  show parseLines (('#' :: l) :: splitLines rest) = _
  simp only [parseLines, parseLine_comment l h, hr]

theorem isToken_iff (v : Val) :
    isToken v = true ↔ ∃ s, v = .str s ∧ s ≠ "" ∧ ∀ c ∈ s.data, plainChar c = true := by
  cases v <;> simp [isToken]

theorem envContent_data (d : Deploy.DeploymentData) (stamp : String) :
    (Deploy.envContent d stamp).data =
      ("# Deployment Environment Variables - " ++ d.network ++ " - " ++ stamp).data ++ '\n' ::
      (("NETWORK".data ++ '=' :: d.network.data) ++ '\n' ::
      (("RWA_ADDRESS".data ++ '=' :: d.rwa.toStr.data) ++ '\n' ::
      (("PRRWA_ADDRESS".data ++ '=' :: d.prRWA.toStr.data) ++ '\n' ::
      (("STABLE_RWA_ADDRESS".data ++ '=' :: d.stableRwa.toStr.data) ++ '\n' ::
      (("MARKET_PROXY_ADDRESS".data ++ '=' :: d.marketProxy.toStr.data) ++ '\n' ::
      (("STAKEPOOL_PROXY_ADDRESS".data ++ '=' :: d.stakePoolProxy.toStr.data) ++ '\n' ::
      (("BANK_PROXY_ADDRESS".data ++ '=' :: d.bankProxy.toStr.data) ++ '\n' ::
      (("HELPER_ADDRESS".data ++ '=' :: d.helper.toStr.data) ++ '\n' ::
      (("GLA_ADDRESS".data ++ '=' :: d.gla.toStr.data) ++ '\n' :: []))))))))) := by
  simp only [Deploy.envContent, String.data_append, List.append_assoc]
  rfl

theorem parse_envContent (d : Deploy.DeploymentData) (stamp : String)
    (rwa prRWA stableRwa marketProxy stakePoolProxy bankProxy helper gla : String)
    (e1 : d.rwa = .str rwa) (e2 : d.prRWA = .str prRWA) (e3 : d.stableRwa = .str stableRwa)
    (e4 : d.marketProxy = .str marketProxy) (e5 : d.stakePoolProxy = .str stakePoolProxy)
    (e6 : d.bankProxy = .str bankProxy) (e7 : d.helper = .str helper) (e8 : d.gla = .str gla)
    (hs : ∀ c ∈ stamp.data, isLineBreak c = false)
    (p0 : ∀ c ∈ d.network.data, plainChar c = true)
    (p1 : ∀ c ∈ rwa.data, plainChar c = true) (p2 : ∀ c ∈ prRWA.data, plainChar c = true)
    (p3 : ∀ c ∈ stableRwa.data, plainChar c = true)
    (p4 : ∀ c ∈ marketProxy.data, plainChar c = true)
    (p5 : ∀ c ∈ stakePoolProxy.data, plainChar c = true)
    (p6 : ∀ c ∈ bankProxy.data, plainChar c = true)
    (p7 : ∀ c ∈ helper.data, plainChar c = true) (p8 : ∀ c ∈ gla.data, plainChar c = true) :
    parse (Deploy.envContent d stamp) = some
      [("NETWORK", d.network), ("RWA_ADDRESS", rwa), ("PRRWA_ADDRESS", prRWA),
       ("STABLE_RWA_ADDRESS", stableRwa), ("MARKET_PROXY_ADDRESS", marketProxy),
       ("STAKEPOOL_PROXY_ADDRESS", stakePoolProxy), ("BANK_PROXY_ADDRESS", bankProxy),
       ("HELPER_ADDRESS", helper), ("GLA_ADDRESS", gla)] := by
  have hh : ∀ c ∈ " Deployment Environment Variables - ".data ++ d.network.data ++ " - ".data ++
      stamp.data, isLineBreak c = false := by
    intro c hc
    simp only [List.mem_append] at hc
    rcases hc with ((hc | hc) | hc) | hc
    · revert c; decide
    · exact not_lineBreak_of_plain c (p0 c hc)
    · revert c; decide
    · exact hs c hc
  have hhead : ("# Deployment Environment Variables - " ++ d.network ++ " - " ++ stamp).data =
      '#' :: (" Deployment Environment Variables - ".data ++ d.network.data ++ " - ".data ++
        stamp.data) := by
    simp only [String.data_append, List.append_assoc]
    rfl
  unfold parse
  rw [envContent_data, hhead, e1, e2, e3, e4, e5, e6, e7, e8]
  simp only [Val.toStr]
  exact parseLines_comment _ _ _ hh
    (parseLines_entry "NETWORK" d.network _ _ (by decide) (by decide) (by decide) p0
    (parseLines_entry "RWA_ADDRESS" rwa _ _ (by decide) (by decide) (by decide) p1
    (parseLines_entry "PRRWA_ADDRESS" prRWA _ _ (by decide) (by decide) (by decide) p2
    (parseLines_entry "STABLE_RWA_ADDRESS" stableRwa _ _ (by decide) (by decide) (by decide) p3
    (parseLines_entry "MARKET_PROXY_ADDRESS" marketProxy _ _ (by decide) (by decide)
      (by decide) p4
    (parseLines_entry "STAKEPOOL_PROXY_ADDRESS" stakePoolProxy _ _ (by decide) (by decide)
      (by decide) p5
    (parseLines_entry "BANK_PROXY_ADDRESS" bankProxy _ _ (by decide) (by decide) (by decide) p6
    (parseLines_entry "HELPER_ADDRESS" helper _ _ (by decide) (by decide) (by decide) p7
    (parseLines_entry "GLA_ADDRESS" gla _ _ (by decide) (by decide) (by decide) p8
      (by simp [splitLines, parseLines, parseLine]))))))))))

theorem envOr_some (s dflt : String) (h : s ≠ "") : envOr (some s) dflt = s := by
  simp [envOr, h]

/-- C3, amended: when the network name and the recorded addresses are
non-empty tokens (no white space, `#` or quote) and the timestamp holds no line
terminator, the text written by `generateDeploymentReport` is one the loader
model covers, and loading it as the process environment makes `config.js` yield
the recorded network, rwa, prRWA, stableRwa, marketProxy, stakePoolProxy,
bankProxy and helper, and `hasDeployedContracts()` is true. -/
theorem env_file_round_trip (d : Deploy.DeploymentData) (stamp : String)
    (hs : isSingleLine stamp = true)
    (h0 : isToken (.str d.network) = true) (h1 : isToken d.rwa = true)
    (h2 : isToken d.prRWA = true) (h3 : isToken d.stableRwa = true)
    (h4 : isToken d.marketProxy = true) (h5 : isToken d.stakePoolProxy = true)
    (h6 : isToken d.bankProxy = true) (h7 : isToken d.helper = true)
    (h8 : isToken d.gla = true) :
    ∃ env, load (Deploy.envContent d stamp) = some env ∧
      getProp (config env) "network" = .str d.network ∧
      getProp (config env) "rwa" = d.rwa ∧
      getProp (config env) "prRWA" = d.prRWA ∧
      getProp (config env) "stableRwa" = d.stableRwa ∧
      getProp (config env) "marketProxy" = d.marketProxy ∧
      getProp (config env) "stakePoolProxy" = d.stakePoolProxy ∧
      getProp (config env) "bankProxy" = d.bankProxy ∧
      getProp (config env) "helper" = d.helper ∧
      hasDeployedContracts (config env) = true := by
  obtain ⟨net, en, n0, p0⟩ := (isToken_iff _).mp h0
  obtain ⟨rwa, e1, n1, p1⟩ := (isToken_iff _).mp h1
  obtain ⟨prRWA, e2, n2, p2⟩ := (isToken_iff _).mp h2
  obtain ⟨stableRwa, e3, n3, p3⟩ := (isToken_iff _).mp h3
  obtain ⟨marketProxy, e4, n4, p4⟩ := (isToken_iff _).mp h4
  obtain ⟨stakePoolProxy, e5, n5, p5⟩ := (isToken_iff _).mp h5
  obtain ⟨bankProxy, e6, n6, p6⟩ := (isToken_iff _).mp h6
  obtain ⟨helper, e7, n7, p7⟩ := (isToken_iff _).mp h7
  obtain ⟨gla, e8, _, p8⟩ := (isToken_iff _).mp h8
  have en' : d.network = net := by injection en
  rw [← en'] at n0 p0
  have hs' : ∀ c ∈ stamp.data, isLineBreak c = false := by
    intro c hc
    have := List.all_eq_true.mp hs c hc
    simpa using this
  have hp := parse_envContent d stamp rwa prRWA stableRwa marketProxy stakePoolProxy
    bankProxy helper gla e1 e2 e3 e4 e5 e6 e7 e8 hs' p0 p1 p2 p3 p4 p5 p6 p7 p8
  refine ⟨_, by unfold load; rw [hp]; rfl, ?_⟩
  simp only [getProp_network, getProp_rwa, getProp_prRWA, getProp_stableRwa, getProp_marketProxy,
    getProp_stakePoolProxy, getProp_bankProxy, getProp_helper, hasDeployedContracts]
  simp [lookupLast, envOr_some _ _ n0, envOr_some _ _ n1, envOr_some _ _ n2,
    envOr_some _ _ n3, envOr_some _ _ n4, envOr_some _ _ n5, envOr_some _ _ n6,
    envOr_some _ _ n7, e1, e2, e3, e4, e5, e6, e7, Val.and, Val.truthy, n1, n2, n3, n4, n5, n6]

/-- C3, counterexample to the claim as stated: every address of the sample
data is a non-empty token, yet with an empty network name the file reads
`NETWORK=` and `config.js` falls back to `"hardhat"`, which is not the recorded
network; and a recorded address that ends in a space is non-empty but is read
back without the space. -/
theorem round_trip_loses_empty_network :
    (isToken Sample.unnamedNetworkData.rwa = true ∧
      isToken Sample.unnamedNetworkData.prRWA = true ∧
      isToken Sample.unnamedNetworkData.stableRwa = true ∧
      isToken Sample.unnamedNetworkData.marketProxy = true ∧
      isToken Sample.unnamedNetworkData.stakePoolProxy = true ∧
      isToken Sample.unnamedNetworkData.bankProxy = true ∧
      isToken Sample.unnamedNetworkData.helper = true ∧
      isToken Sample.unnamedNetworkData.gla = true) ∧
    ((load (Deploy.envContent Sample.unnamedNetworkData "2025-01-01T00-00-00-000Z")).map
      fun env => getProp (config env) "network") = some (.str "hardhat") ∧
    Val.str "hardhat" ≠ .str Sample.unnamedNetworkData.network ∧
    Sample.spacedAddressData.rwa = .str "0x0a01 " ∧
    ((load (Deploy.envContent Sample.spacedAddressData "2025-01-01T00-00-00-000Z")).map
      fun env => getProp (config env) "rwa") = some (.str "0x0a01") := by
  decide

/-- C3, witness: the amended round trip on the sample data. -/
theorem env_file_round_trip_witness :
    isSingleLine "2025-01-01T00-00-00-000Z" = true ∧
    isToken (.str Sample.deploymentData.network) = true ∧
    ∃ env, load (Deploy.envContent Sample.deploymentData "2025-01-01T00-00-00-000Z") = some env ∧
      getProp (config env) "network" = .str Sample.deploymentData.network ∧
      getProp (config env) "rwa" = Sample.deploymentData.rwa ∧
      getProp (config env) "prRWA" = Sample.deploymentData.prRWA ∧
      getProp (config env) "stableRwa" = Sample.deploymentData.stableRwa ∧
      getProp (config env) "marketProxy" = Sample.deploymentData.marketProxy ∧
      getProp (config env) "stakePoolProxy" = Sample.deploymentData.stakePoolProxy ∧
      getProp (config env) "bankProxy" = Sample.deploymentData.bankProxy ∧
      getProp (config env) "helper" = Sample.deploymentData.helper ∧
      hasDeployedContracts (config env) = true :=
  ⟨by decide, by decide,
   env_file_round_trip Sample.deploymentData "2025-01-01T00-00-00-000Z" (by decide) (by decide)
    (by decide) (by decide) (by decide) (by decide) (by decide) (by decide) (by decide)
    (by decide)⟩

end Dotenv

namespace Deploy

open Js Config

theorem deployGla_config (env : ProcessEnv) (w : World) (rwa marketProxy : Val) :
    (deployGla (config env) w rwa marketProxy).1 = .str (w.deployed "GenesisLaunchAuction") ∧
    (deployGla (config env) w rwa marketProxy).2.2.2.countP
      (Action.isAttachOf "GenesisLaunchAuction") = 0 ∧
    (deployGla (config env) w rwa marketProxy).2.2.2.countP
      (Action.isDeployOf "GenesisLaunchAuction") = 1 := by
  have h : ((getProp (config env) "gla").typeOf == "string") = false := by
    rw [getProp_gla_typeOf]; decide
  simp [deployGla, h, Action.isAttachOf, Action.isDeployOf]

theorem main_gla (env : ProcessEnv) (w : World) :
    (main env w).data.gla = .str (w.deployed "GenesisLaunchAuction") ∧
    (main env w).actions.countP (Action.isAttachOf "GenesisLaunchAuction") = 0 ∧
    (main env w).actions.countP (Action.isDeployOf "GenesisLaunchAuction") = 1 := by
  have h : ((getProp (config env) "gla").typeOf == "string") = false := by
    rw [getProp_gla_typeOf]; decide
  simp only [main, deployRwa, deployPrRwa, deployStableRwa, deployImplementations,
    deployMarketProxy, deployStakePoolProxy, deployBankProxy, deployHelper, initStakePool,
    initBank, deployGla, setRoles, h]
  simp [List.countP_cons, countP_ite, Action.isDeployOf, Action.isAttachOf, apply_ite Prod.snd,
    apply_ite Prod.fst]

/-- C1, the code at the failing input: with `GLA_ADDRESS` set to a non-empty
address, `main` never attaches to `GenesisLaunchAuction`, deploys a new GLA
contract and records the new address, not the configured one. -/
theorem configured_gla_is_redeployed :
    Sample.envWithGla "GLA_ADDRESS" = some "0x5FbDB2315678afecb367f032d93F642f64180aa3" ∧
    (main Sample.envWithGla Sample.world).actions.countP
      (Action.isAttachOf "GenesisLaunchAuction") = 0 ∧
    (main Sample.envWithGla Sample.world).actions.countP
      (Action.isDeployOf "GenesisLaunchAuction") = 1 ∧
    (main Sample.envWithGla Sample.world).data.gla = .str "0xnewGenesisLaunchAuction" ∧
    (main Sample.envWithGla Sample.world).data.gla ≠
      .str "0x5FbDB2315678afecb367f032d93F642f64180aa3" := by
  decide

end Deploy

namespace Verify

open Js Config

/-- C2, the code at the failing input: with the three tokens and the three
proxies configured the address check passes, and the values submitted as
`address` are non-empty strings for RWA, prRWA and STABLE_RWA only: the Helper
task gets the empty string and the GLA task gets the parameter object. -/
theorem unchecked_helper_and_gla_addresses :
    hasDeployedContracts (config Sample.envWithCore) = true ∧
    (submitted Sample.envWithCore).map (fun t => isNonEmptyString t.address) =
      [true, true, true, false, false] ∧
    ((submitted Sample.envWithCore).map Task.address).drop 3 =
      [.str "", getProp (config Sample.envWithCore) "gla"] ∧
    (getProp (config Sample.envWithCore) "gla").typeOf = "object" := by
  decide

end Verify

/-! ## Properties of the RWA token -/

namespace RWA

open Evm

/-- C5, amended: for every caller that is not the current owner, whatever the
amount, `mint`, `burn` and `burnFrom` revert with `Ownable: caller is not the
owner` and the transaction leaves the whole state (balances, allowances,
supply) as it was; this includes the former owner after `transferOwnership`;
for the current owner `mint(to, a)` succeeds and raises `balanceOf(to)` by `a`
whenever `totalSupply + a` does not exceed `MaxUint256`, and reverts with the
arithmetic panic otherwise. -/
theorem owner_only_mint_burn (s : State) (caller recipient account : Address) (amount : Nat) :
    (caller ≠ s.owner →
      (mint s caller recipient amount = .error "Ownable: caller is not the owner" ∧
        burn s caller amount = .error "Ownable: caller is not the owner" ∧
        burnFrom s caller account amount = .error "Ownable: caller is not the owner" ∧
        step s (caller, .mint recipient amount) = s ∧
        step s (caller, .burn amount) = s ∧
        step s (caller, .burnFrom account amount) = s) ∧
      ((step s (s.owner, .transferOwnership caller)).owner = caller ∧
        mint (step s (s.owner, .transferOwnership caller)) s.owner recipient amount =
          .error "Ownable: caller is not the owner" ∧
        burn (step s (s.owner, .transferOwnership caller)) s.owner amount =
          .error "Ownable: caller is not the owner" ∧
        burnFrom (step s (s.owner, .transferOwnership caller)) s.owner account amount =
          .error "Ownable: caller is not the owner")) ∧
    (s.totalSupply + amount ≤ maxUint256 →
      ∃ s', mint s s.owner recipient amount = .ok s' ∧
        s'.balanceOf recipient = s.balanceOf recipient + amount) ∧
    (maxUint256 < s.totalSupply + amount →
      mint s s.owner recipient amount = .error "Panic: arithmetic overflow (0x11)" ∧
      step s (s.owner, .mint recipient amount) = s) := by
  refine ⟨fun hc => ?_, fun hsup => ?_, fun hover => ?_⟩
  · have hc' : s.owner ≠ caller := fun h => hc h.symm
    refine ⟨⟨?_, ?_, ?_, ?_, ?_, ?_⟩, ⟨?_, ?_, ?_, ?_⟩⟩
    · simp [mint, hc]
    · simp [burn, hc]
    · simp [burnFrom, hc]
    · simp [step, exec, mint, hc]
    · simp [step, exec, burn, hc]
    · simp [step, exec, burnFrom, hc]
    · simp [step, exec, transferOwnership]
    · simp [step, exec, transferOwnership, mint, hc']
    · simp [step, exec, transferOwnership, burn, hc']
    · simp [step, exec, transferOwnership, burnFrom, hc']
  · have hle : ¬ s.totalSupply + amount > maxUint256 := by omega
    simp only [mint, ne_eq, not_true_eq_false, if_false, hle]
    exact ⟨_, rfl, by simp⟩
  · have hm : mint s s.owner recipient amount = .error "Panic: arithmetic overflow (0x11)" := by
      simp only [mint, ne_eq, not_true_eq_false, if_false]
      rw [if_pos hover]
    exact ⟨hm, by simp only [step, exec, hm]⟩

/-- C5, counterexample to the claim as stated: after the owner has minted
`MaxUint256` tokens, a further `mint` of one token by the owner reverts, so
`mint` does not succeed for every call of the current owner. -/
theorem owner_mint_can_overflow :
    (step (deploy 1) (1, .mint 2 maxUint256)).owner = 1 ∧
    (step (deploy 1) (1, .mint 2 maxUint256)).totalSupply = maxUint256 ∧
    mint (step (deploy 1) (1, .mint 2 maxUint256)) 1 2 1 =
      .error "Panic: arithmetic overflow (0x11)" := by
  refine ⟨rfl, rfl, rfl⟩

/-- C5, witness: on the sample token account 3 is not the owner and cannot
mint even an amount that would overflow the supply; account 1 is the owner,
and its mint of 5 more tokens does not overflow. -/
theorem owner_only_mint_burn_witness :
    (3 : Address) ≠ Sample.token.owner ∧ Sample.token.totalSupply + 5 ≤ maxUint256 ∧
    mint Sample.token 3 2 maxUint256 = .error "Ownable: caller is not the owner" ∧
    step Sample.token (3, .burn maxUint256) = Sample.token ∧
    (∃ s', mint Sample.token Sample.token.owner 2 5 = .ok s' ∧
      s'.balanceOf 2 = Sample.token.balanceOf 2 + 5) :=
  ⟨by decide, by decide,
   ((owner_only_mint_burn Sample.token 3 2 2 maxUint256).1 (by decide)).1.1,
   ((owner_only_mint_burn Sample.token 3 2 2 maxUint256).1 (by decide)).1.2.2.2.2.1,
   (owner_only_mint_burn Sample.token 3 2 2 5).2.1 (by decide)⟩

theorem sum_update (f : Address → Nat) (a : Address) (v : Nat) :
    (∑ x, Function.update f a v x) + f a = (∑ x, f x) + v := by
  rw [Finset.sum_update_of_mem (Finset.mem_univ a),
    ← Finset.add_sum_erase Finset.univ f (Finset.mem_univ a), Finset.sdiff_singleton_eq_erase]
  omega

theorem le_sum (f : Address → Nat) (a : Address) : f a ≤ ∑ x, f x :=
  Finset.single_le_sum (fun _ _ => Nat.zero_le _) (Finset.mem_univ a)

theorem sum_moveBalance (f : Address → Nat) (a b : Address) (n : Nat) (h : n ≤ f a) :
    ∑ x, moveBalance f a b n x = ∑ x, f x := by
  have h3 := sum_update f a (f a - n)
  have h4 := sum_update (Function.update f a (f a - n)) b (Function.update f a (f a - n) b + n)
  simp only [moveBalance]
  omega

theorem balanced_deploy (deployer : Address) : Balanced (deploy deployer) := by
  simp [Balanced, deploy]

theorem step_accounting (s : State) (tx : Address × Call) (h : Balanced s) :
    Balanced (step s tx) ∧
    (step s tx).totalSupply + burnedBy s tx = s.totalSupply + mintedBy s tx := by
  obtain ⟨caller, call⟩ := tx
  unfold Balanced at *
  cases call with
  | mint recipient amount =>
    simp only [step, exec, mintedBy, burnedBy, mint]
    split_ifs with h1 h2
    · simp [h]
    · simp [h]
    · have := sum_update s.balanceOf recipient (s.balanceOf recipient + amount)
      simp only []
      constructor <;> omega
  | burn amount =>
    simp only [step, exec, mintedBy, burnedBy, burn]
    split_ifs with h1 h2
    · simp [h]
    · simp [h]
    · have := sum_update s.balanceOf caller (s.balanceOf caller - amount)
      have := le_sum s.balanceOf caller
      simp only []
      constructor <;> omega
  | burnFrom account amount =>
    simp only [step, exec, mintedBy, burnedBy, burnFrom]
    split_ifs with h1 h2 h3
    · simp [h]
    · simp [h]
    · simp [h]
    · have := sum_update s.balanceOf account (s.balanceOf account - amount)
      have := le_sum s.balanceOf account
      simp only []
      constructor <;> omega
  | transfer recipient amount =>
    simp only [step, exec, mintedBy, burnedBy, transfer]
    split_ifs with h1 h2
    · simp [h]
    · simp [h]
    · have h3 := sum_moveBalance s.balanceOf caller recipient amount (by omega)
      simp only []
      exact ⟨by omega, trivial⟩
  | transferFrom sender recipient amount =>
    simp only [step, exec, mintedBy, burnedBy, transferFrom]
    split_ifs with h1 h2 h3
    · simp [h]
    · simp [h]
    · simp [h]
    · have h3 := sum_moveBalance s.balanceOf sender recipient amount (by omega)
      simp only []
      exact ⟨by omega, trivial⟩
  | approve spender value =>
    simp only [step, exec, mintedBy, burnedBy, approve]
    split_ifs with h1
    · simp [h]
    · simp [h]
  | transferOwnership newOwner =>
    simp only [step, exec, mintedBy, burnedBy, transferOwnership]
    split_ifs with h1
    · simp [h]
    · simp [h]

theorem run_accounting (txs : List (Address × Call)) (s : State) (h : Balanced s) :
    Balanced (run s txs) ∧
    (run s txs).totalSupply + burned s txs = s.totalSupply + minted s txs := by
  induction txs generalizing s with
  | nil => simp [run, burned, minted, h]
  | cons tx txs ih =>
    obtain ⟨hb, hs⟩ := step_accounting s tx h
    obtain ⟨hb', hs'⟩ := ih (step s tx) hb
    refine ⟨by simpa [run] using hb', ?_⟩
    simp only [run, List.foldl_cons, burned, minted] at hs' ⊢
    omega

/-- C6: after every sequence of transactions on a fresh token (a reverted call
changes nothing), `totalSupply` equals the sum of the amounts of the successful
mints minus the sum of the amounts of the successful `burn` and `burnFrom`
calls, and equals the sum of all balances; `transfer`, `transferFrom` and
`approve` leave `totalSupply` unchanged, and minting or transferring 0 changes
nothing. -/
theorem supply_accounting (deployer : Address) (txs : List (Address × Call)) :
    burned (deploy deployer) txs ≤ minted (deploy deployer) txs ∧
    (run (deploy deployer) txs).totalSupply =
      minted (deploy deployer) txs - burned (deploy deployer) txs ∧
    (run (deploy deployer) txs).totalSupply = ∑ a, (run (deploy deployer) txs).balanceOf a ∧
    (∀ (s : State) (caller sender recipient spender : Address) (amount : Nat),
      (step s (caller, .transfer recipient amount)).totalSupply = s.totalSupply ∧
      (step s (caller, .transferFrom sender recipient amount)).totalSupply = s.totalSupply ∧
      (step s (caller, .approve spender amount)).totalSupply = s.totalSupply) ∧
    (∀ (s : State) (caller recipient : Address),
      step s (caller, .mint recipient 0) = s ∧ step s (caller, .transfer recipient 0) = s) := by
  obtain ⟨hb, hs⟩ := run_accounting txs (deploy deployer) (balanced_deploy deployer)
  have h0 : (deploy deployer).totalSupply = 0 := rfl
  refine ⟨by omega, by omega, hb, ?_, ?_⟩
  · intro s caller sender recipient spender amount
    refine ⟨?_, ?_, ?_⟩
    · simp only [step, exec, transfer]
      split_ifs <;> rfl
    · simp only [step, exec, transferFrom]
      split_ifs <;> rfl
    · simp only [step, exec, approve]
      split_ifs <;> rfl
  · intro s caller recipient
    constructor
    · simp only [step, exec, mint]
      split_ifs
      · rfl
      · rfl
      · simp
    · simp only [step, exec, transfer]
      split_ifs
      · rfl
      · rfl
      · simp [moveBalance]

/-- C7, counterexample to the claim as stated: with an allowance of 5 and an
amount of 3, `transferFrom` and the owner's `burnFrom` still revert when the
account holds no tokens; `transferFrom` to the zero address reverts although
allowance and balance suffice; and `approve` of the zero address reverts. -/
theorem spend_within_allowance_can_revert :
    (step (deploy 1) (2, .approve 3 5)).allowance 2 3 = 5 ∧
    transferFrom (step (deploy 1) (2, .approve 3 5)) 3 2 4 3 =
      .error "ERC20: transfer amount exceeds balance" ∧
    (step (deploy 1) (2, .approve 1 5)).allowance 2 1 = 5 ∧
    (step (deploy 1) (2, .approve 1 5)).owner = 1 ∧
    burnFrom (step (deploy 1) (2, .approve 1 5)) 1 2 3 =
      .error "ERC20: burn amount exceeds balance" ∧
    (step Sample.token (2, .approve 3 5)).allowance 2 3 = 5 ∧
    (step Sample.token (2, .approve 3 5)).balanceOf 2 = 10 ∧
    transferFrom (step Sample.token (2, .approve 3 5)) 3 2 zeroAddress 3 =
      .error "ERC20: transfer to the zero address" ∧
    approve (deploy 1) 2 zeroAddress 7 = .error "ERC20: approve to the zero address" := by
  refine ⟨rfl, rfl, rfl, rfl, rfl, rfl, rfl, rfl, rfl⟩

/-- C7, amended: for every account/spender pair with allowance `A` and every
amount `a`, `burnFrom(account, a)` called by the contract owner and
`transferFrom(account, to, a)` revert with `ERC20: insufficient allowance` when
`a > A`; when `a ≤ A`, the account holds at least `a` and (for `transferFrom`)
the recipient is not the zero address, they succeed and leave the allowance at
exactly `A - a`; `approve(spender, v)` with a non-zero spender sets the
allowance to `v` whatever it was. -/
theorem allowance_accounting (s : State) (caller account recipient spender : Address)
    (amount value : Nat) :
    (s.allowance account s.owner < amount →
      burnFrom s s.owner account amount = .error "ERC20: insufficient allowance") ∧
    (s.allowance account caller < amount →
      transferFrom s caller account recipient amount = .error "ERC20: insufficient allowance") ∧
    (amount ≤ s.allowance account s.owner → amount ≤ s.balanceOf account →
      ∃ s', burnFrom s s.owner account amount = .ok s' ∧
        s'.allowance account s.owner = s.allowance account s.owner - amount) ∧
    (amount ≤ s.allowance account caller → amount ≤ s.balanceOf account →
      recipient ≠ zeroAddress →
      ∃ s', transferFrom s caller account recipient amount = .ok s' ∧
        s'.allowance account caller = s.allowance account caller - amount) ∧
    (spender ≠ zeroAddress →
      ∃ s', approve s caller spender value = .ok s' ∧ s'.allowance caller spender = value) := by
  refine ⟨?_, ?_, ?_, ?_, ?_⟩
  · intro h
    simp [burnFrom, h]
  · intro h
    simp [transferFrom, h]
  · intro h1 h2
    simp only [burnFrom, ne_eq, not_true_eq_false, if_false, Nat.not_lt.mpr h1,
      Nat.not_lt.mpr h2]
    exact ⟨_, rfl, by simp⟩
  · intro h1 h2 h3
    simp only [transferFrom, Nat.not_lt.mpr h1, Nat.not_lt.mpr h2, h3, if_false]
    exact ⟨_, rfl, by simp⟩
  · intro h
    simp only [approve, h, if_false]
    exact ⟨_, rfl, by simp⟩

/-- C7, witness: each case of the amended claim on concrete states. -/
theorem allowance_accounting_witness :
    burnFrom (deploy 1) 1 2 3 = .error "ERC20: insufficient allowance" ∧
    transferFrom (deploy 1) 3 2 4 3 = .error "ERC20: insufficient allowance" ∧
    (∃ s', burnFrom (run (deploy 1) [(1, .mint 2 9), (2, .approve 1 5)]) 1 2 3 = .ok s' ∧
      s'.allowance 2 1 = 2) ∧
    (∃ s', transferFrom (run (deploy 1) [(1, .mint 2 9), (2, .approve 3 5)]) 3 2 4 3 = .ok s' ∧
      s'.allowance 2 3 = 2) ∧
    (∃ s', approve (deploy 1) 2 3 7 = .ok s' ∧ s'.allowance 2 3 = 7) :=
  ⟨(allowance_accounting (deploy 1) 3 2 4 3 3 7).1 (by decide),
   (allowance_accounting (deploy 1) 3 2 4 3 3 7).2.1 (by decide),
   (allowance_accounting (run (deploy 1) [(1, .mint 2 9), (2, .approve 1 5)]) 3 2 4 3 3 7).2.2.1
     (by decide) (by decide),
   (allowance_accounting (run (deploy 1) [(1, .mint 2 9), (2, .approve 3 5)]) 3 2 4 3 3 7).2.2.2.1
     (by decide) (by decide) (by decide),
   (allowance_accounting (deploy 1) 2 2 4 3 3 7).2.2.2.2 (by decide)⟩

theorem moveBalance_apply (f : Address → Nat) (a b x : Address) (n : Nat) :
    moveBalance f a b n x =
      if x = b then (if b = a then f a - n else f b) + n
      else if x = a then f a - n else f x := by
  simp only [moveBalance, Function.update_apply]

theorem transfer_ok (s : State) (caller recipient : Address) (amount : Nat)
    (hr : recipient ≠ zeroAddress) (hb : amount ≤ s.balanceOf caller) :
    transfer s caller recipient amount =
      .ok { s with balanceOf := moveBalance s.balanceOf caller recipient amount } := by
  simp only [transfer, hr, Nat.not_lt.mpr hb, if_false]

/-- C8: `transfer(to, a)` by a sender with balance `b` reverts with
`ERC20: transfer to the zero address` when `to` is the zero address and with
`ERC20: transfer amount exceeds balance` when `a > b` (the zero-address check
comes first when both hold); otherwise it succeeds, lowers the sender's balance
by `a` and raises the recipient's by `a` (for a transfer to oneself the two
cancel), and changes no other balance, nor the supply, the allowances or the
owner; hence a ring of equal transfers A -> B -> C -> A between non-zero
accounts, the first of which A can afford, succeeds and restores every
balance. -/
theorem transfer_moves_balance (s : State) (caller recipient : Address) (amount : Nat) :
    (recipient = zeroAddress →
      transfer s caller recipient amount = .error "ERC20: transfer to the zero address") ∧
    (recipient ≠ zeroAddress → s.balanceOf caller < amount →
      transfer s caller recipient amount = .error "ERC20: transfer amount exceeds balance") ∧
    (recipient ≠ zeroAddress → amount ≤ s.balanceOf caller →
      ∃ s', transfer s caller recipient amount = .ok s' ∧
        (recipient ≠ caller →
          s'.balanceOf caller = s.balanceOf caller - amount ∧
          s'.balanceOf recipient = s.balanceOf recipient + amount) ∧
        (recipient = caller → s'.balanceOf caller = s.balanceOf caller) ∧
        (∀ x, x ≠ caller → x ≠ recipient → s'.balanceOf x = s.balanceOf x) ∧
        s'.totalSupply = s.totalSupply ∧ s'.allowance = s.allowance ∧ s'.owner = s.owner) ∧
    (∀ b c : Address, caller ≠ zeroAddress → b ≠ zeroAddress → c ≠ zeroAddress →
      amount ≤ s.balanceOf caller →
      ∃ s₁ s₂ s₃, transfer s caller b amount = .ok s₁ ∧ transfer s₁ b c amount = .ok s₂ ∧
        transfer s₂ c caller amount = .ok s₃ ∧ s₃.balanceOf = s.balanceOf) := by
  refine ⟨?_, ?_, ?_, ?_⟩
  · intro h
    simp [transfer, h]
  · intro h1 h2
    simp [transfer, h1, h2]
  · intro h1 h2
    refine ⟨_, transfer_ok s caller recipient amount h1 h2, ?_, ?_, ?_, rfl, rfl, rfl⟩
    · intro h
      simp [moveBalance_apply, h, Ne.symm h]
    · intro h
      subst h
      simp only [moveBalance_apply, if_true]
      omega
    · intro x hx1 hx2
      simp [moveBalance_apply, hx1, hx2]
  · intro b c ha hb hc hbal
    have e1 := transfer_ok s caller b amount hb hbal
    have hb1 : amount ≤ moveBalance s.balanceOf caller b amount b := by
      simp only [moveBalance_apply, if_true]
      omega
    have e2 := transfer_ok { s with balanceOf := moveBalance s.balanceOf caller b amount } b c
      amount hc hb1
    have hb2 : amount ≤ moveBalance (moveBalance s.balanceOf caller b amount) b c amount c := by
      simp only [moveBalance_apply, if_true]
      omega
    have e3 := transfer_ok
      { s with balanceOf := moveBalance (moveBalance s.balanceOf caller b amount) b c amount }
      c caller amount ha hb2
    refine ⟨_, _, _, e1, e2, e3, ?_⟩
    clear e1 e2 e3 hb1 hb2
    funext x
    simp only [moveBalance_apply]
    split_ifs <;> subst_vars <;> first | omega | (exfalso; simp_all)

/-- C8, witness: the cases of the claim on the sample token, where account 2
holds 10 tokens. -/
theorem transfer_moves_balance_witness :
    transfer Sample.token 2 zeroAddress 3 = .error "ERC20: transfer to the zero address" ∧
    transfer Sample.token 2 3 11 = .error "ERC20: transfer amount exceeds balance" ∧
    (∃ s', transfer Sample.token 2 3 4 = .ok s' ∧
      ((3 : Address) ≠ 2 → s'.balanceOf 2 = Sample.token.balanceOf 2 - 4 ∧
        s'.balanceOf 3 = Sample.token.balanceOf 3 + 4) ∧
      ((3 : Address) = 2 → s'.balanceOf 2 = Sample.token.balanceOf 2) ∧
      (∀ x, x ≠ 2 → x ≠ 3 → s'.balanceOf x = Sample.token.balanceOf x) ∧
      s'.totalSupply = Sample.token.totalSupply ∧ s'.allowance = Sample.token.allowance ∧
      s'.owner = Sample.token.owner) ∧
    (∃ s₁ s₂ s₃, transfer Sample.token 2 3 4 = .ok s₁ ∧ transfer s₁ 3 4 4 = .ok s₂ ∧
      transfer s₂ 4 2 4 = .ok s₃ ∧ s₃.balanceOf = Sample.token.balanceOf) :=
  ⟨(transfer_moves_balance Sample.token 2 zeroAddress 3).1 rfl,
   (transfer_moves_balance Sample.token 2 3 11).2.1 (by decide) (by decide),
   (transfer_moves_balance Sample.token 2 3 4).2.2.1 (by decide) (by decide),
   (transfer_moves_balance Sample.token 2 3 4).2.2.2 3 4 (by decide) (by decide) (by decide)
     (by decide)⟩

end RWA

/-! ## Properties of the RWALaunchpad factory -/

namespace RWALaunchpad

open Evm

theorem updateProject_ids (s : State) (id : Nat) (f : Project → Project)
    (hf : ∀ q, (f q).id = q.id) :
    (updateProject s id f).projects.map Project.id = s.projects.map Project.id ∧
    (updateProject s id f).projects.length = s.projects.length := by
  simp only [updateProject, List.map_map, List.length_map, and_true]
  apply List.map_congr_left
  intro q _
  simp only [Function.comp]
  split_ifs <;> simp [hf]

theorem sequential_append (s : State) (p : Project) (h : Sequential s)
    (hp : p.id = s.projects.length + 1) :
    Sequential { s with projects := s.projects ++ [p] } := by
  simp only [Sequential, List.map_append, List.length_append, List.length_singleton,
    List.map_cons, List.map_nil] at *
  rw [h, hp, List.range'_concat]
  simp [Nat.add_comm]

theorem step_sequential (built : Nat → Address → Contracts) (s : State) (tx : Address × Call)
    (h : Sequential s) :
    Sequential (step built s tx) ∧
    (step built s tx).projects.length =
      s.projects.length + (if createdBy built s tx then 1 else 0) := by
  obtain ⟨caller, call⟩ := tx
  cases call with
  | createProject value name =>
    by_cases h1 : name = ""
    · simp [step, exec, createdBy, Call.creates, createProject, h1, Except.toBool, h]
    · by_cases h2 : value < s.deploymentFee
      · simp [step, exec, createdBy, Call.creates, createProject, h1, h2, Except.toBool, h]
      · simp only [step, exec, createdBy, Call.creates, createProject, h1, h2, if_false,
          Except.toBool, Bool.and_self, if_true]
        exact ⟨sequential_append s _ h rfl, by simp⟩
  | deployWithPreset value name presetType =>
    by_cases h1 : name = ""
    · simp [step, exec, createdBy, Call.creates, deployWithPreset, h1, Except.toBool, h]
    · by_cases h2 : presetType > 2
      · simp [step, exec, createdBy, Call.creates, deployWithPreset, h1, h2, Except.toBool, h]
      · by_cases h3 : value < s.deploymentFee
        · simp [step, exec, createdBy, Call.creates, deployWithPreset, h1, h2, h3,
            Except.toBool, h]
        · simp only [step, exec, createdBy, Call.creates, deployWithPreset, h1, h2, h3,
            if_false, Except.toBool, Bool.and_self, if_true]
          exact ⟨sequential_append s _ h rfl, by simp⟩
  | setDeploymentFee fee =>
    by_cases h1 : caller = s.owner
    · simpa [step, exec, createdBy, Call.creates, setDeploymentFee, h1, Sequential] using h
    · simp [step, exec, createdBy, Call.creates, setDeploymentFee, h1, h]
  | emergencyPauseProject id =>
    simp only [step, exec, createdBy, Call.creates, emergencyPauseProject]
    cases getProject s id with
    | none => simp [h]
    | some p =>
      obtain ⟨h1, h2⟩ := updateProject_ids s id (fun q => { q with stage := stagePaused })
        (fun _ => rfl)
      simp only [Sequential, Bool.false_and, Bool.false_eq_true, if_false, Nat.add_zero] at *
      exact ⟨by rw [h1, h2, h], h2⟩
  | resumeProject id newStage =>
    simp only [step, exec, createdBy, Call.creates, resumeProject]
    cases getProject s id with
    | none => simp [h]
    | some p =>
      obtain ⟨h1, h2⟩ := updateProject_ids s id (fun q => { q with stage := newStage })
        (fun _ => rfl)
      simp only [Sequential, Bool.false_and, Bool.false_eq_true, if_false, Nat.add_zero] at *
      exact ⟨by rw [h1, h2, h], h2⟩
  | transferProjectOwnership id newOwner =>
    simp only [step, exec, createdBy, Call.creates, transferProjectOwnership]
    cases getProject s id with
    | none => simp [h]
    | some p =>
      obtain ⟨h1, h2⟩ := updateProject_ids s id (fun q => { q with owner := newOwner })
        (fun _ => rfl)
      simp only [Sequential, Bool.false_and, Bool.false_eq_true, if_false, Nat.add_zero] at *
      exact ⟨by rw [h1, h2, h], h2⟩
  | updateProjectName id newName =>
    simp only [step, exec, createdBy, Call.creates, updateProjectName]
    cases getProject s id with
    | none => simp [h]
    | some p =>
      obtain ⟨h1, h2⟩ := updateProject_ids s id (fun q => { q with name := newName })
        (fun _ => rfl)
      simp only [Sequential, Bool.false_and, Bool.false_eq_true, if_false, Nat.add_zero] at *
      exact ⟨by rw [h1, h2, h], h2⟩

theorem run_sequential (built : Nat → Address → Contracts) (txs : List (Address × Call))
    (s : State) (h : Sequential s) :
    Sequential (run built s txs) ∧
    (run built s txs).projects.length = s.projects.length + created built s txs := by
  induction txs generalizing s with
  | nil => simp [run, created, h]
  | cons tx txs ih =>
    obtain ⟨h1, h2⟩ := step_sequential built s tx h
    obtain ⟨h3, h4⟩ := ih (step built s tx) h1
    refine ⟨by simpa [run] using h3, ?_⟩
    simp only [run, List.foldl_cons, created] at h4 ⊢
    omega

/-- C9: after any sequence of transactions on a fresh factory, `n` of them
being successful `createProject` or `deployWithPreset` calls,
`getProjectCount()` is `n`, `getAllProjectIds()` is `[1, 2, ..., n]` in that
order and `projectExists(i)` is true exactly for `1 ≤ i ≤ n`; a call with an
empty name, a preset type above 2 or a payment below `deploymentFee` fails and
leaves the list of projects as it was. -/
theorem project_ids_sequential (built : Nat → Address → Contracts) (deployer : Address)
    (txs : List (Address × Call)) :
    getProjectCount (run built (deploy deployer) txs) = created built (deploy deployer) txs ∧
    getAllProjectIds (run built (deploy deployer) txs) =
      List.range' 1 (created built (deploy deployer) txs) ∧
    (∀ i, projectExists (run built (deploy deployer) txs) i = true ↔
      1 ≤ i ∧ i ≤ created built (deploy deployer) txs) ∧
    (∀ (s : State) (caller : Address) (value : Nat) (name : String) (presetType : Nat),
      (name = "" ∨ value < s.deploymentFee →
        (createProject s caller value name).toBool = false ∧
        (step built s (caller, .createProject value name)).projects = s.projects) ∧
      (name = "" ∨ 2 < presetType ∨ value < s.deploymentFee →
        (deployWithPreset built s caller value name presetType).toBool = false ∧
        (step built s (caller, .deployWithPreset value name presetType)).projects =
          s.projects)) := by
  have h0 : Sequential (deploy deployer) := by simp [Sequential, deploy]
  obtain ⟨hs, hl⟩ := run_sequential built txs (deploy deployer) h0
  have hl' : (run built (deploy deployer) txs).projects.length =
      created built (deploy deployer) txs := by
    simpa [deploy] using hl
  refine ⟨hl', ?_, ?_, ?_⟩
  · unfold getAllProjectIds
    rw [hs, hl']
  · intro i
    have : projectExists (run built (deploy deployer) txs) i = true ↔
        i ∈ (run built (deploy deployer) txs).projects.map Project.id := by
      simp [projectExists, List.mem_map]
    rw [this, hs, hl', List.mem_range'_1]
    omega
  · intro s caller value name presetType
    constructor
    · intro h
      simp only [step, exec, createProject]
      rcases h with h | h
      · simp [h, Except.toBool]
      · split_ifs <;> simp [Except.toBool]
    · intro h
      simp only [step, exec, deployWithPreset]
      rcases h with h | h | h
      · simp [h, Except.toBool]
      · have : presetType > 2 := h
        split_ifs <;> simp [Except.toBool]
      · split_ifs <;> simp [Except.toBool]

/-- C9, witness: the failing calls on the sample factory. -/
theorem project_ids_sequential_witness :
    getProjectCount Sample.factory = 1 ∧ getAllProjectIds Sample.factory = [1] ∧
    (createProject Sample.factory 2 0 "").toBool = false ∧
    (step Sample.built Sample.factory (2, .createProject 0 "")).projects =
      Sample.factory.projects ∧
    (deployWithPreset Sample.built Sample.factory 2 0 "Invalid" 5).toBool = false ∧
    (step Sample.built Sample.factory (2, .deployWithPreset 0 "Invalid" 5)).projects =
      Sample.factory.projects :=
  ⟨(project_ids_sequential Sample.built 1 [(2, .deployWithPreset 0 "PauseProject" 1)]).1,
   (project_ids_sequential Sample.built 1 [(2, .deployWithPreset 0 "PauseProject" 1)]).2.1,
   ((project_ids_sequential Sample.built 1 []).2.2.2 Sample.factory 2 0 "" 5).1
     (Or.inl rfl) |>.1,
   ((project_ids_sequential Sample.built 1 []).2.2.2 Sample.factory 2 0 "" 5).1
     (Or.inl rfl) |>.2,
   ((project_ids_sequential Sample.built 1 []).2.2.2 Sample.factory 2 0 "Invalid" 5).2
     (Or.inr (Or.inl (by decide))) |>.1,
   ((project_ids_sequential Sample.built 1 []).2.2.2 Sample.factory 2 0 "Invalid" 5).2
     (Or.inr (Or.inl (by decide))) |>.2⟩

theorem getProject_updateProject (s : State) (id : Nat) (f : Project → Project)
    (hf : ∀ q, (f q).id = q.id) :
    getProject (updateProject s id f) id = (getProject s id).map f := by
  simp only [getProject, updateProject]
  induction s.projects with
  | nil => rfl
  | cons p ps ih =>
    by_cases hp : p.id = id
    · simp [List.find?, hp, hf]
    · have hb : (p.id == id) = false := by simp [hp]
      simp [List.find?, hp, hb, ih]

/-- C10: for every existing project `p` with stage `s`,
`emergencyPauseProject(id)` succeeds, emits `ProjectPaused(id, s)` and leaves
the record with stage 255 and everything else as it was; a following
`resumeProject(id, s)` succeeds, emits `ProjectResumed(id, s)` and restores the
record exactly, so name, owner and contract addresses are unchanged
throughout. -/
theorem pause_resume_round_trip (s : State) (id : Nat) (p : Project)
    (h : getProject s id = some p) :
    ∃ s₁ s₂,
      emergencyPauseProject s id = .ok (s₁, [.ProjectPaused id p.stage]) ∧
      getProject s₁ id = some { p with stage := 255 } ∧
      resumeProject s₁ id p.stage = .ok (s₂, [.ProjectResumed id p.stage]) ∧
      getProject s₂ id = some p := by
  have h1 : getProject (updateProject s id fun q => { q with stage := stagePaused }) id =
      some { p with stage := stagePaused } := by
    rw [getProject_updateProject s id (fun q => { q with stage := stagePaused }) (fun _ => rfl), h]
    rfl
  have h2 : getProject (updateProject (updateProject s id fun q => { q with stage := stagePaused })
      id fun q => { q with stage := p.stage }) id = some p := by
    rw [getProject_updateProject _ id (fun q => { q with stage := p.stage }) (fun _ => rfl), h1]
    rfl
  refine ⟨_, _, ?_, h1, ?_, h2⟩
  · simp only [emergencyPauseProject, h]
  · simp only [resumeProject, h1]

/-- C10, witness: pausing and resuming the project of the sample factory. -/
theorem pause_resume_round_trip_witness :
    getProject Sample.factory 1 = some Sample.project ∧
    ∃ s₁ s₂,
      emergencyPauseProject Sample.factory 1 = .ok (s₁, [.ProjectPaused 1 3]) ∧
      getProject s₁ 1 = some { Sample.project with stage := 255 } ∧
      resumeProject s₁ 1 3 = .ok (s₂, [.ProjectResumed 1 3]) ∧
      getProject s₂ 1 = some Sample.project :=
  ⟨rfl, pause_resume_round_trip Sample.factory 1 Sample.project rfl⟩

end RWALaunchpad

/-! ## Properties of `config.js`, continued, and of `contract-size.js` -/

namespace Config

open Js

theorem truthy_and (a b : Val) : (a.and b).truthy = (a.truthy && b.truthy) := by
  unfold Val.and
  cases h : a.truthy <;> simp [h]

theorem hasDeployedContracts_eq (cfg : Obj) :
    hasDeployedContracts cfg =
      ((getProp cfg "rwa").truthy && (getProp cfg "prRWA").truthy &&
        (getProp cfg "stableRwa").truthy && (getProp cfg "marketProxy").truthy &&
        (getProp cfg "stakePoolProxy").truthy && (getProp cfg "bankProxy").truthy) := by
  simp only [hasDeployedContracts, truthy_and]

/-- C11: `hasDeployedContracts()` on the configuration is true exactly when
all six of rwa, prRWA, stableRwa, marketProxy, stakePoolProxy and bankProxy
are non-empty strings; its result is a boolean, and it is the same for any two
objects that agree on these six properties, whatever their helper, gla, usdc
and network are. -/
theorem hasDeployedContracts_iff (env : ProcessEnv) (cfg cfg' : Obj)
    (h : ∀ key ∈ ["rwa", "prRWA", "stableRwa", "marketProxy", "stakePoolProxy", "bankProxy"],
      getProp cfg key = getProp cfg' key) :
    (hasDeployedContracts (config env) = true ↔
      ∀ key ∈ ["rwa", "prRWA", "stableRwa", "marketProxy", "stakePoolProxy", "bankProxy"],
        Verify.isNonEmptyString (getProp (config env) key) = true) ∧
    hasDeployedContracts cfg = hasDeployedContracts cfg' := by
  constructor
  · simp [hasDeployedContracts_eq, getProp_rwa, getProp_prRWA, getProp_stableRwa,
      getProp_marketProxy, getProp_stakePoolProxy, getProp_bankProxy, Val.truthy,
      Verify.isNonEmptyString, and_assoc]
  · simp only [List.mem_cons, List.mem_singleton, forall_eq_or_imp, forall_eq,
      List.not_mem_nil, false_implies, implies_true, and_true] at h
    obtain ⟨h1, h2, h3, h4, h5, h6⟩ := h
    simp only [hasDeployedContracts_eq, h1, h2, h3, h4, h5, h6]

/-- C11, witness: two configurations that differ in the helper address. -/
theorem hasDeployedContracts_iff_witness :
    (hasDeployedContracts (config Sample.envWithCore) = true ↔
      ∀ key ∈ ["rwa", "prRWA", "stableRwa", "marketProxy", "stakePoolProxy", "bankProxy"],
        Verify.isNonEmptyString (getProp (config Sample.envWithCore) key) = true) ∧
    hasDeployedContracts (config Sample.envWithCore) =
      hasDeployedContracts (config Sample.envWithHelper) :=
  hasDeployedContracts_iff Sample.envWithCore (config Sample.envWithCore)
    (config Sample.envWithHelper) (by decide)

end Config

namespace ContractSize

/-- C12: for a bytecode string made of the prefix `0x` and `2n` further
characters, the size computed as `length / 2 - 1` is `n`. -/
theorem codeSize_hex (hex : String) (n : Nat) (h : hex.length = 2 * n) :
    codeSize ("0x" ++ hex) = n := by
  have hl : ("0x" ++ hex).length = 2 + 2 * n := by
    rw [String.length_append, h]; rfl
  unfold codeSize
  rw [hl]
  push_cast
  ring

/-- C12, witness: four bytes of code. -/
theorem codeSize_hex_witness : codeSize ("0x" ++ "60806040") = (4 : Nat) :=
  codeSize_hex "60806040" 4 (by decide)

/-- C13: for a contract whose factory loads, the runtime status is the pass
mark exactly when `runtimeCodeSize ≤ 24576` and the fail mark otherwise, the
init status is the pass mark exactly when `initCodeSize ≤ 49152` (twice the
runtime limit) and the fail mark otherwise, both status lines are printed, and
the over-limit warning for a size is printed exactly when its status is the
fail mark. -/
theorem size_status (contractName bytecode deployedBytecode : String) :
    (runtimeCodeStatus (codeSize deployedBytecode) = "✅" ↔ codeSize deployedBytecode ≤ 24576) ∧
    (runtimeCodeStatus (codeSize deployedBytecode) = "❌" ↔ ¬ codeSize deployedBytecode ≤ 24576) ∧
    (initCodeStatus (codeSize bytecode) = "✅" ↔ codeSize bytecode ≤ 49152) ∧
    (initCodeStatus (codeSize bytecode) = "❌" ↔ ¬ codeSize bytecode ≤ 49152) ∧
    EVM_INIT_CODE_LIMIT = 2 * EVM_BYTECODE_LIMIT ∧
    Line.initLimit (initCodeStatus (codeSize bytecode)) (codeSize bytecode) 49152 ∈
      checkContract contractName (some (bytecode, deployedBytecode)) ∧
    Line.runtimeLimit (runtimeCodeStatus (codeSize deployedBytecode)) (codeSize deployedBytecode)
      24576 ∈ checkContract contractName (some (bytecode, deployedBytecode)) ∧
    ((checkContract contractName (some (bytecode, deployedBytecode))).any Line.isInitWarning = true ↔
      initCodeStatus (codeSize bytecode) = "❌") ∧
    ((checkContract contractName (some (bytecode, deployedBytecode))).any Line.isRuntimeWarning
      = true ↔ runtimeCodeStatus (codeSize deployedBytecode) = "❌") := by
  have hne : ("✅" : String) ≠ "❌" := by decide
  have hne' : ("❌" : String) ≠ "✅" := by decide
  refine ⟨?_, ?_, ?_, ?_, ?_, ?_, ?_, ?_, ?_⟩
  · unfold runtimeCodeStatus EVM_BYTECODE_LIMIT
    split_ifs with h <;> simp [h, hne']
  · unfold runtimeCodeStatus EVM_BYTECODE_LIMIT
    split_ifs with h <;> simp [h, hne]
  · unfold initCodeStatus EVM_INIT_CODE_LIMIT
    split_ifs with h <;> simp [h, hne']
  · unfold initCodeStatus EVM_INIT_CODE_LIMIT
    split_ifs with h <;> simp [h, hne]
  · norm_num [EVM_INIT_CODE_LIMIT, EVM_BYTECODE_LIMIT]
  · simp [checkContract, EVM_INIT_CODE_LIMIT]
  · simp [checkContract, EVM_BYTECODE_LIMIT]
  · unfold initCodeStatus
    by_cases h : codeSize bytecode ≤ EVM_INIT_CODE_LIMIT
    · simp [checkContract, Line.isInitWarning, Line.isRuntimeWarning, h, not_lt.mpr h, hne]
    · simp [checkContract, Line.isInitWarning, Line.isRuntimeWarning, h, not_le.mp h]
  · unfold runtimeCodeStatus
    by_cases h : codeSize deployedBytecode ≤ EVM_BYTECODE_LIMIT
    · simp [checkContract, Line.isInitWarning, Line.isRuntimeWarning, h, not_lt.mpr h, hne]
    · simp [checkContract, Line.isInitWarning, Line.isRuntimeWarning, h, not_le.mp h]

end ContractSize

namespace Liquidation

/-- C15, the code at the failing input: with the deposit of the test the
position's collateral ratio is 100 percent, below the threshold 120, but the
computed `newCollateralRatio` is `10^20` (the price keeps its 18 decimals), so
the condition of line 238 is false and the liquidation block does not run. -/
theorem liquidation_never_runs :
    maxBorrow depositAmount = 10000 * 10 ^ 18 ∧
    collateralRatioPercent depositAmount = 100 ∧
    newCollateralRatio depositAmount = some (10 ^ 20) ∧
    liquidationRuns depositAmount = false := by
  refine ⟨by decide, ?_, by decide, by decide⟩
  have h : maxBorrow depositAmount = 10000 * 10 ^ 18 := by decide
  rw [collateralRatioPercent, h]
  norm_num [depositAmount, newRwaPrice, ether]

end Liquidation

/-! ## Properties of the roles and of the report of `deploy.js` -/

namespace Deploy

open Js Config

theorem main_grantRole (env : ProcessEnv) (w : World) :
    (main env w).actions.countP Action.isGrantRole =
      if envOr (env "PRRWA_ADDRESS") "" = "" ∧ w.hasMintRole = false then 1 else 0 := by
  have h : ((getProp (config env) "gla").typeOf == "string") = false := by
    rw [getProp_gla_typeOf]; decide
  simp only [main, deployRwa, deployPrRwa, deployStableRwa, deployImplementations,
    deployMarketProxy, deployStakePoolProxy, deployBankProxy, deployHelper, initStakePool,
    initBank, deployGla, setRoles, h, getProp_rwa, getProp_prRWA, getProp_stableRwa,
    getProp_marketProxy, getProp_stakePoolProxy, getProp_bankProxy, getProp_helper]
  by_cases h1 : envOr (env "PRRWA_ADDRESS") "" = "" <;> cases h2 : w.hasMintRole <;>
    simp [h1, h2, Val.truthy, List.countP_cons, List.countP_append, countP_ite,
      Action.isGrantRole, apply_ite Prod.snd, apply_ite Prod.fst]

theorem any_eq_countP_pos {α : Type} (p : α → Bool) (l : List α) :
    l.any p = decide (0 < l.countP p) := by
  induction l with
  | nil => simp
  | cons a l ih =>
    cases h : p a <;> simp [List.countP_cons, h, ih]

/-- The role step of `main` for every environment and network: when prRWA
is newly deployed the StakePool proxy holds `MINT_ROLE` after the run; when
prRWA is taken from the configuration `main` makes no `grantRole` call and the
proxy holds the role only if it already did; `grantRole` is called at most
once per run, and only when `hasRole` answered false. -/
theorem mint_role_after_run (env : ProcessEnv) (w : World) :
    (envOr (env "PRRWA_ADDRESS") "" = "" → holdsMintRoleAfter w (main env w) = true) ∧
    (envOr (env "PRRWA_ADDRESS") "" ≠ "" →
      (main env w).actions.countP Action.isGrantRole = 0 ∧
      holdsMintRoleAfter w (main env w) = w.hasMintRole) ∧
    (main env w).actions.countP Action.isGrantRole ≤ 1 ∧
    ((main env w).actions.countP Action.isGrantRole = 1 → w.hasMintRole = false) := by
  have hc := main_grantRole env w
  refine ⟨?_, ?_, ?_, ?_⟩
  · intro h1
    unfold holdsMintRoleAfter
    rw [any_eq_countP_pos, hc]
    cases h2 : w.hasMintRole <;> simp [h1]
  · intro h1
    unfold holdsMintRoleAfter
    rw [any_eq_countP_pos, hc]
    simp [h1]
  · rw [hc]; split_ifs <;> omega
  · rw [hc]
    split_ifs with h
    · intro _; exact h.2
    · intro h'; exact absurd h' (by decide)

/-- C17, the code at the failing input: with prRWA taken from the
configuration and a StakePool proxy that does not hold `MINT_ROLE`, `main`
makes no `grantRole` call and the proxy still lacks the role after the run,
while the report says the role is granted to it; on the sibling path, where
prRWA is newly deployed on the same network, the role is granted by exactly one
call. -/
theorem configured_prRWA_gets_no_role :
    Sample.envWithCore "PRRWA_ADDRESS" = some "0x0000000000000000000000000000000000000a02" ∧
    Sample.world.hasMintRole = false ∧
    (main Sample.envWithCore Sample.world).actions.countP Action.isGrantRole = 0 ∧
    holdsMintRoleAfter Sample.world (main Sample.envWithCore Sample.world) = false ∧
    mintRoleLine (main Sample.envWithCore Sample.world).data =
      "- prRWA MINT_ROLE granted to: 0x0000000000000000000000000000000000000a05" ∧
    Sample.envWithGla "PRRWA_ADDRESS" = none ∧
    (main Sample.envWithGla Sample.world).actions.countP Action.isGrantRole = 1 ∧
    holdsMintRoleAfter Sample.world (main Sample.envWithGla Sample.world) = true := by
  decide

/-- The role step on the sample inputs: a run that deploys prRWA and a run
that takes it from the configuration. -/
theorem mint_role_after_run_witness :
    holdsMintRoleAfter Sample.world (main Sample.envWithGla Sample.world) = true ∧
    (main Sample.envWithCore Sample.world).actions.countP Action.isGrantRole = 0 ∧
    holdsMintRoleAfter Sample.world (main Sample.envWithCore Sample.world) =
      Sample.world.hasMintRole ∧
    ((main Sample.envWithGla Sample.world).actions.countP Action.isGrantRole = 1 →
      Sample.world.hasMintRole = false) :=
  ⟨(mint_role_after_run Sample.envWithGla Sample.world).1 (by decide),
   ((mint_role_after_run Sample.envWithCore Sample.world).2.1 (by decide)).1,
   ((mint_role_after_run Sample.envWithCore Sample.world).2.1 (by decide)).2,
   (mint_role_after_run Sample.envWithGla Sample.world).2.2.2⟩

theorem feeText_of_nonzero (n : Int) (h : n ≠ 0) :
    feeText (some (.num (some n))) =
      toString n ++ "/10000 (" ++ percentFixed2 (.num (some n)) ++ "%)" := by
  simp [feeText, Val.or, Val.truthy, Val.toStr, h]

/-- C18, the code at the failing input: with `WITHDRAW_FEE=0` the stored fee
is the number 0 and the report prints `Not set/10000 (0.00%)` for it, not
`0/10000 (0.00%)`; the other three options print as the claim says. -/
theorem zero_fee_prints_not_set :
    Sample.envZeroFee "WITHDRAW_FEE" = some "0" ∧
    ((main Sample.envZeroFee Sample.world).data.stakePoolOptions.map fun o => o.withdrawFee) =
      some (.num (some 0)) ∧
    withdrawFeeLine (main Sample.envZeroFee Sample.world).data =
      "  - Withdraw Fee: Not set/10000 (0.00%)" ∧
    mintFeeLine (main Sample.envZeroFee Sample.world).data = "  - Mint Fee: 50/10000 (0.50%)" ∧
    mintPercentPerDayLine (main Sample.envZeroFee Sample.world).data =
      "  - Mint Percent Per Day: 10/10000 (0.10%)" ∧
    borrowFeeLine (main Sample.envZeroFee Sample.world).data =
      "  - Borrow Fee: 50/10000 (0.50%)" := by
  decide

end Deploy

/-! ## Properties of the simulated staking pool -/

namespace Staking

open Evm

theorem ether_pos : 0 < ether := by decide

theorem earned_nonneg (s : StakingData) (h : Sound s) (a : Address) : 0 ≤ earned s a := by
  obtain ⟨hr, hu⟩ := h
  unfold earned
  simp only []
  split_ifs with h1 h2
  · exact (hu a).2
  · have hrpt : 0 ≤ (s.rewardRate * (s.blockNumber - s.lastUpdateBlock) * ether).tdiv s.totalStaked :=
      Int.tdiv_nonneg (Int.mul_nonneg (Int.mul_nonneg hr.le h2.1.le) ether_pos.le) h2.2.le
    have := Int.tdiv_nonneg (Int.mul_nonneg (hu a).1 hrpt) ether_pos.le
    have := (hu a).2
    omega
  · exact (hu a).2

theorem sound_of_same (s s' : StakingData) (h : Sound s) (hr : 0 < s'.rewardRate)
    (hs : s'.userStakes = s.userStakes) (hw : s'.userRewards = s.userRewards) : Sound s' := by
  refine ⟨hr, fun a => ?_⟩
  simp only [balanceOf, storedReward, hs, hw]
  exact h.2 a

theorem sound_updateRewards (s : StakingData) (h : Sound s) (a : Address) :
    Sound (updateRewards s a) := by
  unfold updateRewards
  simp only []
  split_ifs with h1 h2 h3
  · refine ⟨h.1, fun b => ?_⟩
    simp only [balanceOf, storedReward, Function.update_apply]
    split_ifs with hb
    · exact ⟨(h.2 b).1, earned_nonneg s h a⟩
    · exact h.2 b
  · exact sound_of_same s _ h h.1 rfl rfl
  · exact h
  · exact sound_of_same s _ h h.1 rfl rfl

theorem adjustRewardRate_ok (s s' : StakingData) (h : adjustRewardRate s = .ok s') :
    0 < s'.rewardRate ∧ s'.userStakes = s.userStakes ∧ s'.userRewards = s.userRewards ∧
    s'.totalStaked = s.totalStaked ∧ s'.blockNumber = s.blockNumber ∧
    s'.lastUpdateBlock = s.lastUpdateBlock := by
  unfold adjustRewardRate at h
  simp only [] at h
  split_ifs at h with h1 h2
  · injection h with h; subst h
    exact ⟨show 0 < 100 * ether by decide, rfl, rfl, rfl, rfl, rfl⟩
  · injection h with h; subst h
    refine ⟨?_, rfl, rfl, rfl, rfl, rfl⟩
    have : 0 < 100 * ether := by decide
    positivity

theorem sound_afterAdjust {α : Type} (s : StakingData) (h : Sound s)
    (t : List (String × Address × Int)) (v : α) : Sound (afterAdjust s t v).state := by
  unfold afterAdjust
  cases hadj : adjustRewardRate s with
  | error e => exact h
  | ok s' =>
    obtain ⟨h1, h2, h3, _⟩ := adjustRewardRate_ok s s' hadj
    exact sound_of_same s s' h h1 h2 h3

theorem transferAccepted_nonneg (ok : Bool) (amount : Int) (h : transferAccepted ok amount = true) :
    0 ≤ amount := by
  simp only [transferAccepted, Bool.and_eq_true, decide_eq_true_eq] at h
  exact h.1.2

theorem sound_stake (s : StakingData) (h : Sound s) (user : Address) (amount : Int) (ok : Bool) :
    Sound (stake s user amount ok).state := by
  unfold stake
  by_cases ha : transferAccepted ok amount = true
  · simp only [ha, Bool.not_true, Bool.false_eq_true, if_false]
    apply sound_afterAdjust
    have h1 := sound_updateRewards s h user
    have hamt := transferAccepted_nonneg ok amount ha
    refine ⟨h1.1, fun b => ?_⟩
    simp only [balanceOf, storedReward, Function.update_apply]
    split_ifs with hb
    · have := (h1.2 user).1
      have := (h1.2 b).2
      simp only [balanceOf, storedReward, Option.getD_some] at *
      constructor <;> omega
    · exact h1.2 b
  · simp only [Bool.not_eq_true] at ha
    simp only [ha, Bool.not_false, if_true]
    exact h

theorem sound_withdraw (s : StakingData) (h : Sound s) (user : Address) (amount : Int)
    (ok : Bool) : Sound (withdraw s user amount ok).state := by
  unfold withdraw
  simp only []
  split_ifs with h1 h2
  · exact h
  all_goals
    first
    | apply sound_afterAdjust
    | skip
    have hu := sound_updateRewards s h user
    refine ⟨hu.1, fun b => ?_⟩
    simp only [balanceOf, storedReward, Function.update_apply]
    split_ifs with hb
    · have := (hu.2 b).2
      simp only [balanceOf, storedReward, Option.getD_some] at *
      constructor <;> omega
    · exact hu.2 b

theorem sound_getReward (s : StakingData) (h : Sound s) (user : Address) (ok : Bool) :
    Sound (getReward s user ok).state := by
  unfold getReward
  have hu := sound_updateRewards s h user
  simp only []
  split_ifs with h1 h2
  all_goals
    first
    | exact hu
    | refine ⟨hu.1, fun b => ?_⟩
      simp only [balanceOf, storedReward, Function.update_apply]
      split_ifs with hb
      · exact ⟨(hu.2 b).1, by simp⟩
      · exact hu.2 b

theorem sound_exit (s : StakingData) (h : Sound s) (user : Address) (lpOk rewardOk : Bool) :
    Sound (exit s user lpOk rewardOk).state := by
  unfold exit
  simp only []
  have hw : Sound (if balanceOf s user > 0 then withdraw s user (balanceOf s user) lpOk
      else { state := s, transfers := [], result := .ok () }).state := by
    split_ifs
    · exact sound_withdraw s h user _ lpOk
    · exact h
  split
  · exact hw
  · exact sound_getReward _ hw user rewardOk

theorem sound_step (s : StakingData) (h : Sound s) (a : Action) : Sound (step s a) := by
  cases a with
  | stake user amount ok => exact sound_stake s h user amount ok
  | withdraw user amount ok => exact sound_withdraw s h user amount ok
  | getReward user ok => exact sound_getReward s h user ok
  | exit user lpOk rewardOk => exact sound_exit s h user lpOk rewardOk
  | updateRewards user => exact sound_updateRewards s h user
  | simulateBlockAdvance blocks => exact sound_of_same s _ h h.1 rfl rfl

theorem sound_initial : Sound initial := by
  refine ⟨by decide, fun a => ?_⟩
  simp [balanceOf, storedReward, initial]

theorem sound_run (actions : List Action) (s : StakingData) (h : Sound s) :
    Sound (run s actions) := by
  induction actions generalizing s with
  | nil => exact h
  | cons a rest ih => exact ih (step s a) (sound_step s h a)

end Staking

namespace Staking

open Evm

theorem scaled_floor (x k E : Int) (hx : 0 ≤ x) (hk : 1 ≤ k) (hE : 0 < E) :
    k * x.tdiv E ≤ (k * x).tdiv E ∧ (k * x).tdiv E ≤ k * x.tdiv E + (k - 1) := by
  have hkx : 0 ≤ k * x := Int.mul_nonneg (by omega) hx
  rw [Int.tdiv_eq_ediv hx hE.le, Int.tdiv_eq_ediv hkx hE.le]
  have h1 : x / E * E ≤ x := Int.ediv_mul_le x hE.ne'
  have h2 : x < (x / E + 1) * E := Int.lt_ediv_add_one_mul_self x hE
  constructor
  · rw [Int.le_ediv_iff_mul_le hE]
    nlinarith
  · have : (k * x) / E < k * (x / E) + k := by
      rw [Int.ediv_lt_iff_lt_mul hE]
      nlinarith
    omega

/-- C19: in every state the pool reaches, for two users without stored
rewards whose stakes are `k` to 1 (`k ≥ 1`, the smaller stake positive), after
any number of further blocks `k * earned(u₂) ≤ earned(u₁) ≤ k * earned(u₂) + (k - 1)`;
for `k = 4`, `earned(u₁) > 3 * earned(u₂)` whenever `earned(u₂) > 0`. -/
theorem rewards_proportional (actions : List Action) (blocks : Nat) (u₁ u₂ : Address) (k : Int)
    (h₁ : storedReward (run initial actions) u₁ = 0)
    (h₂ : storedReward (run initial actions) u₂ = 0)
    (hk : 1 ≤ k)
    (hs : balanceOf (run initial actions) u₁ = k * balanceOf (run initial actions) u₂)
    (hpos : 0 < balanceOf (run initial actions) u₂) :
    k * earned (simulateBlockAdvance (run initial actions) blocks) u₂ ≤
      earned (simulateBlockAdvance (run initial actions) blocks) u₁ ∧
    earned (simulateBlockAdvance (run initial actions) blocks) u₁ ≤
      k * earned (simulateBlockAdvance (run initial actions) blocks) u₂ + (k - 1) ∧
    (k = 4 → 0 < earned (simulateBlockAdvance (run initial actions) blocks) u₂ →
      3 * earned (simulateBlockAdvance (run initial actions) blocks) u₂ <
        earned (simulateBlockAdvance (run initial actions) blocks) u₁) := by
  have hsound := sound_run actions initial sound_initial
  generalize run initial actions = s at *
  have hpos1 : 0 < balanceOf s u₁ := by rw [hs]; positivity
  have key : k * earned (simulateBlockAdvance s blocks) u₂ ≤
      earned (simulateBlockAdvance s blocks) u₁ ∧
      earned (simulateBlockAdvance s blocks) u₁ ≤
        k * earned (simulateBlockAdvance s blocks) u₂ + (k - 1) := by
    have e1 : balanceOf (simulateBlockAdvance s blocks) u₁ = balanceOf s u₁ := rfl
    have e2 : balanceOf (simulateBlockAdvance s blocks) u₂ = balanceOf s u₂ := rfl
    have e3 : storedReward (simulateBlockAdvance s blocks) u₁ = storedReward s u₁ := rfl
    have e4 : storedReward (simulateBlockAdvance s blocks) u₂ = storedReward s u₂ := rfl
    unfold earned
    simp only [e1, e2, e3, e4, h₁, h₂, hpos1.ne', hpos.ne', if_false, Int.zero_add]
    split_ifs with hc
    · have hrpt : 0 ≤ ((simulateBlockAdvance s blocks).rewardRate *
          ((simulateBlockAdvance s blocks).blockNumber -
            (simulateBlockAdvance s blocks).lastUpdateBlock) * ether).tdiv
          (simulateBlockAdvance s blocks).totalStaked :=
        Int.tdiv_nonneg (Int.mul_nonneg (Int.mul_nonneg hsound.1.le hc.1.le) ether_pos.le)
          hc.2.le
      generalize ((simulateBlockAdvance s blocks).rewardRate *
          ((simulateBlockAdvance s blocks).blockNumber -
            (simulateBlockAdvance s blocks).lastUpdateBlock) * ether).tdiv
          (simulateBlockAdvance s blocks).totalStaked = rpt at *
      rw [hs, Int.mul_assoc]
      exact scaled_floor (balanceOf s u₂ * rpt) k ether (Int.mul_nonneg hpos.le hrpt) hk ether_pos
    · omega
  refine ⟨key.1, key.2, fun h4 he => ?_⟩
  have hk1 := key.1
  subst h4
  omega

end Staking

namespace Staking

open Evm

theorem storedReward_updateRewards (s : StakingData) (user : Address) (hu : user ≠ zeroAddress) :
    storedReward (updateRewards s user) user = earned s user := by
  unfold updateRewards earned
  simp only []
  by_cases h1 : s.totalStaked > 0
  · by_cases h2 : s.blockNumber - s.lastUpdateBlock > 0
    · simp [h1, h2, hu, storedReward]
    · simp [h1, h2]
  · simp [h1, storedReward]

theorem earned_after_update (s : StakingData) (user : Address) (f : Address → Option Int) :
    earned { updateRewards s user with userRewards := f } user = (f user).getD 0 := by
  have hb : balanceOf { updateRewards s user with userRewards := f } user = balanceOf s user := by
    unfold updateRewards balanceOf
    simp only []
    split_ifs <;> rfl
  unfold earned
  simp only [hb]
  split_ifs with h1 h2
  · rfl
  · exfalso
    revert h2
    unfold updateRewards
    simp only []
    split_ifs with h3 h4 h5 <;> first | (simp; done) | (simp; omega)
  · rfl

/-- C20: in every state the pool reaches, `getReward(user)` for a user (a
signer, never the zero address) whose reward transfer goes through returns
exactly the value `earned(user)` had before the call and pays that amount (no
transfer when it is 0), and right afterwards `earned(user)` is 0. -/
theorem getReward_pays_earned (actions : List Action) (user : Address) (tokenOk : Bool)
    (hu : user ≠ zeroAddress)
    (hok : (getReward (run initial actions) user tokenOk).result.toBool = true) :
    (getReward (run initial actions) user tokenOk).result =
      .ok (earned (run initial actions) user) ∧
    (getReward (run initial actions) user tokenOk).transfers =
      (if earned (run initial actions) user = 0 then []
       else [("rwa: owner to user", user, earned (run initial actions) user)]) ∧
    earned (getReward (run initial actions) user tokenOk).state user = 0 := by
  have hsound := sound_run actions initial sound_initial
  generalize run initial actions = s at *
  have he := earned_nonneg s hsound user
  have hst := storedReward_updateRewards s user hu
  have hself : earned (updateRewards s user) user = storedReward (updateRewards s user) user :=
    earned_after_update s user (updateRewards s user).userRewards
  by_cases hpos : earned s user > 0
  · have hne : earned s user ≠ 0 := by omega
    by_cases hacc : transferAccepted tokenOk (earned s user) = true
    · have hg : getReward s user tokenOk =
          { state := { updateRewards s user with
              userRewards := Function.update (updateRewards s user).userRewards user (some 0) }
            transfers := [("rwa: owner to user", user, earned s user)]
            result := .ok (earned s user) } := by
        unfold getReward
        simp only [hst, hpos, if_true, hacc, Bool.not_true, Bool.false_eq_true, if_false]
      rw [hg]
      simp only [hne, if_false]
      refine ⟨trivial, trivial, ?_⟩
      rw [earned_after_update]
      simp
    · exfalso
      simp only [Bool.not_eq_true] at hacc
      unfold getReward at hok
      simp [hst, hpos, hacc, Except.toBool] at hok
  · have h0 : earned s user = 0 := by omega
    have hg : getReward s user tokenOk =
        { state := updateRewards s user, transfers := [], result := .ok 0 } := by
      unfold getReward
      simp only [hst, hpos, if_false]
    rw [hg]
    simp only [h0, if_true]
    refine ⟨trivial, trivial, ?_⟩
    rw [hself, hst, h0]

end Staking

namespace Staking

open Evm

/-- C14, the code at the failing input: in the dynamic-rate test `lp1` has
earned 50000 tokens after 100 blocks; the stake of `lp2` then moves
`lastUpdateBlock` without crediting `lp1`, so `earned(lp1)` drops to 0 although
`lp1` was paid nothing, and the "new reward" the test computes 100 blocks later
is negative. -/
theorem stake_of_another_user_erases_pending_reward :
    earned Sample.poolAfterFirstStake Sample.lp1 = 50000 * ether ∧
    earned (step Sample.poolAfterFirstStake (.stake Sample.lp2 (500000 * ether) true))
      Sample.lp1 = 0 ∧
    earned (run Sample.poolAfterFirstStake
      [.stake Sample.lp2 (500000 * ether) true, .simulateBlockAdvance 100,
       .updateRewards Sample.lp1]) Sample.lp1 - earned Sample.poolAfterFirstStake Sample.lp1
      < 0 := by
  decide

/-- C16, the code at the failing input: `adjustRewardRate` sets 100 tokens
per block for 9 staked tokens and 200 for 10, so the reward per staked token
rises from 100/9 to 200/10 when the total grows from 9 to 10 tokens. -/
theorem reward_per_token_rises_at_ten_tokens :
    rewardRateAt (9 * ether) = .ok (100 * ether) ∧
    rewardRateAt (10 * ether) = .ok (200 * ether) ∧
    ((100 * ether : Int) : ℚ) / ((9 * ether : Int) : ℚ) <
      ((200 * ether : Int) : ℚ) / ((10 * ether : Int) : ℚ) := by
  refine ⟨rfl, rfl, ?_⟩
  norm_num [ether]

/-- C19, witness: the two providers of the first staking test, 1000 blocks
after their stakes. -/
theorem rewards_proportional_witness :
    4 * earned (simulateBlockAdvance (run initial Sample.firstStakes) 1000) Sample.lp2 ≤
      earned (simulateBlockAdvance (run initial Sample.firstStakes) 1000) Sample.lp1 ∧
    earned (simulateBlockAdvance (run initial Sample.firstStakes) 1000) Sample.lp1 ≤
      4 * earned (simulateBlockAdvance (run initial Sample.firstStakes) 1000) Sample.lp2 +
        (4 - 1) ∧
    ((4 : Int) = 4 →
      0 < earned (simulateBlockAdvance (run initial Sample.firstStakes) 1000) Sample.lp2 →
      3 * earned (simulateBlockAdvance (run initial Sample.firstStakes) 1000) Sample.lp2 <
        earned (simulateBlockAdvance (run initial Sample.firstStakes) 1000) Sample.lp1) :=
  rewards_proportional Sample.firstStakes 1000 Sample.lp1 Sample.lp2 4 (by decide) (by decide)
    (by decide) (by decide) (by decide)

/-- C20, witness: the first provider claims 400000 tokens after 1000 blocks. -/
theorem getReward_pays_earned_witness :
    earned (run initial (Sample.firstStakes ++ [.simulateBlockAdvance 1000])) Sample.lp1 =
      400000 * ether ∧
    (getReward (run initial (Sample.firstStakes ++ [.simulateBlockAdvance 1000])) Sample.lp1
      true).result =
      .ok (earned (run initial (Sample.firstStakes ++ [.simulateBlockAdvance 1000])) Sample.lp1) ∧
    earned (getReward (run initial (Sample.firstStakes ++ [.simulateBlockAdvance 1000]))
      Sample.lp1 true).state Sample.lp1 = 0 := by
  have h := getReward_pays_earned (Sample.firstStakes ++ [.simulateBlockAdvance 1000])
    Sample.lp1 true (by decide) (by decide)
  exact ⟨by decide, h.1, h.2.2⟩

end Staking

/-! ## Properties of the reward rate of the staking pool -/

namespace Staking

open Evm

theorem roundHalfEven_mono (a a' b : Nat) (h : a ≤ a') :
    roundHalfEven a b ≤ roundHalfEven a' b := by
  rcases Nat.eq_zero_or_pos b with hb | hb
  · subst hb; simp only [roundHalfEven, Nat.div_zero, Nat.mod_zero]; split_ifs <;> omega
  have hq : a / b ≤ a' / b := Nat.div_le_div_right h
  have e1 := Nat.div_add_mod a b
  have e2 := Nat.div_add_mod a' b
  have r1 := Nat.mod_lt a hb
  have r2 := Nat.mod_lt a' hb
  unfold roundHalfEven
  simp only []
  rcases Nat.lt_or_ge (a / b) (a' / b) with hlt | hge
  · split_ifs <;> omega
  · have heq : a / b = a' / b := by omega
    rw [heq] at e1 ⊢
    have hr : a % b ≤ a' % b := by omega
    split_ifs <;> omega

theorem roundHalfEven_mul (c b : Nat) (hb : 0 < b) : roundHalfEven (c * b) b = c := by
  unfold roundHalfEven
  simp [Nat.mul_mod_left, Nat.mul_div_cancel _ hb, hb]

theorem roundHalfEven_mul_le (a b : Nat) (hb : 0 < b) : roundHalfEven a b * b ≤ 2 * a := by
  have e1 := Nat.div_add_mod a b
  have r1 := Nat.mod_lt a hb
  unfold roundHalfEven
  simp only []
  have hq : a / b * b ≤ a := Nat.div_mul_le_self a b
  split_ifs with h1 h2 h3
  · omega
  · rw [Nat.add_mul]
    rcases Nat.eq_zero_or_pos (a / b) with h0 | h0
    · rw [h0] at e1 ⊢; omega
    · have : b ≤ a / b * b := Nat.le_mul_of_pos_left b h0
      omega
  · omega
  · rw [Nat.add_mul]
    rcases Nat.eq_zero_or_pos (a / b) with h0 | h0
    · rw [h0] at e1 ⊢; omega
    · have : b ≤ a / b * b := Nat.le_mul_of_pos_left b h0
      omega

theorem binade_spec (fuel units j : Nat) :
    j ≤ binade fuel units j ∧ binade fuel units j ≤ j + fuel ∧
    (j < binade fuel units j → 10 * 2 ^ (52 + binade fuel units j) ≤ units) ∧
    (units < 10 * 2 ^ (53 + j + fuel) → units < 10 * 2 ^ (53 + binade fuel units j)) := by
  induction fuel generalizing j with
  | zero => simp [binade]
  | succ n ih =>
    unfold binade
    split_ifs with h
    · refine ⟨le_refl _, by omega, fun h' => absurd h' (lt_irrefl _), fun _ => h⟩
    · obtain ⟨h1, h2, h3, h4⟩ := ih (j + 1)
      refine ⟨by omega, by omega, fun _ => ?_, fun hu => ?_⟩
      · rcases Nat.lt_or_ge (j + 1) (binade n units (j + 1)) with hlt | hge
        · exact h3 hlt
        · have : binade n units (j + 1) = j + 1 := by omega
          rw [this]
          have : 52 + (j + 1) = 53 + j := by omega
          rw [this]; omega
      · apply h4
        have : 53 + (j + 1) + n = 53 + j + (n + 1) := by omega
        rw [this]; exact hu

theorem divTenUnits_mono (u u' : Nat) (h : u ≤ u') (hb : u' < 10 * 2 ^ 105) :
    divTenUnits u ≤ divTenUnits u' := by
  unfold divTenUnits
  simp only []
  obtain ⟨_, a2, a3, a4⟩ := binade_spec 52 u 0
  obtain ⟨_, b2, b3, b4⟩ := binade_spec 52 u' 0
  have hu : u < 10 * 2 ^ (53 + binade 52 u 0) := a4 (lt_of_le_of_lt h hb)
  generalize binade 52 u 0 = j at *
  generalize binade 52 u' 0 = j' at *
  rcases Nat.lt_trichotomy j j' with hlt | heq | hgt
  · -- a lower binade: the rounded value stays below the power of two between
    have hlow : 10 * 2 ^ (52 + j') ≤ u' := b3 (by omega)
    have p1 : 0 < 10 * 2 ^ j := by positivity
    have p2 : 0 < 10 * 2 ^ j' := by positivity
    have s1 : roundHalfEven u (10 * 2 ^ j) ≤ 2 ^ 53 := by
      have := roundHalfEven_mono u (2 ^ 53 * (10 * 2 ^ j)) (10 * 2 ^ j) (by
        have : 2 ^ 53 * (10 * 2 ^ j) = 10 * 2 ^ (53 + j) := by rw [pow_add]; ring
        omega)
      rwa [roundHalfEven_mul _ _ p1] at this
    have s2 : 2 ^ 52 ≤ roundHalfEven u' (10 * 2 ^ j') := by
      have := roundHalfEven_mono (2 ^ 52 * (10 * 2 ^ j')) u' (10 * 2 ^ j') (by
        have : 2 ^ 52 * (10 * 2 ^ j') = 10 * 2 ^ (52 + j') := by rw [pow_add]; ring
        omega)
      rwa [roundHalfEven_mul _ _ p2] at this
    calc roundHalfEven u (10 * 2 ^ j) * 2 ^ j ≤ 2 ^ 53 * 2 ^ j := Nat.mul_le_mul_right _ s1
      _ = 2 ^ (53 + j) := by rw [pow_add]
      _ ≤ 2 ^ (52 + j') := Nat.pow_le_pow_right (by norm_num) (by omega)
      _ = 2 ^ 52 * 2 ^ j' := by rw [pow_add]
      _ ≤ roundHalfEven u' (10 * 2 ^ j') * 2 ^ j' := Nat.mul_le_mul_right _ s2
  · subst heq
    exact Nat.mul_le_mul_right _ (roundHalfEven_mono u u' _ h)
  · exfalso
    have hlow : 10 * 2 ^ (52 + j) ≤ u := a3 (by omega)
    have hup : u' < 10 * 2 ^ (53 + j') := b4 (by simpa using hb)
    have : 2 ^ (53 + j') ≤ 2 ^ (52 + j) := Nat.pow_le_pow_right (by norm_num) (by omega)
    omega

theorem divTenUnits_le (u : Nat) : divTenUnits u ≤ u := by
  unfold divTenUnits
  simp only []
  generalize binade 52 u 0 = j
  have p1 : 0 < 10 * 2 ^ j := by positivity
  have h := roundHalfEven_mul_le u (10 * 2 ^ j) p1
  have e : roundHalfEven u (10 * 2 ^ j) * (10 * 2 ^ j) =
      10 * (roundHalfEven u (10 * 2 ^ j) * 2 ^ j) := by ring
  omega

theorem iterate_divTenUnits_mono (i u u' : Nat) (h : u ≤ u') (hb : u' < 10 * 2 ^ 105) :
    divTenUnits^[i] u ≤ divTenUnits^[i] u' := by
  induction i generalizing u u' with
  | zero => exact h
  | succ n ih =>
    rw [Function.iterate_succ_apply, Function.iterate_succ_apply]
    exact ih _ _ (divTenUnits_mono u u' h hb) (lt_of_le_of_lt (divTenUnits_le u') hb)

theorem logLoop_iterate (m fuel u k : Nat) (hfuel : m < fuel)
    (hgo : ∀ i < m, 10 * 2 ^ 52 ≤ divTenUnits^[i] u)
    (hstop : divTenUnits^[m] u < 10 * 2 ^ 52) :
    logLoop fuel ⟨(u : Int)⟩ k = (⟨((divTenUnits^[m] u : Nat) : Int)⟩, k + m) := by
  induction m generalizing fuel u k with
  | zero =>
    obtain ⟨f, rfl⟩ : ∃ f, fuel = f + 1 := ⟨fuel - 1, by omega⟩
    simp only [Function.iterate_zero, id_eq] at hstop
    have : ¬ ((u : Int) ≥ 10 * 2 ^ 52) := by
      have : ((10 * 2 ^ 52 : Nat) : Int) = 10 * 2 ^ 52 := by norm_num
      omega
    unfold logLoop
    rw [if_neg this]
    simp
  | succ n ih =>
    obtain ⟨f, rfl⟩ : ∃ f, fuel = f + 1 := ⟨fuel - 1, by omega⟩
    have h0 : 10 * 2 ^ 52 ≤ u := by simpa using hgo 0 (by omega)
    have hc : (u : Int) ≥ 10 * 2 ^ 52 := by
      have : ((10 * 2 ^ 52 : Nat) : Int) = 10 * 2 ^ 52 := by norm_num
      omega
    unfold logLoop
    simp only [hc, if_true, Value.divTen, Int.toNat_ofNat]
    rw [ih f (divTenUnits u) (k + 1) (by omega)]
    · rw [Function.iterate_succ_apply]
      congr 1
      omega
    · intro i hi
      have := hgo (i + 1) (by omega)
      rwa [Function.iterate_succ_apply] at this
    · rwa [Function.iterate_succ_apply] at hstop

set_option maxRecDepth 100000 in
theorem checked_bounds : ∀ m < 16,
    (∀ i < m, 10 * 2 ^ 52 ≤ divTenUnits^[i] (10 ^ m * 2 ^ 52)) ∧
    divTenUnits^[m] (min (10 ^ (m + 1) - 1) (2 ^ 53 - 1) * 2 ^ 52) < 10 * 2 ^ 52 := by
  decide

/-- The loop on a whole number `n` from 1 to `2^53 - 1`, with at least as many
rounds as the code's model gives it: it stops by its own test, with
`logFactor` the number of decimal digits of `n` less one. -/
theorem logLoop_digits (n fuel : Nat) (h1 : 1 ≤ n) (hn : n ≤ maxSafeInteger) (hf : n ≤ fuel) :
    (logLoop fuel (Value.ofInt n) 0).2 + 1 = (Nat.digits 10 n).length ∧
    (logLoop fuel (Value.ofInt n) 0).1.units < 10 * 2 ^ 52 := by
  have hn' : n < 2 ^ 53 := by unfold maxSafeInteger at hn; omega
  have hlow : 10 ^ Nat.log 10 n ≤ n := Nat.pow_log_le_self 10 (by omega)
  have hhigh : n < 10 ^ (Nat.log 10 n + 1) := Nat.lt_pow_succ_log_self (by norm_num) n
  have hm : Nat.log 10 n < 16 := by
    apply Nat.log_lt_of_lt_pow (by omega)
    exact lt_of_lt_of_le hn' (by norm_num)
  have hmn : Nat.log 10 n < n := Nat.log_lt_self 10 (by omega)
  rw [Nat.digits_len 10 n (by norm_num) (by omega)]
  obtain ⟨c1, c2⟩ := checked_bounds (Nat.log 10 n) hm
  generalize Nat.log 10 n = m at *
  have hrange : n * 2 ^ 52 < 10 * 2 ^ 105 := by
    have : n * 2 ^ 52 < 2 ^ 53 * 2 ^ 52 := Nat.mul_lt_mul_of_pos_right hn' (by positivity)
    omega
  have hgo : ∀ i < m, 10 * 2 ^ 52 ≤ divTenUnits^[i] (n * 2 ^ 52) := fun i hi =>
    le_trans (c1 i hi)
      (iterate_divTenUnits_mono i _ _ (Nat.mul_le_mul_right _ hlow) hrange)
  have htop : n ≤ min (10 ^ (m + 1) - 1) (2 ^ 53 - 1) := by
    apply le_min <;> omega
  have hstop : divTenUnits^[m] (n * 2 ^ 52) < 10 * 2 ^ 52 :=
    lt_of_le_of_lt
      (iterate_divTenUnits_mono m _ _ (Nat.mul_le_mul_right _ htop) (by
        have : min (10 ^ (m + 1) - 1) (2 ^ 53 - 1) ≤ 2 ^ 53 - 1 := min_le_right _ _
        have : min (10 ^ (m + 1) - 1) (2 ^ 53 - 1) * 2 ^ 52 ≤ (2 ^ 53 - 1) * 2 ^ 52 :=
          Nat.mul_le_mul_right _ this
        omega))
      c2
  have hcast : Value.ofInt (n : Int) = ⟨((n * 2 ^ 52 : Nat) : Int)⟩ := by
    simp [Value.ofInt]
  rw [hcast, logLoop_iterate m fuel (n * 2 ^ 52) 0 (by omega) hgo hstop]
  refine ⟨by simp, ?_⟩
  simp only []
  have : ((10 * 2 ^ 52 : Nat) : Int) = 10 * 2 ^ 52 := by norm_num
  omega

theorem digitRate_mono (t t' : Int) (h0 : 0 ≤ t) (h : t ≤ t') : digitRate t ≤ digitRate t' := by
  have hq : t / ether ≤ t' / ether := Int.ediv_le_ediv ether_pos h
  have hq0 : 0 ≤ t / ether := Int.ediv_nonneg h0 ether_pos.le
  have he : (0 : Int) < 100 * ether := by decide
  unfold digitRate
  simp only []
  split_ifs with h1 h2 h2
  · exact le_refl _
  · have : 1 ≤ (Nat.digits 10 (t' / ether).toNat).length := by
      rw [Nat.digits_len 10 _ (by norm_num) (by omega)]
      omega
    have : (1 : Int) ≤ ((Nat.digits 10 (t' / ether).toNat).length : Int) := by exact_mod_cast this
    nlinarith
  · exfalso
    rcases h2 with h2 | h2
    · omega
    · exact h1 (Or.inr (by omega))
  · have : (Nat.digits 10 (t / ether).toNat).length ≤ (Nat.digits 10 (t' / ether).toNat).length :=
      Nat.le_digits_len_le 10 _ _ (by omega)
    have : ((Nat.digits 10 (t / ether).toNat).length : Int) ≤
        ((Nat.digits 10 (t' / ether).toNat).length : Int) := by exact_mod_cast this
    nlinarith

theorem adjustRewardRate_eq (s : StakingData) (h0 : 0 ≤ s.totalStaked)
    (hn : s.totalStaked / ether ≤ (maxSafeInteger : Int)) :
    adjustRewardRate s = .ok { s with rewardRate := digitRate s.totalStaked } ∧
    (logLoop (s.totalStaked.tdiv ether).natAbs (Value.ofInt (s.totalStaked.tdiv ether)) 0).1.units
      < 10 * 2 ^ 52 := by
  have hq0 : 0 ≤ s.totalStaked / ether := Int.ediv_nonneg h0 ether_pos.le
  rw [Int.tdiv_eq_ediv h0 ether_pos.le]
  obtain ⟨n, hnq⟩ := Int.eq_ofNat_of_zero_le hq0
  have hnmax : n ≤ maxSafeInteger := by rw [hnq] at hn; exact_mod_cast hn
  unfold adjustRewardRate digitRate
  simp only []
  rw [Int.tdiv_eq_ediv h0 ether_pos.le, hnq]
  simp only [Int.natAbs_ofNat, Int.toNat_ofNat]
  rcases Nat.eq_zero_or_pos n with hz | hpos
  · subst hz
    constructor
    · by_cases ht : s.totalStaked = 0
      · rw [if_pos ht, if_pos (Or.inl ht)]
      · rw [if_neg ht, if_neg (by omega), if_pos (Or.inr (by norm_num))]
        simp [logLoop]
    · simp [logLoop, Value.ofInt]
  · obtain ⟨d1, d2⟩ := logLoop_digits n n hpos hnmax (le_refl _)
    refine ⟨?_, d2⟩
    have hne : s.totalStaked ≠ 0 := by
      intro h
      rw [h] at hnq
      simp at hnq
      omega
    rw [if_neg hne, if_neg (by omega)]
    split_ifs with h3
    · rcases h3 with h3 | h3
      · exact absurd h3 hne
      · have hlt : n < 10 := by exact_mod_cast h3
        have : (Nat.digits 10 n).length = 1 := by
          rw [Nat.digits_len 10 n (by norm_num) (by omega), Nat.log_of_lt hlt]
        have : (logLoop n (Value.ofInt ↑n) 0).2 = 0 := by omega
        rw [this]
        simp
    · rw [← d1]
      congr 2
      push_cast
      ring

/-- C23: for a total that is not negative (no reachable total is) and whose
whole tokens `n = floor(totalStaked / 10^18)` are at most `2^53 - 1`,
`adjustRewardRate` returns, changes nothing but `rewardRate`, and sets it to
`100 * 10^18` when `totalStaked = 0` or `n < 10` and to `100 * 10^18 * d`
otherwise, `d` being the number of decimal digits of `n`; the loop on the
double `value` stops by its own test `value >= 10`, and the rate set for any
larger total is at least as large. -/
theorem rate_counts_digits (s : StakingData) (h0 : 0 ≤ s.totalStaked)
    (hn : s.totalStaked / ether ≤ (maxSafeInteger : Int)) :
    adjustRewardRate s = .ok { s with rewardRate := digitRate s.totalStaked } ∧
    (logLoop (s.totalStaked.tdiv ether).natAbs (Value.ofInt (s.totalStaked.tdiv ether)) 0).1.units
      < 10 * 2 ^ 52 ∧
    ∀ s' : StakingData, s.totalStaked ≤ s'.totalStaked →
      s'.totalStaked / ether ≤ (maxSafeInteger : Int) →
      ∃ r, adjustRewardRate s' = .ok r ∧ digitRate s.totalStaked ≤ r.rewardRate := by
  obtain ⟨h1, h2⟩ := adjustRewardRate_eq s h0 hn
  refine ⟨h1, h2, fun s' hle hn' => ?_⟩
  exact ⟨_, (adjustRewardRate_eq s' (le_trans h0 hle) hn').1, digitRate_mono _ _ h0 hle⟩

/-- C23, witness: with 510000 tokens staked, six digits, the rate is 600
tokens per block. -/
theorem rate_counts_digits_witness :
    (0 : Int) ≤ Sample.largePool.totalStaked ∧
    adjustRewardRate Sample.largePool =
      .ok { Sample.largePool with rewardRate := digitRate Sample.largePool.totalStaked } ∧
    rewardRateAt (510000 * ether) = .ok (600 * ether) := by
  have h := rate_counts_digits Sample.largePool (by decide) (by decide)
  exact ⟨by decide, h.1, rfl⟩

end Staking

/-! ## Properties of withdrawals and of the staked total -/

namespace Staking

open Evm

theorem updateRewards_stakes (s : StakingData) (a : Address) :
    (updateRewards s a).userStakes = s.userStakes ∧
    (updateRewards s a).totalStaked = s.totalStaked := by
  unfold updateRewards
  simp only []
  split_ifs <;> exact ⟨rfl, rfl⟩

theorem afterAdjust_stakes {α : Type} (s : StakingData) (t : List (String × Address × Int))
    (v : α) : (afterAdjust s t v).state.userStakes = s.userStakes ∧
    (afterAdjust s t v).state.totalStaked = s.totalStaked := by
  unfold afterAdjust
  cases hadj : adjustRewardRate s with
  | error e => exact ⟨rfl, rfl⟩
  | ok s' =>
    obtain ⟨_, h2, _, h4, _⟩ := adjustRewardRate_ok s s' hadj
    exact ⟨h2, h4⟩

theorem stake_stakes (s : StakingData) (user : Address) (amount : Int) (ok : Bool) :
    (stake s user amount ok).state.userStakes = s.userStakes ∧
      (stake s user amount ok).state.totalStaked = s.totalStaked ∨
    (stake s user amount ok).state.userStakes =
        Function.update s.userStakes user (some (balanceOf s user + amount)) ∧
      (stake s user amount ok).state.totalStaked = s.totalStaked + amount := by
  obtain ⟨u1, u2⟩ := updateRewards_stakes s user
  unfold stake
  split_ifs with h
  · exact Or.inl ⟨rfl, rfl⟩
  · right
    simp only []
    obtain ⟨a1, a2⟩ := afterAdjust_stakes
      { updateRewards s user with
        userStakes := Function.update (updateRewards s user).userStakes user
          (some (balanceOf (updateRewards s user) user + amount))
        totalStaked := (updateRewards s user).totalStaked + amount }
      [("lpToken: user to owner", user, amount)] ()
    rw [a1, a2]
    simp only [balanceOf, u1, u2]
    exact ⟨trivial, trivial⟩

theorem withdraw_stakes (s : StakingData) (user : Address) (amount : Int) (ok : Bool) :
    (balanceOf s user < amount → withdraw s user amount ok =
      { state := s, transfers := [], result := .error "Insufficient staked balance" }) ∧
    (amount ≤ balanceOf s user →
      (withdraw s user amount ok).state.userStakes =
        Function.update s.userStakes user (some (balanceOf s user - amount)) ∧
      (withdraw s user amount ok).state.totalStaked = s.totalStaked - amount) := by
  obtain ⟨u1, u2⟩ := updateRewards_stakes s user
  constructor
  · intro h
    unfold withdraw
    simp only [h, if_true]
  · intro h
    have h' : ¬ balanceOf s user < amount := by omega
    unfold withdraw
    simp only [h', if_false]
    split_ifs with ht
    · simp only [u1, u2]
      exact ⟨trivial, trivial⟩
    · obtain ⟨a1, a2⟩ := afterAdjust_stakes
        { updateRewards s user with
          userStakes := Function.update (updateRewards s user).userStakes user
            (some (balanceOf s user - amount))
          totalStaked := (updateRewards s user).totalStaked - amount }
        [("lpToken: owner to user", user, amount)] ()
      rw [a1, a2]
      simp only [u1, u2]
      exact ⟨trivial, trivial⟩

theorem getReward_stakes (s : StakingData) (user : Address) (ok : Bool) :
    (getReward s user ok).state.userStakes = s.userStakes ∧
    (getReward s user ok).state.totalStaked = s.totalStaked := by
  obtain ⟨u1, u2⟩ := updateRewards_stakes s user
  unfold getReward
  simp only []
  split_ifs <;> exact ⟨u1, u2⟩

theorem sum_stakes_update (f : Address → Option Int) (a : Address) (v : Int) :
    (∑ x, ((Function.update f a (some v)) x).getD 0) = (∑ x, (f x).getD 0) - (f a).getD 0 + v := by
  have h : (fun x => ((Function.update f a (some v)) x).getD 0) =
      Function.update (fun x => (f x).getD 0) a v := by
    funext x
    by_cases hx : x = a
    · subst hx; simp
    · simp [Function.update_noteq hx]
  rw [h, Finset.sum_update_of_mem (Finset.mem_univ a),
    ← Finset.sum_erase_add Finset.univ (fun x => (f x).getD 0) (Finset.mem_univ a),
    Finset.sdiff_singleton_eq_erase]
  ring

theorem totalled_of_same (s s' : StakingData) (h : Totalled s)
    (hs : s'.userStakes = s.userStakes) (ht : s'.totalStaked = s.totalStaked) : Totalled s' := by
  unfold Totalled at *
  simp only [balanceOf, hs, ht] at *
  exact h

theorem totalled_of_update (s s' : StakingData) (h : Totalled s) (user : Address) (d : Int)
    (hs : s'.userStakes = Function.update s.userStakes user (some (balanceOf s user + d)))
    (ht : s'.totalStaked = s.totalStaked + d) : Totalled s' := by
  unfold Totalled at *
  simp only [balanceOf, hs, ht] at *
  rw [sum_stakes_update, h]
  ring

theorem totalled_withdraw (s : StakingData) (h : Totalled s) (user : Address) (amount : Int)
    (ok : Bool) : Totalled (withdraw s user amount ok).state := by
  obtain ⟨w1, w2⟩ := withdraw_stakes s user amount ok
  rcases lt_or_le (balanceOf s user) amount with hlt | hle
  · rw [w1 hlt]; exact h
  · obtain ⟨e1, e2⟩ := w2 hle
    exact totalled_of_update s _ h user (-amount) (by rw [e1]; congr 2) (by rw [e2]; ring)

theorem exit_stakes (s : StakingData) (user : Address) (lpOk rewardOk : Bool) :
    (exit s user lpOk rewardOk).state.userStakes =
      (if balanceOf s user > 0 then withdraw s user (balanceOf s user) lpOk
       else { state := s, transfers := [], result := .ok () }).state.userStakes ∧
    (exit s user lpOk rewardOk).state.totalStaked =
      (if balanceOf s user > 0 then withdraw s user (balanceOf s user) lpOk
       else { state := s, transfers := [], result := .ok () }).state.totalStaked := by
  unfold exit
  simp only []
  split
  · exact ⟨rfl, rfl⟩
  · exact getReward_stakes _ user rewardOk

theorem totalled_step (s : StakingData) (h : Totalled s) (a : Action) : Totalled (step s a) := by
  cases a with
  | stake user amount ok =>
    rcases stake_stakes s user amount ok with ⟨e1, e2⟩ | ⟨e1, e2⟩
    · exact totalled_of_same s _ h e1 e2
    · exact totalled_of_update s _ h user amount e1 e2
  | withdraw user amount ok => exact totalled_withdraw s h user amount ok
  | getReward user ok =>
    obtain ⟨e1, e2⟩ := getReward_stakes s user ok
    exact totalled_of_same s _ h e1 e2
  | exit user lpOk rewardOk =>
    obtain ⟨e1, e2⟩ := exit_stakes s user lpOk rewardOk
    refine totalled_of_same _ _ ?_ e1 e2
    split_ifs
    · exact totalled_withdraw s h user _ lpOk
    · exact h
  | updateRewards user =>
    obtain ⟨e1, e2⟩ := updateRewards_stakes s user
    exact totalled_of_same s _ h e1 e2
  | simulateBlockAdvance blocks => exact totalled_of_same s _ h rfl rfl

theorem totalled_run (actions : List Action) (s : StakingData) (h : Totalled s) :
    Totalled (run s actions) := by
  induction actions generalizing s with
  | nil => exact h
  | cons a rest ih => exact ih (step s a) (totalled_step s h a)

theorem totalled_initial : Totalled initial := by
  simp [Totalled, balanceOf, initial]

theorem balanceOf_exit (s : StakingData) (user : Address) (h : 0 ≤ balanceOf s user)
    (lpOk rewardOk : Bool) : balanceOf (exit s user lpOk rewardOk).state user = 0 := by
  obtain ⟨e1, _⟩ := exit_stakes s user lpOk rewardOk
  unfold balanceOf at *
  rw [e1]
  split_ifs with hpos
  · obtain ⟨_, w2⟩ := withdraw_stakes s user ((s.userStakes user).getD 0) lpOk
    rw [(w2 (le_refl _)).1]
    simp [balanceOf]
  · simp only []
    omega

/-- C22: in every state reached from the state of `beforeEach` by `stake`,
`withdraw`, `getReward`, `exit`, `updateRewards` and block advances (whether
the calls return or throw), `totalStaked` is the sum of all stakes, no stake is
negative, and after a further `exit(user)` that user's stake is 0. -/
theorem total_is_sum_of_stakes (actions : List Action) :
    (run initial actions).totalStaked = ∑ a, balanceOf (run initial actions) a ∧
    (∀ a, 0 ≤ balanceOf (run initial actions) a) ∧
    ∀ user lpOk rewardOk,
      balanceOf (exit (run initial actions) user lpOk rewardOk).state user = 0 ∧
      balanceOf (run initial (actions ++ [.exit user lpOk rewardOk])) user = 0 := by
  have hsound := sound_run actions initial sound_initial
  refine ⟨totalled_run actions initial totalled_initial, fun a => (hsound.2 a).1,
    fun user lpOk rewardOk => ?_⟩
  have h := balanceOf_exit (run initial actions) user (hsound.2 user).1 lpOk rewardOk
  refine ⟨h, ?_⟩
  simp only [run, List.foldl_append, List.foldl_cons, List.foldl_nil, step] at *
  exact h

/-- C21: `withdraw(user, amount)` with `amount` above the user's stake (for a
user without an entry the stake is 0) throws `Insufficient staked balance`
before any assignment, so the whole state is as before and no token moves; with
`amount` within the stake the user's stake and `totalStaked` are lowered by
exactly `amount` and no other user's stake changes, and the call returns when
the token transfer goes through and the remaining total is in the range of
`adjustRewardRate`. -/
theorem withdraw_checks_stake (s : StakingData) (user : Address) (amount : Int) (tokenOk : Bool) :
    (balanceOf s user < amount →
      (withdraw s user amount tokenOk).result = .error "Insufficient staked balance" ∧
      (withdraw s user amount tokenOk).state = s ∧
      (withdraw s user amount tokenOk).transfers = []) ∧
    (s.userStakes user = none → 0 < amount →
      (withdraw s user amount tokenOk).result = .error "Insufficient staked balance" ∧
      (withdraw s user amount tokenOk).state = s) ∧
    (amount ≤ balanceOf s user →
      balanceOf (withdraw s user amount tokenOk).state user = balanceOf s user - amount ∧
      (withdraw s user amount tokenOk).state.totalStaked = s.totalStaked - amount ∧
      (∀ other, other ≠ user →
        balanceOf (withdraw s user amount tokenOk).state other = balanceOf s other) ∧
      (transferAccepted tokenOk amount = true → 0 ≤ s.totalStaked - amount →
        (s.totalStaked - amount) / ether ≤ (maxSafeInteger : Int) →
        (withdraw s user amount tokenOk).result = .ok ())) := by
  obtain ⟨w1, w2⟩ := withdraw_stakes s user amount tokenOk
  refine ⟨fun h => ?_, fun hnone hpos => ?_, fun h => ?_⟩
  · rw [w1 h]; exact ⟨rfl, rfl, rfl⟩
  · have h : balanceOf s user < amount := by simp [balanceOf, hnone, hpos]
    rw [w1 h]; exact ⟨rfl, rfl⟩
  · obtain ⟨e1, e2⟩ := w2 h
    refine ⟨by simp [balanceOf, e1], e2, fun other hne => ?_, fun hacc h0 hmax => ?_⟩
    · simp [balanceOf, e1, Function.update_noteq hne]
    · have h' : ¬ balanceOf s user < amount := by omega
      obtain ⟨u1, u2⟩ := updateRewards_stakes s user
      unfold withdraw
      simp only [h', if_false, hacc, Bool.not_true, Bool.false_eq_true]
      unfold afterAdjust
      rw [(adjustRewardRate_eq _ (by simpa [u2] using h0) (by simpa [u2] using hmax)).1]

/-- C21, witness: after the first stakes of the staking test an account that
never staked cannot withdraw one base unit, and `lp2` withdraws half of its
12500 tokens (lines 256-261). -/
theorem withdraw_checks_stake_witness :
    (withdraw (run initial Sample.firstStakes) 9 1 true).result =
      .error "Insufficient staked balance" ∧
    (withdraw (run initial Sample.firstStakes) 9 1 true).state = run initial Sample.firstStakes ∧
    balanceOf (withdraw (run initial Sample.firstStakes) Sample.lp2 (6250 * ether) true).state
      Sample.lp2 = 6250 * ether ∧
    (withdraw (run initial Sample.firstStakes) Sample.lp2 (6250 * ether) true).result = .ok () := by
  have h1 := (withdraw_checks_stake (run initial Sample.firstStakes) 9 1 true).1 (by decide)
  have h2 := (withdraw_checks_stake (run initial Sample.firstStakes) Sample.lp2 (6250 * ether)
    true).2.2 (by decide)
  exact ⟨h1.1, h1.2.1, h2.1.trans (by decide), h2.2.2.2 (by decide) (by decide) (by decide)⟩

end Staking

/-! ## Properties of the collateral arithmetic -/

namespace LeverageTrade

theorem div_pos_divisor (a b : Int) (ha : 0 ≤ a) (hb : 0 < b) : div a b = some (a / b) := by
  unfold div
  rw [if_neg hb.ne', Int.tdiv_eq_ediv ha hb.le]

theorem positions (n : Int) (hn : 0 < n) :
    maxBorrow (n * ether) = some (n * ether) ∧
    borrowAmount (n * ether) = some (n * (95 * 10 ^ 16)) ∧
    newCollateralValue (n * ether) = some (n * (12 * 10 ^ 17)) := by
  have h1 : div (n * ether * initialPrice) ether = some (n * initialPrice) := by
    rw [div_pos_divisor _ _ (by unfold ether initialPrice; positivity) (by decide)]
    congr 1
    rw [show n * ether * initialPrice = n * initialPrice * ether by ring]
    exact Int.mul_ediv_cancel _ (by decide)
  have h2 : div (n * initialPrice * 100) collateralRatio = some (n * ether) := by
    rw [div_pos_divisor _ _ (by unfold initialPrice; positivity) (by decide)]
    congr 1
    rw [show n * initialPrice * 100 = n * ether * collateralRatio by
      unfold initialPrice ether collateralRatio; ring]
    exact Int.mul_ediv_cancel _ (by decide)
  have h3 : div (n * ether * 95) 100 = some (n * (95 * 10 ^ 16)) := by
    rw [div_pos_divisor _ _ (by unfold ether; positivity) (by decide)]
    congr 1
    rw [show n * ether * 95 = n * (95 * 10 ^ 16) * 100 by unfold ether; ring]
    exact Int.mul_ediv_cancel _ (by decide)
  have h4 : div (n * ether * afterDropPrice) ether = some (n * (12 * 10 ^ 17)) := by
    rw [div_pos_divisor _ _ (by unfold ether afterDropPrice; positivity) (by decide)]
    congr 1
    rw [show n * ether * afterDropPrice = n * (12 * 10 ^ 17) * ether by
      unfold afterDropPrice; ring]
    exact Int.mul_ediv_cancel _ (by decide)
  have hm : maxBorrow (n * ether) = some (n * ether) := by
    simp only [maxBorrow, h1, Option.bind_eq_bind, Option.some_bind, h2]
  refine ⟨hm, ?_, ?_⟩
  · simp only [borrowAmount, hm, Option.bind_eq_bind, Option.some_bind, h3]
  · simp only [newCollateralValue, h4]

/-- C24: for every collateral of a positive whole number `n` of tokens the
borrowed amount is `0.95 n` tokens, the collateral revalued at 1.2 is worth
`1.2 n`, and `currentRatio` is 126, below the liquidation threshold 130. -/
theorem position_becomes_liquidatable (n : Int) (hn : 0 < n) :
    currentRatio (n * ether) = some 126 ∧ (126 : Int) < liquidationThreshold := by
  obtain ⟨_, hb, hv⟩ := positions n hn
  refine ⟨?_, by decide⟩
  simp only [currentRatio, hb, hv, Option.bind_eq_bind, Option.some_bind]
  rw [div_pos_divisor _ _ (by positivity) (by positivity)]
  congr 1
  rw [Int.mul_assoc, Int.mul_ediv_mul_of_pos _ _ hn]
  decide

/-- C25: for equal deposits of a positive whole number `n` of tokens,
`borrow1` is `n` tokens, `borrow2` is `floor(n * 1.5 * 10^20 / 175)`, strictly
less than `borrow1` scaled by the deposits (line 276), and `expectedReduction`
(`borrow1 * 150 / 175`) is that same number, so the `closeTo` of line 284 holds
with the tolerance `borrow2 / 100`. -/
theorem higher_ratio_lowers_borrowing (n : Int) (hn : 0 < n) :
    borrow1 (n * ether) = some (n * ether) ∧
    borrow2 (n * ether) = some (n * (15 * 10 ^ 19) / 175) ∧
    scaledBorrow1 (n * ether) (n * ether) = some (n * ether) ∧
    expectedReduction (n * ether) (n * ether) = some (n * (15 * 10 ^ 19) / 175) ∧
    tolerance (n * ether) = some (n * (15 * 10 ^ 19) / 175 / 100) ∧
    n * (15 * 10 ^ 19) / 175 < n * ether ∧
    closeTo (n * (15 * 10 ^ 19) / 175) (n * (15 * 10 ^ 19) / 175)
      (n * (15 * 10 ^ 19) / 175 / 100) = true := by
  have h1 : div (n * ether * initialPrice) ether = some (n * initialPrice) := by
    rw [div_pos_divisor _ _ (by unfold ether initialPrice; positivity) (by decide)]
    congr 1
    rw [show n * ether * initialPrice = n * initialPrice * ether by ring]
    exact Int.mul_ediv_cancel _ (by decide)
  have h2 : div (n * initialPrice * 100) initialCollateralRatio = some (n * ether) := by
    rw [div_pos_divisor _ _ (by unfold initialPrice; positivity) (by decide)]
    congr 1
    rw [show n * initialPrice * 100 = n * ether * initialCollateralRatio by
      unfold initialPrice ether initialCollateralRatio; ring]
    exact Int.mul_ediv_cancel _ (by decide)
  have h3 : div (n * initialPrice * 100) (newCollateralRatio true) =
      some (n * (15 * 10 ^ 19) / 175) := by
    rw [div_pos_divisor _ _ (by unfold initialPrice; positivity) (by decide)]
    congr 1
    rw [show n * initialPrice * 100 = n * (15 * 10 ^ 19) by unfold initialPrice; ring]
    rfl
  have hb1 : borrow1 (n * ether) = some (n * ether) := by
    simp only [borrow1, h1, Option.bind_eq_bind, Option.some_bind, h2]
  have hb2 : borrow2 (n * ether) = some (n * (15 * 10 ^ 19) / 175) := by
    simp only [borrow2, h1, Option.bind_eq_bind, Option.some_bind, h3]
  have hne : 0 < n * ether := by unfold ether; positivity
  have hs : scaledBorrow1 (n * ether) (n * ether) = some (n * ether) := by
    simp only [scaledBorrow1, hb1, Option.bind_eq_bind, Option.some_bind]
    rw [div_pos_divisor _ _ (by positivity) hne]
    congr 1
    exact Int.mul_ediv_cancel _ hne.ne'
  have he : expectedReduction (n * ether) (n * ether) = some (n * (15 * 10 ^ 19) / 175) := by
    simp only [expectedReduction, hs, Option.bind_eq_bind, Option.some_bind]
    rw [div_pos_divisor _ _ (by unfold initialCollateralRatio; positivity) (by decide)]
    congr 1
    rw [show n * ether * initialCollateralRatio = n * (15 * 10 ^ 19) by
      unfold ether initialCollateralRatio; ring]
    rfl
  have hq : 0 ≤ n * (15 * 10 ^ 19) / 175 := Int.ediv_nonneg (by positivity) (by norm_num)
  have ht : tolerance (n * ether) = some (n * (15 * 10 ^ 19) / 175 / 100) := by
    simp only [tolerance, hb2, Option.bind_eq_bind, Option.some_bind]
    exact div_pos_divisor _ _ hq (by norm_num)
  refine ⟨hb1, hb2, hs, he, ht, ?_, ?_⟩
  · apply Int.ediv_lt_of_lt_mul (by norm_num)
    unfold ether
    nlinarith
  · have : 0 ≤ n * (15 * 10 ^ 19) / 175 / 100 := Int.ediv_nonneg hq (by norm_num)
    simp only [closeTo, sub_self, abs_zero, decide_eq_true_eq]
    exact this

/-- C24, witness: the collateral of the test, 20000 tokens. -/
theorem position_becomes_liquidatable_witness :
    (0 : Int) < 20000 ∧ currentRatio (20000 * ether) = some 126 ∧
    (126 : Int) < liquidationThreshold :=
  ⟨by decide, position_becomes_liquidatable 20000 (by decide)⟩

/-- C25, witness: the deposits of the test, 10000 tokens each. -/
theorem higher_ratio_lowers_borrowing_witness :
    (0 : Int) < 10000 ∧ borrow1 (10000 * ether) = some (10000 * ether) ∧
    borrow2 (10000 * ether) = some 8571428571428571428571 := by
  have h := higher_ratio_lowers_borrowing 10000 (by decide)
  exact ⟨by decide, h.1, h.2.1.trans (by decide)⟩

end LeverageTrade

/-! ## Properties of the allocation of the initial mint -/

namespace Business

open Evm

theorem step_transfer (s : RWA.State) (caller recipient : Address) (amount : Nat)
    (hr : recipient ≠ zeroAddress) (hne : recipient ≠ caller) (hb : amount ≤ s.balanceOf caller) :
    (RWA.exec s caller (.transfer recipient amount)).toBool = true ∧
    (RWA.step s (caller, .transfer recipient amount)).balanceOf caller =
      s.balanceOf caller - amount := by
  have h := RWA.transfer_ok s caller recipient amount hr hb
  simp only [RWA.step, RWA.exec, h, Except.toBool, RWA.moveBalance_apply]
  simp [hne.symm]

/-- C26: when the treasury holds an initial mint `M = 100 k` and the four
recipients are accounts other than the treasury and the zero address, the four
transfers of the allocation go through and leave the treasury with exactly the
reserve share `M * 10 / 100`. -/
theorem allocation_leaves_reserve (s : RWA.State)
    (treasury owner investor1 investor2 exchange : Address) (k : Nat)
    (hbal : s.balanceOf treasury = 100 * k)
    (ho : owner ≠ treasury ∧ owner ≠ zeroAddress)
    (hi1 : investor1 ≠ treasury ∧ investor1 ≠ zeroAddress)
    (hi2 : investor2 ≠ treasury ∧ investor2 ≠ zeroAddress)
    (he : exchange ≠ treasury ∧ exchange ≠ zeroAddress) :
    allSucceed s (allocation treasury owner investor1 investor2 exchange (100 * k)) = true ∧
    (RWA.run s (allocation treasury owner investor1 investor2 exchange (100 * k))).balanceOf
      treasury = reserveAllocation (100 * k) := by
  have t1 : teamAllocation (100 * k) = 20 * k := by unfold teamAllocation; omega
  have t2 : investorAllocation (100 * k) / 2 = 15 * k := by unfold investorAllocation; omega
  have t3 : communityAllocation (100 * k) = 40 * k := by unfold communityAllocation; omega
  have t4 : reserveAllocation (100 * k) = 10 * k := by unfold reserveAllocation; omega
  simp only [allocation, t1, t2, t3, t4, RWA.run, List.foldl_cons, List.foldl_nil, allSucceed,
    Bool.and_true, Bool.and_eq_true]
  obtain ⟨a1, b1⟩ := step_transfer s treasury owner (20 * k) ho.2 ho.1 (by omega)
  obtain ⟨a2, b2⟩ := step_transfer _ treasury investor1 (15 * k) hi1.2 hi1.1
    (by rw [b1]; omega)
  obtain ⟨a3, b3⟩ := step_transfer _ treasury investor2 (15 * k) hi2.2 hi2.1
    (by rw [b2, b1]; omega)
  obtain ⟨a4, b4⟩ := step_transfer _ treasury exchange (40 * k) he.2 he.1
    (by rw [b3, b2, b1]; omega)
  refine ⟨⟨a1, a2, a3, a4⟩, ?_⟩
  rw [b4, b3, b2, b1]
  omega

/-- C26, witness: the allocation of the test, ten million tokens shared out
by the treasury to the accounts 1, 4, 5 and 2, leaves one million. -/
theorem allocation_leaves_reserve_witness :
    Sample.mintedToken.balanceOf Sample.treasury = 100 * 10 ^ 23 ∧
    (RWA.run Sample.mintedToken (allocation Sample.treasury 1 4 5 2 (100 * 10 ^ 23))).balanceOf
      Sample.treasury = 1000000 * 10 ^ 18 := by
  have h := allocation_leaves_reserve Sample.mintedToken Sample.treasury 1 4 5 2 (10 ^ 23)
    (by decide) (by decide) (by decide) (by decide) (by decide)
  exact ⟨by decide, h.2.trans (by decide)⟩

end Business

/-! ## Properties of roles, privileges and feature access -/

namespace UserEcosystem

open Evm

theorem mem_pushIfMissing (list : List String) (p q : String) :
    q ∈ pushIfMissing list p ↔ q ∈ list ∨ q = p := by
  unfold pushIfMissing
  split_ifs with h
  · constructor
    · exact Or.inl
    · rintro (h' | rfl)
      · exact h'
      · exact h
  · simp

theorem nodup_pushIfMissing (list : List String) (p : String) (h : list.Nodup) :
    (pushIfMissing list p).Nodup := by
  unfold pushIfMissing
  split_ifs with hp
  · exact h
  · exact List.Nodup.append h (List.nodup_singleton p) (by simpa using hp)

theorem mem_setTrue (object : List String) (key f : String) :
    f ∈ setTrue object key ↔ f ∈ object ∨ (f = key ∧ key ≠ "__proto__") := by
  unfold setTrue
  split_ifs with h
  · constructor
    · exact Or.inl
    · rintro (h' | ⟨rfl, hk⟩)
      · exact h'
      · rcases h with h | h
        · exact absurd h hk
        · exact h
  · simp only [List.mem_append, List.mem_singleton]
    constructor
    · rintro (h' | rfl)
      · exact Or.inl h'
      · exact Or.inr ⟨rfl, fun hk => h (Or.inl hk)⟩
    · rintro (h' | ⟨rfl, _⟩)
      · exact Or.inl h'
      · exact Or.inr rfl

theorem canAccessFeature_enableFeature (s : State) (user other : Address) (feature f : String) :
    canAccessFeature (enableFeature s user feature) other f =
      if other = user then
        (decide (f ∈ (s.featureAccess user).getD []) || decide (f = feature) ||
          decide (f ∈ inherited))
      else canAccessFeature s other f := by
  unfold canAccessFeature enableFeature
  by_cases h : other = user
  · subst h
    simp only [Function.update_same, if_true]
    have hp : ("__proto__" : String) ∈ inherited := by decide
    by_cases h3 : feature = "__proto__"
    · subst h3
      by_cases h2 : f = "__proto__"
      · subst h2
        simp [hp]
      · simp [mem_setTrue, h2]
    · by_cases h1 : f ∈ (s.featureAccess other).getD [] <;> by_cases h2 : f = feature <;>
        simp [mem_setTrue, h1, h2, h3]
  · simp only [Function.update_noteq h, if_neg h]

theorem enableFeature_other (s : State) (user : Address) (feature : String) :
    (enableFeature s user feature).userRoles = s.userRoles ∧
    (enableFeature s user feature).userPrivileges = s.userPrivileges ∧
    ∀ other, other ≠ user →
      (enableFeature s user feature).featureAccess other = s.featureAccess other :=
  ⟨rfl, rfl, fun _ h => Function.update_noteq h _ _⟩

theorem addPrivilege_other (s : State) (user : Address) (privilege : String) :
    (addPrivilege s user privilege).userRoles = s.userRoles ∧
    (addPrivilege s user privilege).featureAccess = s.featureAccess ∧
    getUserPrivileges (addPrivilege s user privilege) user =
      pushIfMissing (getUserPrivileges s user) privilege ∧
    ∀ other, other ≠ user →
      (addPrivilege s user privilege).userPrivileges other = s.userPrivileges other :=
  ⟨rfl, rfl, by simp [getUserPrivileges, addPrivilege], fun _ h => Function.update_noteq h _ _⟩

theorem ensurePrivileges_other (s : State) (user : Address) :
    (ensurePrivileges s user).userRoles = s.userRoles ∧
    (ensurePrivileges s user).featureAccess = s.featureAccess ∧
    getUserPrivileges (ensurePrivileges s user) user = getUserPrivileges s user ∧
    ∀ other, other ≠ user →
      (ensurePrivileges s user).userPrivileges other = s.userPrivileges other :=
  ⟨rfl, rfl, by simp [getUserPrivileges, ensurePrivileges], fun _ h => Function.update_noteq h _ _⟩

theorem frames_refl (user : Address) (s : State) : Frames user s s :=
  fun _ _ => ⟨rfl, rfl, rfl⟩

theorem frames_trans (user : Address) (s s' s'' : State) (h : Frames user s s')
    (h' : Frames user s' s'') : Frames user s s'' := fun other hne =>
  ⟨(h' other hne).1.trans (h other hne).1, (h' other hne).2.1.trans (h other hne).2.1,
   (h' other hne).2.2.trans (h other hne).2.2⟩

theorem frames_enableFeature (s : State) (user : Address) (feature : String) :
    Frames user s (enableFeature s user feature) := fun other hne =>
  ⟨rfl, rfl, (enableFeature_other s user feature).2.2 other hne⟩

theorem frames_addPrivilege (s : State) (user : Address) (privilege : String) :
    Frames user s (addPrivilege s user privilege) := fun other hne =>
  ⟨rfl, (addPrivilege_other s user privilege).2.2.2 other hne, rfl⟩

theorem frames_ensurePrivileges (s : State) (user : Address) :
    Frames user s (ensurePrivileges s user) := fun other hne =>
  ⟨rfl, (ensurePrivileges_other s user).2.2.2 other hne, rfl⟩

theorem frames_grantPrivilege (s : State) (user : Address) (privilege : String) :
    Frames user s (grantPrivilege user s privilege) :=
  frames_trans user _ _ _ (frames_addPrivilege s user privilege) (frames_enableFeature _ user _)

theorem frames_foldl (user : Address) (ps : List String) (s : State) :
    Frames user s (ps.foldl (grantPrivilege user) s) := by
  induction ps generalizing s with
  | nil => exact frames_refl user s
  | cons p rest ih =>
    exact frames_trans user _ _ _ (frames_grantPrivilege s user p) (ih _)

theorem frames_setRole (s : State) (user : Address) (role : String) :
    Frames user s (setRole s user role) :=
  fun _ hne => ⟨Function.update_noteq hne _ _, rfl, rfl⟩

theorem frames_grantAmbassador (s : State) (user : Address) :
    Frames user s (grantAmbassador s user) :=
  frames_trans user s (ensurePrivileges s user) (grantAmbassador s user)
    (frames_ensurePrivileges s user)
    (frames_trans user (ensurePrivileges s user)
      (addPrivilege (ensurePrivileges s user) user "早期测试功能") (grantAmbassador s user)
      (frames_addPrivilege (ensurePrivileges s user) user "早期测试功能")
      (frames_enableFeature (addPrivilege (ensurePrivileges s user) user "早期测试功能") user
        "早期测试功能"))

theorem frames_grantLeader (s : State) (user : Address) :
    Frames user s (grantLeader s user) :=
  frames_trans user s (ensurePrivileges s user) (grantLeader s user)
    (frames_ensurePrivileges s user) (frames_foldl user privileges (ensurePrivileges s user))

theorem frames_grantRole (s : State) (user : Address) (role : String) :
    Frames user s (grantRole s user role) := by
  have h1 := frames_setRole s user role
  have h2 : Frames user s
      (if role = "Ambassador" then grantAmbassador (setRole s user role) user
       else setRole s user role) := by
    by_cases ha : role = "Ambassador"
    · rw [if_pos ha]
      exact frames_trans user s (setRole s user role) _ h1 (frames_grantAmbassador _ user)
    · rw [if_neg ha]; exact h1
  unfold grantRole
  simp only []
  by_cases hl : role = "Leader"
  · rw [if_pos hl]
    exact frames_trans user s _ _ h2 (frames_grantLeader _ user)
  · rw [if_neg hl]; exact h2

theorem redeemPrivilege_ok (s : State) (user : Address) (privilegeName : String)
    (amount : Int) (tokenOk : Bool) (hok : transferAccepted tokenOk amount = true) :
    redeemPrivilege s user privilegeName amount tokenOk =
      .ok (if privilegeName = "高级教程访问权" then
        enableFeature (enableFeature (addPrivilege (ensurePrivileges s user) user privilegeName)
          user privilegeName) user "早期测试功能"
        else enableFeature (addPrivilege (ensurePrivileges s user) user privilegeName)
          user privilegeName) := by
  unfold redeemPrivilege
  simp only [hok, Bool.not_true, Bool.false_eq_true, if_false]
  split_ifs <;> rfl

theorem redeemPrivilege_error (s : State) (user : Address) (privilegeName : String)
    (amount : Int) (tokenOk : Bool) (hok : transferAccepted tokenOk amount = false) :
    redeemPrivilege s user privilegeName amount tokenOk = .error "transfer reverted" := by
  unfold redeemPrivilege
  simp only [hok, Bool.not_false, if_true]

theorem frames_redeemed (s : State) (user : Address) (privilegeName : String) :
    Frames user s
      (enableFeature (addPrivilege (ensurePrivileges s user) user privilegeName) user
        privilegeName) :=
  frames_trans user s (ensurePrivileges s user) _ (frames_ensurePrivileges s user)
    (frames_trans user (ensurePrivileges s user)
      (addPrivilege (ensurePrivileges s user) user privilegeName) _
      (frames_addPrivilege (ensurePrivileges s user) user privilegeName)
      (frames_enableFeature (addPrivilege (ensurePrivileges s user) user privilegeName) user
        privilegeName))

theorem frames_step (s : State) (a : Action) : Frames a.user s (step s a) := by
  cases a with
  | grantRole user role => exact frames_grantRole s user role
  | redeemPrivilege user privilegeName amount tokenOk =>
    simp only [step, Action.user]
    by_cases hok : transferAccepted tokenOk amount = true
    · rw [redeemPrivilege_ok s user privilegeName amount tokenOk hok]
      simp only []
      have h := frames_redeemed s user privilegeName
      by_cases hp : privilegeName = "高级教程访问权"
      · rw [if_pos hp]
        exact frames_trans user s _ _ h (frames_enableFeature _ user "早期测试功能")
      · rw [if_neg hp]; exact h
    · rw [redeemPrivilege_error s user privilegeName amount tokenOk (by simpa using hok)]
      exact frames_refl user s

theorem untouched_run (actions : List Action) (s : State) (u : Address)
    (h : ∀ a ∈ actions, a.user ≠ u) :
    (run s actions).userRoles u = s.userRoles u ∧
    (run s actions).userPrivileges u = s.userPrivileges u ∧
    (run s actions).featureAccess u = s.featureAccess u := by
  induction actions generalizing s with
  | nil => exact ⟨rfl, rfl, rfl⟩
  | cons a rest ih =>
    have h1 := frames_step s a u (fun e => h a (List.mem_cons_self _ _) e.symm)
    have h2 := ih (step s a) (fun b hb => h b (List.mem_cons_of_mem _ hb))
    simp only [run, List.foldl_cons] at h2 ⊢
    exact ⟨h2.1.trans h1.1, h2.2.1.trans h1.2.1, h2.2.2.trans h1.2.2⟩

theorem privileges_grantPrivilege (s : State) (user : Address) (p : String) :
    getUserPrivileges (grantPrivilege user s p) user = pushIfMissing (getUserPrivileges s user) p ∧
    (grantPrivilege user s p).userRoles = s.userRoles :=
  ⟨(addPrivilege_other s user p).2.2.1, rfl⟩

theorem privileges_foldl (user : Address) (ps : List String) (s : State) :
    getUserPrivileges (ps.foldl (grantPrivilege user) s) user =
      ps.foldl pushIfMissing (getUserPrivileges s user) ∧
    (ps.foldl (grantPrivilege user) s).userRoles = s.userRoles := by
  induction ps generalizing s with
  | nil => exact ⟨rfl, rfl⟩
  | cons p rest ih =>
    obtain ⟨h1, h2⟩ := ih (grantPrivilege user s p)
    simp only [List.foldl_cons]
    rw [h1, h2, (privileges_grantPrivilege s user p).1]
    exact ⟨rfl, rfl⟩

theorem foldl_pushIfMissing (ps list : List String) :
    (list.Nodup → (ps.foldl pushIfMissing list).Nodup) ∧
    ∀ q, q ∈ ps.foldl pushIfMissing list ↔ q ∈ list ∨ q ∈ ps := by
  induction ps generalizing list with
  | nil => simp
  | cons p rest ih =>
    obtain ⟨h1, h2⟩ := ih (pushIfMissing list p)
    refine ⟨fun h => h1 (nodup_pushIfMissing list p h), fun q => ?_⟩
    simp only [List.foldl_cons, h2, mem_pushIfMissing, List.mem_cons]
    tauto

theorem canAccessFeature_grantPrivilege (s : State) (user : Address) (p f : String) :
    canAccessFeature (grantPrivilege user s p) user f =
      (canAccessFeature s user f || decide (f = p) || decide (f ∈ inherited)) := by
  unfold grantPrivilege
  rw [canAccessFeature_enableFeature, if_pos rfl]
  have e : (addPrivilege s user p).featureAccess = s.featureAccess := rfl
  rw [e]
  unfold canAccessFeature
  cases s.featureAccess user with
  | none => simp
  | some object =>
    simp only [Option.getD_some]
    cases decide (f ∈ object) <;> cases decide (f = p) <;> cases decide (f ∈ inherited) <;> rfl

theorem canAccessFeature_foldl (user : Address) (ps : List String) (s : State) (f : String) :
    (canAccessFeature s user f = true ∨ f ∈ ps) →
    canAccessFeature (ps.foldl (grantPrivilege user) s) user f = true := by
  induction ps generalizing s with
  | nil =>
    rintro (h | h)
    · exact h
    · exact absurd h (List.not_mem_nil f)
  | cons p rest ih =>
    intro h
    simp only [List.foldl_cons]
    apply ih
    rw [canAccessFeature_grantPrivilege]
    rcases h with h | h
    · exact Or.inl (by simp [h])
    · rcases List.mem_cons.mp h with rfl | h'
      · exact Or.inl (by simp)
      · exact Or.inr h'

theorem grantRole_leader (s : State) (user : Address) :
    grantRole s user "Leader" = grantLeader (setRole s user "Leader") user := by
  have hne : ¬ ("Leader" : String) = "Ambassador" := by decide
  unfold grantRole
  simp only [hne, if_false, if_true]

theorem privileges_grantRole (s : State) (user : Address) (role : String) :
    getUserPrivileges (grantRole s user role) user =
      if role = "Leader" then privileges.foldl pushIfMissing (getUserPrivileges s user)
      else if role = "Ambassador" then pushIfMissing (getUserPrivileges s user) "早期测试功能"
      else getUserPrivileges s user := by
  have ha : getUserPrivileges (grantAmbassador (setRole s user role) user) user =
      pushIfMissing (getUserPrivileges s user) "早期测试功能" := by
    simp [getUserPrivileges, grantAmbassador, enableFeature, addPrivilege, ensurePrivileges,
      setRole]
  unfold grantRole
  simp only []
  by_cases hl : role = "Leader"
  · have hna : ¬ role = "Ambassador" := by rw [hl]; decide
    rw [if_pos hl, if_pos hl, if_neg hna]
    unfold grantLeader
    rw [(privileges_foldl user privileges _).1, (ensurePrivileges_other _ user).2.2.1]
    rfl
  · rw [if_neg hl, if_neg hl]
    by_cases ha' : role = "Ambassador"
    · rw [if_pos ha', if_pos ha', ha]
    · rw [if_neg ha', if_neg ha']
      rfl

theorem nodup_step (s : State) (a : Action) (other : Address)
    (h : (getUserPrivileges s other).Nodup) : (getUserPrivileges (step s a) other).Nodup := by
  by_cases hu : other = a.user
  · subst hu
    cases a with
    | grantRole user role =>
      simp only [step, Action.user] at *
      rw [privileges_grantRole]
      split_ifs
      · exact (foldl_pushIfMissing privileges _).1 h
      · exact nodup_pushIfMissing _ _ h
      · exact h
    | redeemPrivilege user privilegeName amount tokenOk =>
      simp only [step, Action.user] at *
      by_cases hok : transferAccepted tokenOk amount = true
      · rw [redeemPrivilege_ok s user privilegeName amount tokenOk hok]
        simp only []
        have e : ∀ t : State, getUserPrivileges t user =
            pushIfMissing (getUserPrivileges s user) privilegeName →
            (getUserPrivileges t user).Nodup := fun t ht => by
          rw [ht]; exact nodup_pushIfMissing _ _ h
        split_ifs
        · exact e _ (by
            simp [getUserPrivileges, enableFeature, addPrivilege, ensurePrivileges])
        · exact e _ (by
            simp [getUserPrivileges, enableFeature, addPrivilege, ensurePrivileges])
      · rw [redeemPrivilege_error s user privilegeName amount tokenOk (by simpa using hok)]
        exact h
  · have := (frames_step s a other hu).2.1
    unfold getUserPrivileges at *
    rw [this]
    exact h

/-- C28: `grantRole(user, "Leader")` makes `getUserRole(user)` return `Leader`;
when the user's privilege list had no duplicate before, it holds each of the
five privileges exactly once afterwards, and `canAccessFeature` is true for
each of them. No call of `grantRole` or `redeemPrivilege`, for any user, role
or privilege name, whether it returns or throws, turns a privilege list
without a duplicate into one with a duplicate. -/
theorem leader_holds_every_privilege (s : State) (user : Address) :
    getUserRole (grantRole s user "Leader") user = "Leader" ∧
    ((getUserPrivileges s user).Nodup →
      (getUserPrivileges (grantRole s user "Leader") user).Nodup ∧
      ∀ p ∈ privileges,
        (getUserPrivileges (grantRole s user "Leader") user).count p = 1 ∧
        canAccessFeature (grantRole s user "Leader") user p = true) ∧
    (∀ (a : Action) (other : Address), (getUserPrivileges s other).Nodup →
      (getUserPrivileges (step s a) other).Nodup) := by
  refine ⟨?_, fun h => ?_, fun a other h => nodup_step s a other h⟩
  · rw [grantRole_leader]
    unfold grantLeader getUserRole
    rw [(privileges_foldl user privileges _).2]
    simp [ensurePrivileges, setRole]
  · have hp := privileges_grantRole s user "Leader"
    rw [if_pos rfl] at hp
    obtain ⟨f1, f2⟩ := foldl_pushIfMissing privileges (getUserPrivileges s user)
    have hn : (getUserPrivileges (grantRole s user "Leader") user).Nodup := by
      rw [hp]; exact f1 h
    refine ⟨hn, fun p hmem => ⟨?_, ?_⟩⟩
    · apply List.count_eq_one_of_mem hn
      rw [hp, f2]
      exact Or.inr hmem
    · rw [grantRole_leader]
      exact canAccessFeature_foldl user privileges _ p (Or.inr hmem)

theorem canAccessFeature_none (s : State) (u : Address) (h : s.featureAccess u = none)
    (f : String) : canAccessFeature s u f = false := by
  unfold canAccessFeature
  rw [h]

/-- C27: a `redeemPrivilege(user, "高级教程访问权", amount)` whose token transfer
goes through returns; afterwards the user's privilege list is the former list
with the privilege appended unless it was there already (so no duplicate is
added), `canAccessFeature` is true for that privilege and for `早期测试功能`,
no role changes, and every other user's privilege list and feature access are
as before. A user for whom no call was made and who had no feature access
entry has `canAccessFeature` false for every feature after any sequence of
calls. -/
theorem redeem_grants_access (s : State) (user : Address) (amount : Int) (tokenOk : Bool)
    (hok : transferAccepted tokenOk amount = true) :
    (∃ s', redeemPrivilege s user "高级教程访问权" amount tokenOk = .ok s' ∧
      getUserPrivileges s' user =
        (if "高级教程访问权" ∈ getUserPrivileges s user then getUserPrivileges s user
         else getUserPrivileges s user ++ ["高级教程访问权"]) ∧
      "高级教程访问权" ∈ getUserPrivileges s' user ∧
      ((getUserPrivileges s user).Nodup → (getUserPrivileges s' user).Nodup) ∧
      canAccessFeature s' user "高级教程访问权" = true ∧
      canAccessFeature s' user "早期测试功能" = true ∧
      s'.userRoles = s.userRoles ∧
      ∀ other, other ≠ user →
        getUserRole s' other = getUserRole s other ∧
        getUserPrivileges s' other = getUserPrivileges s other ∧
        ∀ f, canAccessFeature s' other f = canAccessFeature s other f) ∧
    (∀ (actions : List Action) (u : Address), s.featureAccess u = none →
      (∀ a ∈ actions, a.user ≠ u) → ∀ f, canAccessFeature (run s actions) u f = false) := by
  have hr := redeemPrivilege_ok s user "高级教程访问权" amount tokenOk hok
  rw [if_pos rfl] at hr
  refine ⟨⟨_, hr, ?_⟩, fun actions u hu ha f =>
    canAccessFeature_none _ u ((untouched_run actions s u ha).2.2.trans hu) f⟩
  have hl : getUserPrivileges (enableFeature (enableFeature (addPrivilege
      (ensurePrivileges s user) user "高级教程访问权") user "高级教程访问权") user
      "早期测试功能") user = pushIfMissing (getUserPrivileges s user) "高级教程访问权" := by
    simp [getUserPrivileges, enableFeature, addPrivilege, ensurePrivileges]
  refine ⟨hl, ?_, fun h => ?_, ?_, ?_, rfl, fun other hne => ?_⟩
  · rw [hl, mem_pushIfMissing]; exact Or.inr rfl
  · rw [hl]; exact nodup_pushIfMissing _ _ h
  · rw [canAccessFeature_enableFeature, if_pos rfl]
    simp [enableFeature, mem_setTrue,
      show ¬ ("高级教程访问权" : String) = "__proto__" by decide]
  · rw [canAccessFeature_enableFeature, if_pos rfl]
    simp
  · have hf := frames_trans user s _ _ (frames_redeemed s user "高级教程访问权")
      (frames_enableFeature _ user "早期测试功能")
    obtain ⟨f1, f2, f3⟩ := hf other hne
    refine ⟨?_, ?_, fun f => ?_⟩
    · unfold getUserRole; rw [f1]
    · unfold getUserPrivileges; rw [f2]
    · unfold canAccessFeature; rw [f3]

/-- C27, witness: after `beforeEach` the first regular user redeems the
privilege; the second regular user still has no access to the early features
(lines 221-237). -/
theorem redeem_grants_access_witness :
    transferAccepted true 150 = true ∧
    (∃ s', redeemPrivilege Sample.community Sample.regularUser1 "高级教程访问权" 150 true = .ok s' ∧
      getUserPrivileges s' Sample.regularUser1 = ["高级教程访问权"] ∧
      canAccessFeature s' Sample.regularUser1 "早期测试功能" = true ∧
      canAccessFeature s' Sample.regularUser2 "早期测试功能" = false) := by
  obtain ⟨⟨s', h1, h2, _, _, _, h6, _, h8⟩, _⟩ :=
    redeem_grants_access Sample.community Sample.regularUser1 150 true (by decide)
  refine ⟨by decide, s', h1, h2.trans (by decide), h6, ?_⟩
  rw [(h8 Sample.regularUser2 (by decide)).2.2]
  decide

/-- C28, witness: the ambassador of `beforeEach`, who holds two privileges,
holds all five after being made a leader. -/
theorem leader_holds_every_privilege_witness :
    (getUserPrivileges Sample.community Sample.ambassador).Nodup ∧
    getUserRole (grantRole Sample.community Sample.ambassador "Leader") Sample.ambassador =
      "Leader" ∧
    (getUserPrivileges (grantRole Sample.community Sample.ambassador "Leader")
      Sample.ambassador).count "社区治理投票" = 1 := by
  have h := leader_holds_every_privilege Sample.community Sample.ambassador
  exact ⟨by decide, h.1, ((h.2.1 (by decide)).2 "社区治理投票" (by decide)).1⟩

end UserEcosystem

/-! ## Properties of `verify.js` -/

namespace Verify

open Js Config

theorem verifyAll_ok (outcome : Nat → Except String Unit) (index : Nat)
    (blocks : List (String × Task)) (trace : Trace) :
    ∃ trace', verifyAll outcome index blocks trace = .ok trace' ∧
      trace'.attempted = trace.attempted ++ blocks.map Prod.snd := by
  induction blocks generalizing index trace with
  | nil => exact ⟨trace, rfl, by simp⟩
  | cons b rest ih =>
    obtain ⟨label, task⟩ := b
    cases ho : outcome index with
    | ok u =>
      obtain ⟨t, h1, h2⟩ := ih (index + 1)
        { attempted := trace.attempted ++ [task]
          log := trace.log ++ ["\n" ++ toString index ++ ". Verifying " ++ label ++ "..."] ++
            [label ++ " verification successful!"] }
      refine ⟨t, ?_, ?_⟩
      · simp only [verifyAll, verifyBlock, ho]
        exact h1
      · rw [h2]; simp
    | error message =>
      obtain ⟨t, h1, h2⟩ := ih (index + 1)
        { attempted := trace.attempted ++ [task]
          log := trace.log ++ ["\n" ++ toString index ++ ". Verifying " ++ label ++ "..."] ++
            ["Failed to verify " ++ label ++ ": " ++ message] }
      refine ⟨t, ?_, ?_⟩
      · simp only [verifyAll, verifyBlock, ho]
        exact h1
      · rw [h2]; simp

/-- C29: when the address check passes, whatever each of the five
`verify:verify` tasks does (return, or throw an error with a message), `main`
starts all five, in the order RWA, prRWA, STABLE_RWA, Helper, GLA, its promise
resolves and the exit status is 0; when the check fails `main` starts no task
and the exit status is 1. -/
theorem verification_is_failure_tolerant (env : ProcessEnv)
    (outcome : Nat → Except String Unit) :
    (hasDeployedContracts (config env) = true →
      (main env outcome).trace.attempted = tasks (config env) ∧
      (main env outcome).trace.attempted.map Task.address =
        [getProp (config env) "rwa", getProp (config env) "prRWA",
         getProp (config env) "stableRwa", getProp (config env) "helper",
         getProp (config env) "gla"] ∧
      (main env outcome).isRejected = false ∧
      exitStatus (main env outcome) = 0) ∧
    (hasDeployedContracts (config env) = false →
      (main env outcome).trace.attempted = [] ∧
      exitStatus (main env outcome) = 1) := by
  constructor
  · intro h
    obtain ⟨t, h1, h2⟩ := verifyAll_ok outcome 1 (labels.zip (tasks (config env)))
      { attempted := []
        log := ["Verifying RWA Launchpad protocol contracts on " ++
          (getProp (config env) "network").toStr ++ "..."] ++
          ["\nStarting verification process..."] }
    have hm : main env outcome = .resolved { t with log := t.log ++ closingLines } := by
      unfold main
      simp only [h, Bool.not_true, Bool.false_eq_true, if_false]
      rw [h1]
    have ht : t.attempted = tasks (config env) := by
      rw [h2]
      simp [labels, tasks]
    rw [hm]
    refine ⟨ht, ?_, rfl, rfl⟩
    simp only [Completion.trace, ht]
    rfl
  · intro h
    unfold main
    simp only [h, Bool.not_false, if_true]
    exact ⟨rfl, rfl⟩

/-- C29, witness: with the six checked addresses configured and every task
failing, all five tasks are started and the exit status is 0; with nothing
configured the exit status is 1. -/
theorem verification_is_failure_tolerant_witness :
    hasDeployedContracts (config Sample.envWithCore) = true ∧
    (main Sample.envWithCore Sample.allFail).trace.attempted.length = 5 ∧
    exitStatus (main Sample.envWithCore Sample.allFail) = 0 ∧
    hasDeployedContracts (config fun _ => none) = false ∧
    exitStatus (main (fun _ => none) Sample.allFail) = 1 := by
  have h := verification_is_failure_tolerant Sample.envWithCore Sample.allFail
  have h' := verification_is_failure_tolerant (fun _ => none) Sample.allFail
  refine ⟨by decide, ?_, (h.1 (by decide)).2.2.2, by decide, (h'.2 (by decide)).2⟩
  rw [(h.1 (by decide)).1]
  rfl

end Verify
